import Mathlib

/-!
# G-code ingestion front-end (`gcode_parse.c`)

A shallow embedding of `decfloat_to_int`, `gcode_parse_char` and
`request_resend`, followed by the properties of the decoder that are
established on it.

Conventions of the embedding.

* C integers are `Nat` (unsigned) or `Int` (signed); every conversion and every
  arithmetic result that C reduces to 32, 16 or 8 bits is reduced here with
  `u32`, `i32`, `i16` or an explicit `%`.  Signed overflow is modelled as
  two's-complement wrap-around, which is what the AVR target does.
* One-bit fields (`seen_*`, `option_*`, `sign`) are `Bool`.
* The globals `last_field`, `read_digit` and `next_target` are the fields of
  `State`; the serial transport is the output log `State.tx`.
* `gcode_parse.h`, `sermsg.c`, `heater.h` and the board configuration are not
  part of the sources.  Their constants and build switches are the fields of
  `Config`; the width of every slot of the command record is the width of the
  `serwrite_*` call that echoes the slot in `gcode_parse_char`.
-/

namespace GcodeParse

/-! ## Machine integers -/

/-- Conversion to `uint32_t`. -/
def u32 (x : Int) : Nat := (x % 4294967296).toNat

/-- Conversion to `int32_t` (two's complement). -/
def i32 (x : Int) : Int := (x + 2147483648) % 4294967296 - 2147483648

/-- Conversion to a signed 16 bit integer (two's complement). -/
def i16 (x : Int) : Int := (x + 32768) % 65536 - 32768

/-- Conversion to `uint16_t`. -/
def u16 (x : Int) : Nat := (x % 65536).toNat

/-- Conversion to `uint8_t`. -/
def u8 (x : Int) : Nat := (x % 256).toNat

/-! ## Data model -/

/-- The decimal accumulator `decfloat` (fields `sign`, `mantissa`, `exponent`). -/
structure decfloat where
  sign : Bool
  mantissa : Nat
  exponent : Nat
  deriving DecidableEq, Repr

/-- The axis targets and feed rate carried by a command (`TARGET`). -/
structure TARGET where
  X : Int
  Y : Int
  Z : Int
  E : Int
  F : Nat
  deriving DecidableEq, Repr

/-- The command record `GCODE_COMMAND` (the global `next_target`). -/
structure GCODE_COMMAND where
  seen_G : Bool
  seen_M : Bool
  seen_X : Bool
  seen_Y : Bool
  seen_Z : Bool
  seen_E : Bool
  seen_F : Bool
  seen_S : Bool
  seen_P : Bool
  seen_T : Bool
  seen_N : Bool
  seen_checksum : Bool
  seen_semi_comment : Bool
  seen_parens_comment : Bool
  option_relative : Bool
  option_inches : Bool
  G : Nat
  M : Nat
  target : TARGET
  S : Int
  P : Nat
  T : Nat
  N : Nat
  N_expected : Nat
  checksum_read : Nat
  checksum_calculated : Nat
  deriving DecidableEq, Repr

/-- What `gcode_parse_char` hands to its collaborators: one constructor per
call on the serial transport, and one for the call of the executor. -/
inductive Out where
  /-- `serial_writechar(c)` -/
  | serial_writechar (c : Nat)
  /-- `serwrite_uint8(v)` -/
  | serwrite_uint8 (v : Nat)
  /-- `serwrite_uint16(v)` -/
  | serwrite_uint16 (v : Nat)
  /-- `serwrite_int32(v)` -/
  | serwrite_int32 (v : Int)
  /-- `serwrite_uint32(v)` -/
  | serwrite_uint32 (v : Nat)
  /-- `serial_writestr_P(PSTR("ok "))` -/
  | str_ok
  /-- `serial_writestr_P(PSTR("\n"))` -/
  | str_newline
  /-- `serial_writestr_P(PSTR("rs "))` -/
  | str_rs
  /-- `sersendf_P(PSTR("rs %ld Expected checksum %d\n"), a, b)` -/
  | rs_expected_checksum (a : Nat) (b : Nat)
  /-- `sersendf_P(PSTR("rs %ld Expected line number %ld\n"), a, b)` -/
  | rs_expected_line_number (a : Nat) (b : Nat)
  /-- `process_gcode_command()` entered with `next_target = cmd` -/
  | process_gcode_command (cmd : GCODE_COMMAND)
  deriving DecidableEq, Repr

/-- The parser globals and the output log. -/
structure State where
  last_field : Nat
  read_digit : decfloat
  next_target : GCODE_COMMAND
  tx : List Out
  deriving DecidableEq, Repr

/-- Build-time configuration and external collaborators: everything
`gcode_parse.c` uses and does not define. -/
structure Config where
  /-- `DECFLOAT_EXP_MAX` -/
  DECFLOAT_EXP_MAX : Nat
  /-- `DECFLOAT_MANT_MAX` -/
  DECFLOAT_MANT_MAX : Nat
  /-- value of the macro `STEPS_PER_M_X` (a `uint32_t`) -/
  STEPS_PER_M_X : Nat
  STEPS_PER_M_Y : Nat
  STEPS_PER_M_Z : Nat
  STEPS_PER_M_E : Nat
  /-- value of the macro `STEPS_PER_IN_X` (a `uint32_t`) -/
  STEPS_PER_IN_X : Nat
  STEPS_PER_IN_Y : Nat
  STEPS_PER_IN_Z : Nat
  STEPS_PER_IN_E : Nat
  /-- `PID_SCALE` -/
  PID_SCALE : Int
  /-- `#ifdef ASTERISK_IN_CHECKSUM_INCLUDED` -/
  ASTERISK_IN_CHECKSUM_INCLUDED : Bool
  /-- `#ifdef REQUIRE_LINENUMBER` -/
  REQUIRE_LINENUMBER : Bool
  /-- `#ifdef REQUIRE_CHECKSUM` -/
  REQUIRE_CHECKSUM : Bool
  /-- `#ifdef DEBUG` -/
  DEBUG : Bool
  /-- `debug_flags & DEBUG_ECHO` is non-zero -/
  debug_echo : Bool
  /-- effect of the executor `process_gcode_command()` on `next_target` -/
  process_gcode_command : GCODE_COMMAND → GCODE_COMMAND

/-! ## `decfloat_to_int` -/

/-- Modelled from the spec: the table `powers[]` is defined in `sermsg.c`,
which is not among the sources; the conversion divides "by `10^e`". -/
def powers (e : Nat) : Nat := 10 ^ e

/-- The table `rounding[DECFLOAT_EXP_MAX]`; entries past the seven
initialisers are zero. -/
def rounding (e : Nat) : Int := [0, 5, 50, 500, 5000, 50000, 500000].getD e 0

/-- `static int32_t decfloat_to_int(decfloat *df, int32_t multiplicand,
uint32_t denominator)`.  The mixed `int32_t`/`uint32_t` products, quotients and
remainders are computed on `uint32_t`, as C's usual arithmetic conversions
prescribe. -/
def decfloat_to_int (df : decfloat) (multiplicand : Int) (denominator : Nat) : Int :=
  let r : Int := i32 df.mantissa
  let e : Nat := df.exponent % 256
  let e : Nat := if e ≠ 0 then e - 1 else e
  let rnew1 : Int := i32 (u32 r * (u32 multiplicand / denominator) : Nat)
  let r : Int :=
    if e ≠ 0 then
      let rnew2 : Int := i32 ((u32 r * (u32 multiplicand % denominator) % 4294967296 / denominator : Nat))
      let r : Int := i32 (rnew1 + rnew2)
      i32 ((u32 (i32 (r + rounding e)) / powers e : Nat))
    else
      let rnew2 : Int :=
        i32 (((u32 r * (u32 multiplicand % denominator) + denominator / 2) % 4294967296 / denominator : Nat))
      i32 (rnew1 + rnew2)
  if df.sign then i32 (-r) else r

/-! ## `gcode_parse_char` -/

/-- The macro `crc(a, b)`, stored into the `uint8_t` accumulator. -/
def crc (a b : Nat) : Nat := (a ^^^ b) % 256

/-- The test `(c >= 'A' && c <= 'Z') || c == '*'`. -/
def is_field_start (c : Nat) : Bool := (65 ≤ c && c ≤ 90) || c == 42

/-- The test `c == 10 || c == 13`. -/
def is_eol (c : Nat) : Bool := c == 10 || c == 13

/-- The log after `if (debug_flags & DEBUG_ECHO) <write o>;`. -/
def echo (cfg : Config) (tx : List Out) (o : Out) : List Out :=
  if cfg.debug_echo then tx ++ [o] else tx

/-- Lines 88-91: the checksum update of the `ASTERISK_IN_CHECKSUM_INCLUDED`
variant, on the byte as received. -/
def crc_before (cfg : Config) (c : Nat) (st : State) : State :=
  { st with next_target :=
      { st.next_target with checksum_calculated :=
          (if cfg.ASTERISK_IN_CHECKSUM_INCLUDED && !st.next_target.seen_checksum then
            crc st.next_target.checksum_calculated c
          else st.next_target.checksum_calculated) } }

/-- Lines 93-95: `if (c >= 'a' && c <= 'z') c &= ~32;`. -/
def uppercase (c : Nat) : Nat := if 97 ≤ c ∧ c ≤ 122 then c &&& 223 else c

/-- Lines 102-192: the `switch (last_field)` that commits the pending field. -/
def commit_field (cfg : Config) (st : State) : State :=
  let nt := st.next_target
  let rd := st.read_digit
  if st.last_field = 71 then
    let g := rd.mantissa % 256
    { st with next_target := { nt with G := g }, tx := echo cfg st.tx (.serwrite_uint8 g) }
  else if st.last_field = 77 then
    let m := rd.mantissa % 256
    { st with next_target := { nt with M := m }, tx := echo cfg st.tx (.serwrite_uint8 m) }
  else if st.last_field = 88 then
    let v := if nt.option_inches then decfloat_to_int rd (i32 cfg.STEPS_PER_IN_X) 1
             else decfloat_to_int rd (i32 cfg.STEPS_PER_M_X) 1000
    { st with next_target := { nt with target := { nt.target with X := v } }, tx := echo cfg st.tx (.serwrite_int32 v) }
  else if st.last_field = 89 then
    let v := if nt.option_inches then decfloat_to_int rd (i32 cfg.STEPS_PER_IN_Y) 1
             else decfloat_to_int rd (i32 cfg.STEPS_PER_M_Y) 1000
    { st with next_target := { nt with target := { nt.target with Y := v } }, tx := echo cfg st.tx (.serwrite_int32 v) }
  else if st.last_field = 90 then
    let v := if nt.option_inches then decfloat_to_int rd (i32 cfg.STEPS_PER_IN_Z) 1
             else decfloat_to_int rd (i32 cfg.STEPS_PER_M_Z) 1000
    { st with next_target := { nt with target := { nt.target with Z := v } }, tx := echo cfg st.tx (.serwrite_int32 v) }
  else if st.last_field = 69 then
    let v := if nt.option_inches then decfloat_to_int rd (i32 cfg.STEPS_PER_IN_E) 1
             else decfloat_to_int rd (i32 cfg.STEPS_PER_M_E) 1000
    { st with next_target := { nt with target := { nt.target with E := v } }, tx := echo cfg st.tx (.serwrite_uint32 (u32 v)) }
  else if st.last_field = 70 then
    let v := if nt.option_inches then u32 (decfloat_to_int rd 254 10)
             else u32 (decfloat_to_int rd 1 1)
    { st with next_target := { nt with target := { nt.target with F := v } }, tx := echo cfg st.tx (.serwrite_uint32 v) }
  else if st.last_field = 83 then
    let v := if nt.M = 104 ∨ nt.M = 109 then i16 (decfloat_to_int rd 4 1)
             else if 130 ≤ nt.M ∧ nt.M ≤ 132 then i16 (decfloat_to_int rd (i32 cfg.PID_SCALE) 1)
             else i16 (decfloat_to_int rd 1 1)
    { st with next_target := { nt with S := v }, tx := echo cfg st.tx (.serwrite_uint16 (u16 v)) }
  else if st.last_field = 80 then
    let v := if nt.G = 4 then u16 (decfloat_to_int rd 1000 1)
             else u16 (decfloat_to_int rd 1 1)
    { st with next_target := { nt with P := v }, tx := echo cfg st.tx (.serwrite_uint16 v) }
  else if st.last_field = 84 then
    let t := rd.mantissa % 256
    { st with next_target := { nt with T := t }, tx := echo cfg st.tx (.serwrite_uint8 t) }
  else if st.last_field = 78 then
    let n := u32 (decfloat_to_int rd 1 1)
    { st with next_target := { nt with N := n }, tx := echo cfg st.tx (.serwrite_uint32 n) }
  else if st.last_field = 42 then
    let v := u8 (decfloat_to_int rd 1 1)
    { st with next_target := { nt with checksum_read := v }, tx := echo cfg st.tx (.serwrite_uint8 v) }
  else st

/-- Lines 97-197: "process previous field"; `c` is the byte after case
folding. -/
def process_previous_field (cfg : Config) (c : Nat) (st : State) : State :=
  if st.last_field ≠ 0 ∧ (is_field_start c || is_eol c) then
    { commit_field cfg st with last_field := 0, read_digit := ⟨false, 0, 0⟩ }
  else st

/-- Lines 209-300: the `switch (c)` on the folded byte. -/
def process_character (cfg : Config) (c : Nat) (st : State) : State :=
  let nt := st.next_target
  let rd := st.read_digit
  if c = 71 then { st with next_target := { nt with seen_G := true, seen_M := false, M := 0 } }
  else if c = 77 then { st with next_target := { nt with seen_M := true, seen_G := false, G := 0 } }
  else if c = 88 then { st with next_target := { nt with seen_X := true } }
  else if c = 89 then { st with next_target := { nt with seen_Y := true } }
  else if c = 90 then { st with next_target := { nt with seen_Z := true } }
  else if c = 69 then { st with next_target := { nt with seen_E := true } }
  else if c = 70 then { st with next_target := { nt with seen_F := true } }
  else if c = 83 then { st with next_target := { nt with seen_S := true } }
  else if c = 80 then { st with next_target := { nt with seen_P := true } }
  else if c = 84 then { st with next_target := { nt with seen_T := true } }
  else if c = 78 then { st with next_target := { nt with seen_N := true } }
  else if c = 42 then { st with next_target := { nt with seen_checksum := true } }
  else if c = 59 then { st with next_target := { nt with seen_semi_comment := true } }
  else if c = 40 then { st with next_target := { nt with seen_parens_comment := true } }
  else if c = 45 then { st with read_digit := { rd with sign := true, exponent := 0, mantissa := 0 } }
  else if c = 46 then
    { st with read_digit := { rd with exponent := if rd.exponent = 0 then 1 else rd.exponent } }
  else if cfg.DEBUG ∧ (c = 32 ∨ c = 9 ∨ c = 10 ∨ c = 13) then st
  else if 48 ≤ c ∧ c ≤ 57 ∧ rd.mantissa < cfg.DECFLOAT_MANT_MAX / 10
            ∧ rd.exponent < cfg.DECFLOAT_EXP_MAX then
    let m := (rd.mantissa <<< 3) + (rd.mantissa <<< 1) + (c - 48)
    { st with read_digit :=
        { rd with mantissa := m, exponent := if rd.exponent ≠ 0 then rd.exponent + 1 else rd.exponent } }
  else if cfg.DEBUG then
    { st with tx := st.tx ++ [Out.serial_writechar 63, Out.serial_writechar c, Out.serial_writechar 63] }
  else st

/-- Lines 199-302: field starts, the character switch, and the end of a
parenthetical comment. -/
def skip_comments (cfg : Config) (c : Nat) (st : State) : State :=
  if !st.next_target.seen_semi_comment && !st.next_target.seen_parens_comment then
    process_character cfg c
      (if is_field_start c then
        { st with last_field := c, tx := echo cfg st.tx (.serial_writechar c) }
      else st)
  else if st.next_target.seen_parens_comment ∧ c = 41 then
    { st with next_target := { st.next_target with seen_parens_comment := false } }
  else st

/-- Lines 305-308: the checksum update of the default variant, on the byte
after case folding. -/
def crc_after (cfg : Config) (c : Nat) (st : State) : State :=
  { st with next_target :=
      { st.next_target with checksum_calculated :=
          (if !cfg.ASTERISK_IN_CHECKSUM_INCLUDED && !st.next_target.seen_checksum then
            crc st.next_target.checksum_calculated c
          else st.next_target.checksum_calculated) } }

/-- `void request_resend(void)`. -/
def request_resend (st : State) : State :=
  { st with tx := st.tx ++ [Out.str_rs, Out.serwrite_uint8 (st.next_target.N % 256), Out.serial_writechar 10] }

/-- The condition of line 317 (constant `1` without `REQUIRE_LINENUMBER`). -/
def linenumber_ok (cfg : Config) (nt : GCODE_COMMAND) : Bool :=
  if cfg.REQUIRE_LINENUMBER then decide (nt.N_expected ≤ nt.N) && nt.seen_N else true

/-- The condition of lines 322-328. -/
def checksum_ok (cfg : Config) (nt : GCODE_COMMAND) : Bool :=
  if cfg.REQUIRE_CHECKSUM then decide (nt.checksum_calculated = nt.checksum_read) && nt.seen_checksum
  else decide (nt.checksum_calculated = nt.checksum_read) || !nt.seen_checksum

/-- Lines 315-346: accept the line (acknowledge, run the executor, advance
`N_expected`) or ask for a resend. -/
def accept_or_resend (cfg : Config) (st : State) : State :=
  if linenumber_ok cfg st.next_target then
    if checksum_ok cfg st.next_target then
      let st := { st with tx := st.tx ++ [Out.str_ok, Out.process_gcode_command st.next_target] }
      let st := { st with next_target := cfg.process_gcode_command st.next_target }
      let st := { st with tx := st.tx ++ [Out.str_newline] }
      if st.next_target.seen_N then
        { st with next_target :=
            { st.next_target with N_expected := (st.next_target.N + 1) % 4294967296 } }
      else st
    else
      request_resend
        { st with tx := st.tx ++
            [Out.rs_expected_checksum st.next_target.N_expected st.next_target.checksum_calculated] }
  else
    request_resend
      { st with tx := st.tx ++
          [Out.rs_expected_line_number st.next_target.N_expected st.next_target.N_expected] }

/-- Lines 348-366: "reset variables". -/
def reset_variables (st : State) : State :=
  let nt := st.next_target
  let nt := { nt with
    seen_X := false, seen_Y := false, seen_Z := false, seen_E := false, seen_F := false,
    seen_S := false, seen_P := false, seen_T := false, seen_N := false, seen_M := false,
    seen_checksum := false, seen_semi_comment := false, seen_parens_comment := false,
    checksum_read := 0, checksum_calculated := 0 }
  let nt := { nt with seen_G := true, G := 1 }
  let nt := if nt.option_relative then { nt with target := { nt.target with X := 0, Y := 0, Z := 0 } } else nt
  let nt := { nt with target := { nt.target with E := 0 } }
  { st with last_field := 0, read_digit := ⟨false, 0, 0⟩, next_target := nt }

/-- Lines 310-367: "end of line". -/
def end_of_line (cfg : Config) (c : Nat) (st : State) : State :=
  if is_eol c then
    reset_variables (accept_or_resend cfg { st with tx := echo cfg st.tx (.serial_writechar c) })
  else st

/-- The state in which the end-of-line test of line 311 is reached: lines
87-308 of `gcode_parse_char`. -/
def before_end_of_line (cfg : Config) (c : Nat) (st : State) : State :=
  let c := c % 256
  let st := crc_before cfg c st
  let c := uppercase c
  crc_after cfg c (skip_comments cfg c (process_previous_field cfg c st))

/-- `void gcode_parse_char(uint8_t c)`. -/
def gcode_parse_char (cfg : Config) (c : Nat) (st : State) : State :=
  end_of_line cfg (uppercase (c % 256)) (before_end_of_line cfg c st)

/-- Feeds a byte string to `gcode_parse_char`, first byte first. -/
def feed (cfg : Config) (bytes : List Nat) (st : State) : State :=
  bytes.foldl (fun s c => gcode_parse_char cfg c s) st

/-- The zero-initialised `TARGET`. -/
def TARGET.zero : TARGET := ⟨0, 0, 0, 0, 0⟩

/-- The zero-initialised command record (`next_target` lives in `.bss`). -/
def GCODE_COMMAND.zero : GCODE_COMMAND :=
  { seen_G := false, seen_M := false, seen_X := false, seen_Y := false, seen_Z := false,
    seen_E := false, seen_F := false, seen_S := false, seen_P := false, seen_T := false,
    seen_N := false, seen_checksum := false, seen_semi_comment := false,
    seen_parens_comment := false, option_relative := false, option_inches := false,
    G := 0, M := 0, target := TARGET.zero, S := 0, P := 0, T := 0, N := 0, N_expected := 0,
    checksum_read := 0, checksum_calculated := 0 }

/-- The state at process start: `last_field = 0`, `read_digit` and
`next_target` zeroed, nothing sent. -/
def State.init : State := ⟨0, ⟨false, 0, 0⟩, GCODE_COMMAND.zero, []⟩

/-- An executor that leaves `next_target` as it finds it. -/
def executor_none : GCODE_COMMAND → GCODE_COMMAND := fun cmd => cmd

/-- A sample build: seven fractional digits, a 24 bit mantissa cap, 320 steps
per millimetre on every axis, `PID_SCALE = 1024`. -/
def Config.sample (asterisk linenumber checksum : Bool) : Config :=
  { DECFLOAT_EXP_MAX := 7, DECFLOAT_MANT_MAX := 16777215,
    STEPS_PER_M_X := 320000, STEPS_PER_M_Y := 320000, STEPS_PER_M_Z := 320000,
    STEPS_PER_M_E := 320000,
    STEPS_PER_IN_X := 8128, STEPS_PER_IN_Y := 8128, STEPS_PER_IN_Z := 8128,
    STEPS_PER_IN_E := 8128,
    PID_SCALE := 1024,
    ASTERISK_IN_CHECKSUM_INCLUDED := asterisk, REQUIRE_LINENUMBER := linenumber,
    REQUIRE_CHECKSUM := checksum, DEBUG := false, debug_echo := false,
    process_gcode_command := executor_none }

/-- The bytes of a string literal (ASCII). -/
def bytes (s : String) : List Nat := s.toList.map Char.toNat


/-- Round-half-up of the rational `num / den`: `floor (num / den + 1/2)`. -/
def round_half_up (num den : Nat) : Int := ⌊(num : ℚ) / (den : ℚ) + 1 / 2⌋

/-- Value of a run of decimal digits read after the accumulated value `acc`. -/
def digits_value (acc : Nat) (ds : List Nat) : Nat := ds.foldl (fun a d => 10 * a + d) acc

/-- The ASCII bytes of a run of decimal digits. -/
def digit_bytes (ds : List Nat) : List Nat := ds.map (fun d => d + 48)

/-- The spec's state "accumulating-field": a field letter is pending and the
decoder is in neither kind of comment. -/
def accumulating_field (st : State) : Prop :=
  st.last_field ≠ 0 ∧ st.next_target.seen_semi_comment = false
    ∧ st.next_target.seen_parens_comment = false

instance (st : State) : Decidable (accumulating_field st) := by
  unfold accumulating_field; infer_instance

/-- The part of the state that decoding depends on: everything except the
checksum accumulator and the output log, which are blanked. -/
def State.core (st : State) : State :=
  { st with tx := [], next_target := { st.next_target with checksum_calculated := 0 } }

/-- The state at process start or right after a line terminator: the state in
which a line begins (`reset_variables` is idempotent). -/
def line_start (st : State) : Prop := st = State.init ∨ reset_variables st = st

instance (st : State) : Decidable (line_start st) := by
  unfold line_start; infer_instance

/-- What a field start or a line end does to the pending field: the call of
"process previous field" on such a byte. -/
def commit_pending (cfg : Config) (st : State) : State := process_previous_field cfg 10 st

/-- The byte that reaches the checksum accumulator for the received byte `c`:
the byte as received in the `ASTERISK_IN_CHECKSUM_INCLUDED` build (line 90),
the case-folded byte otherwise (line 307). -/
def checksum_byte (cfg : Config) (c : Nat) : Nat :=
  if cfg.ASTERISK_IN_CHECKSUM_INCLUDED then c % 256 else uppercase (c % 256)

/-- XOR fold of a byte string, starting from 0. -/
def xor_fold (l : List Nat) : Nat := l.foldl (fun a b => a ^^^ b) 0

/-- The bytes of the decimal string `[-]I[.F]`: `neg` tells whether the sign is
there, `I` and `F` are the digits before and after the point, and `F = none`
when there is no point. -/
def decimal_bytes (neg : Bool) (I : List Nat) (F : Option (List Nat)) : List Nat :=
  (if neg then [45] else []) ++ digit_bytes I ++
    (match F with
     | none => []
     | some f => 46 :: digit_bytes f)

/-- The decimal digits of a checksum value (a `uint8_t`, so at most three
digits), most significant first. -/
def checksum_digits (n : Nat) : List Nat :=
  if n < 10 then [n] else if n < 100 then [n / 10, n % 10] else [n / 100, n / 10 % 10, n % 10]

/-- The macro `STEPS_PER_M_X`: `(uint32_t) ((STEPS_PER_MM_X * 1000.0) + 0.5)`, for a
positive calibration constant given as an exact rational (the conversion
truncates, which is the floor of a positive value). -/
def STEPS_PER_M (steps_per_mm : ℚ) : Nat := u32 ⌊steps_per_mm * 1000 + 1 / 2⌋

/-- The macro `STEPS_PER_IN_X`: `(uint32_t) ((25.4 * STEPS_PER_MM_X) + 0.5)`. -/
def STEPS_PER_IN (steps_per_mm : ℚ) : Nat := u32 ⌊(254 / 10 : ℚ) * steps_per_mm + 1 / 2⌋

/-- A build whose X axis has the calibration constant `STEPS_PER_MM_X = steps_per_mm`. -/
def Config.with_steps_per_mm_x (cfg : Config) (steps_per_mm : ℚ) : Config :=
  { cfg with STEPS_PER_M_X := STEPS_PER_M steps_per_mm,
             STEPS_PER_IN_X := STEPS_PER_IN steps_per_mm }

/-- The calls of the executor recorded in a log, with the record each one found
in `next_target`. -/
def executor_calls (tx : List Out) : List GCODE_COMMAND :=
  tx.filterMap (fun o => match o with
    | Out.process_gcode_command cmd => some cmd
    | _ => none)

/-- The test for an ASCII letter, either case. -/
def is_letter (c : Nat) : Bool := (65 ≤ c && c ≤ 90) || (97 ≤ c && c ≤ 122)

/-- The bytes a sequence of fields is made of: letters, decimal digits, `-`, `.`
and the blank between fields. -/
def field_char (c : Nat) : Bool :=
  is_letter c || (48 ≤ c && c ≤ 57) || c == 45 || c == 46 || c == 32

/-- A sequence of fields as a byte string: made of field bytes only and, unless
empty, beginning with the letter of its first field. -/
def field_sequence (l : List Nat) : Prop :=
  (∀ c ∈ l, field_char c = true) ∧ ∀ c, l.head? = some c → is_letter c = true

/-- The bytes that have a `case` of their own in the switch of lines 209-271. -/
def has_case (c : Nat) : Bool :=
  decide (c ∈ [71, 77, 88, 89, 90, 69, 70, 83, 80, 84, 78, 42, 59, 40, 45, 46])

/-- The state with `seen_parens_comment` set to `b`. -/
def set_parens (b : Bool) (st : State) : State :=
  { st with next_target := { st.next_target with seen_parens_comment := b } }

/-- A command record without its checksum accumulator. -/
def GCODE_COMMAND.without_checksum (cmd : GCODE_COMMAND) : GCODE_COMMAND :=
  { cmd with checksum_calculated := 0 }

/-- `s1` is `s` with its pending field possibly committed already, up to the
checksum accumulator and the log. -/
def pending_done (cfg : Config) (s s1 : State) : Prop :=
  s1.core = s.core ∨ s1.core = (commit_pending cfg s).core


/-- The writes that open a resend message, each one the token `rs ` at the
start of a line of the reply: the `sersendf_P` formats of lines 339 and 344 and
the `serial_writestr_P(PSTR("rs "))` of `request_resend`. -/
def opens_resend (o : Out) : Bool :=
  match o with
  | Out.rs_expected_checksum _ _ => true
  | Out.rs_expected_line_number _ _ => true
  | Out.str_rs => true
  | _ => false

/-- Number of resend messages in a log. -/
def resend_messages (tx : List Out) : Nat := tx.countP opens_resend

/-- The outcome of the tests of lines 315-328 on a record: `true` when the line
is accepted. -/
def line_accepted (cfg : Config) (nt : GCODE_COMMAND) : Bool :=
  linenumber_ok cfg nt && checksum_ok cfg nt

/-- The bytes a number is written with: decimal digits, `.` and `-`. -/
def number_char (c : Nat) : Bool := (48 ≤ c && c ≤ 57) || c == 46 || c == 45

/-- The bytes of an unsigned number: decimal digits and `.`. -/
def digit_or_point (c : Nat) : Bool := (48 ≤ c && c ≤ 57) || c == 46

/-- The record that the reset of lines 348-366 finds, before the update of
`N_expected` (lines 335-336): the record as the executor leaves it when the line
`nt` is accepted, and `nt` itself when the line is rejected. -/
def record_at_reset (cfg : Config) (nt : GCODE_COMMAND) : GCODE_COMMAND :=
  if line_accepted cfg nt then cfg.process_gcode_command nt else nt

/-- The negation of the test of line 200: the decoder is inside a comment. -/
def in_comment (st : State) : Bool :=
  st.next_target.seen_semi_comment || st.next_target.seen_parens_comment

/-- While the bytes `l` are read from the state `st`, no field with the letter
`L` (given in upper case) starts: every byte that folds to `L` arrives inside a
comment. -/
def no_field (cfg : Config) (L : Nat) : List Nat → State → Bool
  | [], _ => true
  | c :: t, st =>
    (uppercase (c % 256) != L || in_comment st) && no_field cfg L t (gcode_parse_char cfg c st)

/-- The letters that have a slot in the command record: the letters with a
`case` in both switches (lines 103-186 and 212-248). -/
def known_letter (c : Nat) : Bool :=
  decide (c ∈ [71, 77, 88, 89, 90, 69, 70, 83, 80, 84, 78])

/-- Lines 58-62 of `decfloat_to_int`: the index `e` at which `rounding[]` and
`powers[]` are read. -/
def rounding_index (df : decfloat) : Nat :=
  let e : Nat := df.exponent % 256
  if e ≠ 0 then e - 1 else e

/-- The caps of the accumulator: `mantissa < DECFLOAT_MANT_MAX` and
`exponent <= DECFLOAT_EXP_MAX`. -/
def within_caps (cfg : Config) (rd : decfloat) : Prop :=
  rd.mantissa < cfg.DECFLOAT_MANT_MAX ∧ rd.exponent ≤ cfg.DECFLOAT_EXP_MAX

instance (cfg : Config) (rd : decfloat) : Decidable (within_caps cfg rd) := by
  unfold within_caps; infer_instance
/-! # Properties -/

/-! ## Machine arithmetic and `decfloat_to_int` -/

theorem u32_i32 (x : Int) : u32 (i32 x) = u32 x := by
  unfold u32 i32; omega

theorem u32_natCast (n : Nat) : u32 (n : Int) = n % 4294967296 := by
  unfold u32; omega

theorem i32_of_lt (x : Int) (h0 : 0 ≤ x) (h1 : x < 2147483648) : i32 x = x := by
  unfold i32; omega

theorem i32_neg_of_lt (x : Int) (h0 : 0 ≤ x) (h1 : x < 2147483648) : i32 (-x) = -x := by
  unfold i32; omega

theorem round_half_up_eq (num den : Nat) (hden : 0 < den) :
    round_half_up num den = ((2 * num + den) / (2 * den) : Nat) := by
  unfold round_half_up
  have h : (num : ℚ) / (den : ℚ) + 1 / 2 = ((2 * num + den : Nat) : ℚ) / ((2 * den : Nat) : ℚ) := by
    have hd : (den : ℚ) ≠ 0 := by exact_mod_cast hden.ne'
    push_cast
    field_simp
    ring
  rw [h, Rat.floor_natCast_div_natCast]
  norm_cast

/-- Dividing twice and adding half of an even divisor rounds the exact quotient once. -/
theorem div_add_half_div (n d h : Nat) (hd : 0 < d) :
    (n / d + h) / (2 * h) = (2 * n + d * (2 * h)) / (2 * (d * (2 * h))) := by
  have e1 : 2 * n + d * (2 * h) = 2 * (n + d * h) := by ring
  rw [e1, Nat.mul_div_mul_left _ _ (by norm_num : 0 < 2)]
  rw [← Nat.div_div_eq_div_mul (n + d * h) d (2 * h), Nat.add_mul_div_left _ _ hd]

/-- Adding the truncated half of the divisor before dividing rounds half up, for odd divisors too. -/
theorem add_half_div (a d : Nat) (hd : 0 < d) :
    (a + d / 2) / d = (2 * a + d) / (2 * d) := by
  have h1 := Nat.div_add_mod (a + d / 2) d
  have h2 := Nat.mod_lt (a + d / 2) hd
  set t := (a + d / 2) / d with ht
  set u := d * t with hu
  symm
  apply Nat.div_eq_of_lt_le
  · have : t * (2 * d) = 2 * u := by rw [hu]; ring
    rw [this]; omega
  · have : (t + 1) * (2 * d) = 2 * u + 2 * d := by rw [hu]; ring
    rw [this]; omega

theorem rounding_eq (e : Nat) (h0 : e ≠ 0) (h : e < 7) :
    rounding e = ((10 ^ e / 2 : Nat) : Int) ∧ 10 ^ e = 2 * (10 ^ e / 2) ∧ 0 < 10 ^ e / 2
      ∧ 10 ^ e / 2 ≤ 500000 := by
  interval_cases e <;> simp [rounding] at h0 ⊢

theorem i32_add_natCast (a q : Nat) (h : a + q < 2147483648) :
    i32 (i32 (a : Int) + i32 (q : Int)) = ((a + q : Nat) : Int) := by
  unfold i32; omega

theorem u32_i32_add_natCast (n h : Nat) (hn : n + h < 4294967296) :
    u32 (i32 ((n : Int) + (h : Int))) = n + h := by
  unfold u32 i32; omega

/-- The arithmetic core of `decfloat_to_int`: with the product split as
`N = A * den + B`, both branches compute the exact quotient rounded half up. -/
theorem round_core (A B N den e : Nat) (hden : 0 < den) (hden32 : den < 4294967296)
    (hN : N < 2147483648) (hsplit : N = A * den + B) (he : e < 7) :
    (2 * N + den * 10 ^ e) / (2 * (den * 10 ^ e)) < 2147483648 ∧
    (if e ≠ 0 then
        i32 ((u32 (i32 (i32 (i32 (A : Int) + i32 ((B % 4294967296 / den : Nat) : Int))
          + rounding e)) / powers e : Nat) : Int)
      else i32 (i32 (A : Int) + i32 (((B + den / 2) % 4294967296 / den : Nat) : Int)))
      = (((2 * N + den * 10 ^ e) / (2 * (den * 10 ^ e)) : Nat) : Int) := by
  have hA : A ≤ A * den := Nat.le_mul_of_pos_right A hden
  have hBN : B < 2147483648 := by omega
  by_cases he0 : e = 0
  · subst he0
    rw [if_neg (by simp)]
    have e2 : (B + den / 2) % 4294967296 = B + den / 2 := Nat.mod_eq_of_lt (by omega)
    have e4 : (N + den / 2) / den = A + (B + den / 2) / den := by
      rw [hsplit, Nat.add_assoc, Nat.add_comm, Nat.add_mul_div_right _ _ hden, Nat.add_comm]
    have e5 : (N + den / 2) / den = (2 * N + den) / (2 * den) := add_half_div N den hden
    have e6 : (N + den / 2) / den < 2147483648 := by
      rcases Nat.lt_or_ge den 2 with h1 | h2
      · have hd1 : den = 1 := by omega
        rw [hd1]; simpa using hN
      · have h3 : (N + den / 2) / den ≤ (N + den) / den :=
          Nat.div_le_div_right (by omega)
        have h4 : (N + den) / den = N / den + 1 := Nat.add_div_right _ hden
        have h5 : N / den ≤ N / 2 := Nat.div_le_div_left h2 (by norm_num)
        omega
    rw [e2, i32_add_natCast _ _ (by rw [← e4]; exact e6), ← e4, e5]
    simp only [pow_zero, Nat.mul_one]
    exact ⟨by rw [← e5]; exact e6, trivial⟩
  · obtain ⟨hr, hp, hh0, hh⟩ := rounding_eq e he0 he
    rw [if_pos he0]
    have e2 : B % 4294967296 = B := Nat.mod_eq_of_lt (by omega)
    have hq : N / den = A + B / den := by
      rw [hsplit, Nat.add_comm, Nat.add_mul_div_right _ _ hden, Nat.add_comm]
    have hqle : N / den ≤ N := Nat.div_le_self _ _
    rw [e2, i32_add_natCast _ _ (by rw [← hq]; omega), ← hq, hr,
      u32_i32_add_natCast _ _ (by omega)]
    unfold powers
    have e6 : (N / den + 10 ^ e / 2) / (2 * (10 ^ e / 2)) ≤ (N / den + 10 ^ e / 2) / 2 :=
      Nat.div_le_div_left (by omega) (by norm_num)
    have e7 : (N / den + 10 ^ e / 2) / (2 * (10 ^ e / 2)) < 2147483648 := by omega
    have e8 := div_add_half_div N den (10 ^ e / 2) hden
    rw [← hp] at e7 e8
    rw [i32_of_lt _ (Int.natCast_nonneg _) (by exact_mod_cast e7), e8]
    rw [e8] at e7
    exact ⟨e7, rfl⟩

theorem decfloat_to_int_nat (s : Bool) (m x mult den : Nat)
    (hx : x ≤ 7) (hden : 0 < den) (hden32 : den < 4294967296) (hmult : mult < 2147483648)
    (hwrap : m * mult < 2147483648) :
    decfloat_to_int ⟨s, m, x⟩ mult den =
      if s then -(((2 * (m * mult) + den * 10 ^ (x - 1)) / (2 * (den * 10 ^ (x - 1))) : Nat) : Int)
      else (((2 * (m * mult) + den * 10 ^ (x - 1)) / (2 * (den * 10 ^ (x - 1))) : Nat) : Int) := by
  have hm1 : u32 (i32 (m : Int)) * (mult / den) = m * (mult / den)
      ∧ u32 (i32 (m : Int)) * (mult % den) = m * (mult % den) := by
    rw [u32_i32, u32_natCast]
    rcases Nat.eq_zero_or_pos mult with h | h
    · subst h; simp
    · have : m < 2147483648 := lt_of_le_of_lt (Nat.le_mul_of_pos_right m h) hwrap
      rw [Nat.mod_eq_of_lt (by omega)]; exact ⟨rfl, rfl⟩
  have hmu : u32 (mult : Int) = mult := by rw [u32_natCast]; omega
  have he : (if x % 256 ≠ 0 then x % 256 - 1 else x % 256) = x - 1 := by split <;> omega
  have hsplit : m * mult = m * (mult / den) * den + m * (mult % den) := by
    have := Nat.div_add_mod mult den
    calc m * mult = m * (den * (mult / den) + mult % den) := by rw [this]
      _ = _ := by ring
  obtain ⟨hR, hval⟩ := round_core (m * (mult / den)) (m * (mult % den)) (m * mult) den (x - 1)
    hden hden32 hwrap hsplit (by omega)
  unfold decfloat_to_int
  simp only [hmu, hm1.1, hm1.2, he]
  rw [hval]
  cases s
  · simp
  · simp only [if_true]
    exact i32_neg_of_lt _ (Int.natCast_nonneg _) (by exact_mod_cast hR)

/-! ## Frames of the phases of `gcode_parse_char` -/

theorem uppercase_of_lower (c : Nat) (h1 : 97 ≤ c) (h2 : c ≤ 122) : uppercase c = c - 32 := by
  unfold uppercase
  rw [if_pos ⟨h1, h2⟩]
  interval_cases c <;> rfl

theorem uppercase_of_not_lower (c : Nat) (h : c < 97 ∨ 122 < c) : uppercase c = c := by
  unfold uppercase
  rw [if_neg (by omega)]

theorem uppercase_lt (c : Nat) (h : c < 256) : uppercase c < 256 := by
  by_cases hl : 97 ≤ c ∧ c ≤ 122
  · rw [uppercase_of_lower c hl.1 hl.2]; omega
  · rw [uppercase_of_not_lower c (by omega)]; exact h

theorem core_last_field (st : State) : st.core.last_field = st.last_field := rfl

theorem core_read_digit (st : State) : st.core.read_digit = st.read_digit := rfl

theorem core_core (st : State) : st.core.core = st.core := rfl

/-- What `commit_field` can change: the value slots and the output log. -/
theorem commit_field_frame (cfg : Config) (st : State) :
    ∃ g m tg s p t n cr tx,
      commit_field cfg st =
        { st with
          next_target := { st.next_target with
            G := g, M := m, target := tg, S := s, P := p, T := t, N := n, checksum_read := cr },
          tx := tx } := by
  unfold commit_field
  dsimp only
  by_cases h71 : st.last_field = 71
  · rw [if_pos h71]
    exact ⟨_, _, _, _, _, _, _, _, _, rfl⟩
  rw [if_neg h71]
  by_cases h77 : st.last_field = 77
  · rw [if_pos h77]
    exact ⟨_, _, _, _, _, _, _, _, _, rfl⟩
  rw [if_neg h77]
  by_cases h88 : st.last_field = 88
  · rw [if_pos h88]
    exact ⟨_, _, _, _, _, _, _, _, _, rfl⟩
  rw [if_neg h88]
  by_cases h89 : st.last_field = 89
  · rw [if_pos h89]
    exact ⟨_, _, _, _, _, _, _, _, _, rfl⟩
  rw [if_neg h89]
  by_cases h90 : st.last_field = 90
  · rw [if_pos h90]
    exact ⟨_, _, _, _, _, _, _, _, _, rfl⟩
  rw [if_neg h90]
  by_cases h69 : st.last_field = 69
  · rw [if_pos h69]
    exact ⟨_, _, _, _, _, _, _, _, _, rfl⟩
  rw [if_neg h69]
  by_cases h70 : st.last_field = 70
  · rw [if_pos h70]
    exact ⟨_, _, _, _, _, _, _, _, _, rfl⟩
  rw [if_neg h70]
  by_cases h83 : st.last_field = 83
  · rw [if_pos h83]
    exact ⟨_, _, _, _, _, _, _, _, _, rfl⟩
  rw [if_neg h83]
  by_cases h80 : st.last_field = 80
  · rw [if_pos h80]
    exact ⟨_, _, _, _, _, _, _, _, _, rfl⟩
  rw [if_neg h80]
  by_cases h84 : st.last_field = 84
  · rw [if_pos h84]
    exact ⟨_, _, _, _, _, _, _, _, _, rfl⟩
  rw [if_neg h84]
  by_cases h78 : st.last_field = 78
  · rw [if_pos h78]
    exact ⟨_, _, _, _, _, _, _, _, _, rfl⟩
  rw [if_neg h78]
  by_cases h42 : st.last_field = 42
  · rw [if_pos h42]
    exact ⟨_, _, _, _, _, _, _, _, _, rfl⟩
  rw [if_neg h42]
  exact ⟨_, _, _, _, _, _, _, _, _, rfl⟩

theorem core_commit_field (cfg : Config) (st : State) :
    (commit_field cfg st).core = (commit_field cfg st.core).core := by
  unfold commit_field
  dsimp only
  by_cases h71 : st.last_field = 71
  · rw [if_pos h71, if_pos (show st.core.last_field = 71 from h71)]
    rfl
  rw [if_neg h71, if_neg (show ¬ st.core.last_field = 71 from h71)]
  by_cases h77 : st.last_field = 77
  · rw [if_pos h77, if_pos (show st.core.last_field = 77 from h77)]
    rfl
  rw [if_neg h77, if_neg (show ¬ st.core.last_field = 77 from h77)]
  by_cases h88 : st.last_field = 88
  · rw [if_pos h88, if_pos (show st.core.last_field = 88 from h88)]
    rfl
  rw [if_neg h88, if_neg (show ¬ st.core.last_field = 88 from h88)]
  by_cases h89 : st.last_field = 89
  · rw [if_pos h89, if_pos (show st.core.last_field = 89 from h89)]
    rfl
  rw [if_neg h89, if_neg (show ¬ st.core.last_field = 89 from h89)]
  by_cases h90 : st.last_field = 90
  · rw [if_pos h90, if_pos (show st.core.last_field = 90 from h90)]
    rfl
  rw [if_neg h90, if_neg (show ¬ st.core.last_field = 90 from h90)]
  by_cases h69 : st.last_field = 69
  · rw [if_pos h69, if_pos (show st.core.last_field = 69 from h69)]
    rfl
  rw [if_neg h69, if_neg (show ¬ st.core.last_field = 69 from h69)]
  by_cases h70 : st.last_field = 70
  · rw [if_pos h70, if_pos (show st.core.last_field = 70 from h70)]
    rfl
  rw [if_neg h70, if_neg (show ¬ st.core.last_field = 70 from h70)]
  by_cases h83 : st.last_field = 83
  · rw [if_pos h83, if_pos (show st.core.last_field = 83 from h83)]
    rfl
  rw [if_neg h83, if_neg (show ¬ st.core.last_field = 83 from h83)]
  by_cases h80 : st.last_field = 80
  · rw [if_pos h80, if_pos (show st.core.last_field = 80 from h80)]
    rfl
  rw [if_neg h80, if_neg (show ¬ st.core.last_field = 80 from h80)]
  by_cases h84 : st.last_field = 84
  · rw [if_pos h84, if_pos (show st.core.last_field = 84 from h84)]
    rfl
  rw [if_neg h84, if_neg (show ¬ st.core.last_field = 84 from h84)]
  by_cases h78 : st.last_field = 78
  · rw [if_pos h78, if_pos (show st.core.last_field = 78 from h78)]
    rfl
  rw [if_neg h78, if_neg (show ¬ st.core.last_field = 78 from h78)]
  by_cases h42 : st.last_field = 42
  · rw [if_pos h42, if_pos (show st.core.last_field = 42 from h42)]
    rfl
  rw [if_neg h42, if_neg (show ¬ st.core.last_field = 42 from h42)]
  rfl

theorem core_process_character (cfg : Config) (c : Nat) (st : State) :
    (process_character cfg c st).core = (process_character cfg c st.core).core := by
  unfold process_character
  dsimp only
  by_cases h71 : c = 71
  · rw [if_pos h71, if_pos (show c = 71 from h71)]
    rfl
  rw [if_neg h71, if_neg (show ¬ c = 71 from h71)]
  by_cases h77 : c = 77
  · rw [if_pos h77, if_pos (show c = 77 from h77)]
    rfl
  rw [if_neg h77, if_neg (show ¬ c = 77 from h77)]
  by_cases h88 : c = 88
  · rw [if_pos h88, if_pos (show c = 88 from h88)]
    rfl
  rw [if_neg h88, if_neg (show ¬ c = 88 from h88)]
  by_cases h89 : c = 89
  · rw [if_pos h89, if_pos (show c = 89 from h89)]
    rfl
  rw [if_neg h89, if_neg (show ¬ c = 89 from h89)]
  by_cases h90 : c = 90
  · rw [if_pos h90, if_pos (show c = 90 from h90)]
    rfl
  rw [if_neg h90, if_neg (show ¬ c = 90 from h90)]
  by_cases h69 : c = 69
  · rw [if_pos h69, if_pos (show c = 69 from h69)]
    rfl
  rw [if_neg h69, if_neg (show ¬ c = 69 from h69)]
  by_cases h70 : c = 70
  · rw [if_pos h70, if_pos (show c = 70 from h70)]
    rfl
  rw [if_neg h70, if_neg (show ¬ c = 70 from h70)]
  by_cases h83 : c = 83
  · rw [if_pos h83, if_pos (show c = 83 from h83)]
    rfl
  rw [if_neg h83, if_neg (show ¬ c = 83 from h83)]
  by_cases h80 : c = 80
  · rw [if_pos h80, if_pos (show c = 80 from h80)]
    rfl
  rw [if_neg h80, if_neg (show ¬ c = 80 from h80)]
  by_cases h84 : c = 84
  · rw [if_pos h84, if_pos (show c = 84 from h84)]
    rfl
  rw [if_neg h84, if_neg (show ¬ c = 84 from h84)]
  by_cases h78 : c = 78
  · rw [if_pos h78, if_pos (show c = 78 from h78)]
    rfl
  rw [if_neg h78, if_neg (show ¬ c = 78 from h78)]
  by_cases h42 : c = 42
  · rw [if_pos h42, if_pos (show c = 42 from h42)]
    rfl
  rw [if_neg h42, if_neg (show ¬ c = 42 from h42)]
  by_cases h59 : c = 59
  · rw [if_pos h59, if_pos (show c = 59 from h59)]
    rfl
  rw [if_neg h59, if_neg (show ¬ c = 59 from h59)]
  by_cases h40 : c = 40
  · rw [if_pos h40, if_pos (show c = 40 from h40)]
    rfl
  rw [if_neg h40, if_neg (show ¬ c = 40 from h40)]
  by_cases h45 : c = 45
  · rw [if_pos h45, if_pos (show c = 45 from h45)]
    rfl
  rw [if_neg h45, if_neg (show ¬ c = 45 from h45)]
  by_cases h46 : c = 46
  · rw [if_pos h46, if_pos (show c = 46 from h46)]
    rfl
  rw [if_neg h46, if_neg (show ¬ c = 46 from h46)]
  simp only [core_read_digit]
  split_ifs <;> rfl

theorem core_crc_before (cfg : Config) (c : Nat) (st : State) :
    (crc_before cfg c st).core = st.core := rfl

theorem core_crc_after (cfg : Config) (c : Nat) (st : State) :
    (crc_after cfg c st).core = st.core := rfl

theorem process_previous_field_eq (cfg : Config) (c : Nat) (st : State) :
    process_previous_field cfg c st =
      if is_field_start c || is_eol c then commit_pending cfg st else st := by
  unfold commit_pending process_previous_field
  by_cases h : (is_field_start c || is_eol c) = true
  · rw [if_pos h]
    by_cases h0 : st.last_field ≠ 0
    · rw [if_pos ⟨h0, h⟩, if_pos ⟨h0, by decide⟩]
    · rw [if_neg (fun hh => h0 hh.1), if_neg (fun hh => h0 hh.1)]
  · rw [if_neg h, if_neg (fun hh => h hh.2)]

theorem commit_pending_eq (cfg : Config) (st : State) :
    commit_pending cfg st =
      if st.last_field ≠ 0 then
        { commit_field cfg st with last_field := 0, read_digit := ⟨false, 0, 0⟩ }
      else st := by
  unfold commit_pending process_previous_field
  by_cases h0 : st.last_field ≠ 0
  · rw [if_pos ⟨h0, by decide⟩, if_pos h0]
  · rw [if_neg (fun hh => h0 hh.1), if_neg h0]

theorem core_commit_pending (cfg : Config) (st : State) :
    (commit_pending cfg st).core = (commit_pending cfg st.core).core := by
  rw [commit_pending_eq, commit_pending_eq]
  by_cases h0 : st.last_field ≠ 0
  · rw [if_pos h0, if_pos (show st.core.last_field ≠ 0 from h0)]
    have h := core_commit_field cfg st
    unfold State.core at h ⊢
    simp only [State.mk.injEq] at h ⊢
    exact ⟨trivial, trivial, h.2.2.1, trivial⟩
  · rw [if_neg h0, if_neg (show ¬ st.core.last_field ≠ 0 from h0)]
    rfl

theorem core_process_previous_field (cfg : Config) (c : Nat) (st : State) :
    (process_previous_field cfg c st).core = (process_previous_field cfg c st.core).core := by
  rw [process_previous_field_eq, process_previous_field_eq]
  by_cases h : (is_field_start c || is_eol c) = true
  · rw [if_pos h, if_pos h]; exact core_commit_pending cfg st
  · rw [if_neg h, if_neg h]; rfl

theorem core_skip_comments (cfg : Config) (c : Nat) (st : State) :
    (skip_comments cfg c st).core = (skip_comments cfg c st.core).core := by
  unfold skip_comments
  by_cases h : (!st.next_target.seen_semi_comment && !st.next_target.seen_parens_comment) = true
  · rw [if_pos h, if_pos (show (!st.core.next_target.seen_semi_comment
        && !st.core.next_target.seen_parens_comment) = true from h)]
    rw [core_process_character]
    conv_rhs => rw [core_process_character]
    by_cases hf : is_field_start c = true
    · rw [if_pos hf, if_pos hf]; rfl
    · rw [if_neg hf, if_neg hf]; rfl
  · rw [if_neg h, if_neg (show ¬ (!st.core.next_target.seen_semi_comment
        && !st.core.next_target.seen_parens_comment) = true from h)]
    by_cases hp : st.next_target.seen_parens_comment = true ∧ c = 41
    · rw [if_pos hp, if_pos (show st.core.next_target.seen_parens_comment = true ∧ c = 41 from hp)]
      rfl
    · rw [if_neg hp, if_neg (show ¬ (st.core.next_target.seen_parens_comment = true ∧ c = 41) from hp)]
      rfl

/-- Decoding does not depend on the checksum accumulator or on the log: the
core of the state before the end-of-line test is a function of the core of the
state the byte arrives in. -/
theorem core_before_end_of_line (cfg : Config) (c : Nat) (st : State) :
    (before_end_of_line cfg c st).core = (before_end_of_line cfg c st.core).core := by
  unfold before_end_of_line
  dsimp only
  rw [core_crc_after, core_crc_after, core_skip_comments]
  conv_rhs => rw [core_skip_comments]
  rw [core_process_previous_field]
  conv_rhs => rw [core_process_previous_field]
  rw [core_crc_before, core_crc_before, core_core]

theorem gcode_parse_char_of_not_eol (cfg : Config) (c : Nat) (st : State)
    (h : is_eol (uppercase (c % 256)) = false) :
    gcode_parse_char cfg c st = before_end_of_line cfg c st := by
  unfold gcode_parse_char end_of_line
  rw [if_neg (by simp [h])]

theorem gcode_parse_char_of_eol (cfg : Config) (c : Nat) (st : State)
    (h : c = 10 ∨ c = 13) :
    gcode_parse_char cfg c st =
      reset_variables (accept_or_resend cfg
        { before_end_of_line cfg c st with
          tx := echo cfg (before_end_of_line cfg c st).tx (.serial_writechar c) }) := by
  unfold gcode_parse_char end_of_line
  rcases h with h | h <;> subst h <;> rfl

/-! ## Steps on the bytes of a number -/

/-- A byte that neither starts a field nor ends the line, arriving outside a
comment, only goes through the character switch and the checksum update. -/
theorem before_end_of_line_plain (cfg : Config) (c : Nat) (st : State)
    (hc : c < 97) (hf : is_field_start c = false) (he : is_eol c = false)
    (hs : st.next_target.seen_semi_comment = false)
    (hp : st.next_target.seen_parens_comment = false) :
    before_end_of_line cfg c st =
      crc_after cfg c (process_character cfg c (crc_before cfg c st)) := by
  unfold before_end_of_line
  have h1 : c % 256 = c := Nat.mod_eq_of_lt (by omega)
  have h2 : uppercase c = c := uppercase_of_not_lower c (Or.inl hc)
  simp only [h1, h2]
  rw [process_previous_field_eq, if_neg (by simp [hf, he])]
  unfold skip_comments
  rw [if_pos (by
    show (!(st.next_target.seen_semi_comment) && !(st.next_target.seen_parens_comment)) = true
    rw [hs, hp]; rfl)]
  rw [if_neg (by simp [hf])]

theorem process_character_digit (cfg : Config) (c : Nat) (st : State)
    (h1 : 48 ≤ c) (h2 : c ≤ 57)
    (hm : st.read_digit.mantissa < cfg.DECFLOAT_MANT_MAX / 10)
    (he : st.read_digit.exponent < cfg.DECFLOAT_EXP_MAX) :
    process_character cfg c st =
      { st with read_digit :=
          ⟨st.read_digit.sign, 10 * st.read_digit.mantissa + (c - 48),
            if st.read_digit.exponent = 0 then 0 else st.read_digit.exponent + 1⟩ } := by
  unfold process_character
  dsimp only
  by_cases h71 : c = 71
  · rw [if_pos h71]
    exfalso; omega
  rw [if_neg h71]
  by_cases h77 : c = 77
  · rw [if_pos h77]
    exfalso; omega
  rw [if_neg h77]
  by_cases h88 : c = 88
  · rw [if_pos h88]
    exfalso; omega
  rw [if_neg h88]
  by_cases h89 : c = 89
  · rw [if_pos h89]
    exfalso; omega
  rw [if_neg h89]
  by_cases h90 : c = 90
  · rw [if_pos h90]
    exfalso; omega
  rw [if_neg h90]
  by_cases h69 : c = 69
  · rw [if_pos h69]
    exfalso; omega
  rw [if_neg h69]
  by_cases h70 : c = 70
  · rw [if_pos h70]
    exfalso; omega
  rw [if_neg h70]
  by_cases h83 : c = 83
  · rw [if_pos h83]
    exfalso; omega
  rw [if_neg h83]
  by_cases h80 : c = 80
  · rw [if_pos h80]
    exfalso; omega
  rw [if_neg h80]
  by_cases h84 : c = 84
  · rw [if_pos h84]
    exfalso; omega
  rw [if_neg h84]
  by_cases h78 : c = 78
  · rw [if_pos h78]
    exfalso; omega
  rw [if_neg h78]
  by_cases h42 : c = 42
  · rw [if_pos h42]
    exfalso; omega
  rw [if_neg h42]
  by_cases h59 : c = 59
  · rw [if_pos h59]
    exfalso; omega
  rw [if_neg h59]
  by_cases h40 : c = 40
  · rw [if_pos h40]
    exfalso; omega
  rw [if_neg h40]
  by_cases h45 : c = 45
  · rw [if_pos h45]
    exfalso; omega
  rw [if_neg h45]
  by_cases h46 : c = 46
  · rw [if_pos h46]
    exfalso; omega
  rw [if_neg h46]
  rw [if_neg (by omega), if_pos ⟨h1, h2, hm, he⟩]
  have e1 : (st.read_digit.mantissa <<< 3) + (st.read_digit.mantissa <<< 1) + (c - 48)
      = 10 * st.read_digit.mantissa + (c - 48) := by
    simp only [Nat.shiftLeft_eq]; omega
  rw [e1]
  by_cases h0 : st.read_digit.exponent = 0
  · rw [if_neg (by simp [h0]), if_pos h0, h0]
  · rw [if_pos h0, if_neg h0]

theorem process_character_minus (cfg : Config) (st : State) :
    process_character cfg 45 st = { st with read_digit := ⟨true, 0, 0⟩ } := rfl

theorem process_character_point (cfg : Config) (st : State) :
    process_character cfg 46 st =
      { st with read_digit :=
          { st.read_digit with
            exponent := if st.read_digit.exponent = 0 then 1 else st.read_digit.exponent } } := rfl

theorem feed_nil (cfg : Config) (st : State) : feed cfg [] st = st := rfl

theorem feed_cons (cfg : Config) (c : Nat) (l : List Nat) (st : State) :
    feed cfg (c :: l) st = feed cfg l (gcode_parse_char cfg c st) := rfl

theorem feed_append (cfg : Config) (l1 l2 : List Nat) (st : State) :
    feed cfg (l1 ++ l2) st = feed cfg l2 (feed cfg l1 st) := by
  unfold feed; rw [List.foldl_append]

/-- The state after a byte that only touched the accumulator and the checksum:
`rd` is the new accumulator, `cs` the new checksum. -/
theorem numeric_step_form (cfg : Config) (c : Nat) (st : State) (rd : decfloat) :
    crc_after cfg c { crc_before cfg c st with read_digit := rd } =
      { st with
        read_digit := rd,
        next_target := { st.next_target with
          checksum_calculated :=
            (crc_after cfg c (crc_before cfg c st)).next_target.checksum_calculated } } := rfl

theorem crc_steps_of_seen_checksum (cfg : Config) (c : Nat) (st : State)
    (h : st.next_target.seen_checksum = true) :
    (crc_after cfg c (crc_before cfg c st)).next_target.checksum_calculated
      = st.next_target.checksum_calculated := by
  unfold crc_after crc_before
  simp [h]

/-- A digit accepted by the caps, outside a comment: `mantissa = 10 * mantissa + d`,
and the exponent counts it when a point was seen. -/
theorem gcode_parse_char_digit (cfg : Config) (st : State) (d : Nat) (hd : d < 10)
    (hs : st.next_target.seen_semi_comment = false)
    (hp : st.next_target.seen_parens_comment = false)
    (hm : st.read_digit.mantissa < cfg.DECFLOAT_MANT_MAX / 10)
    (he : st.read_digit.exponent < cfg.DECFLOAT_EXP_MAX) :
    gcode_parse_char cfg (d + 48) st =
      { st with
        read_digit := ⟨st.read_digit.sign, 10 * st.read_digit.mantissa + d,
          if st.read_digit.exponent = 0 then 0 else st.read_digit.exponent + 1⟩,
        next_target := { st.next_target with
          checksum_calculated :=
            (crc_after cfg (d + 48) (crc_before cfg (d + 48) st)).next_target.checksum_calculated } } := by
  have h1 : (d + 48) % 256 = d + 48 := Nat.mod_eq_of_lt (by omega)
  have h2 : uppercase (d + 48) = d + 48 := uppercase_of_not_lower _ (Or.inl (by omega))
  have hf : is_field_start (d + 48) = false := by interval_cases d <;> rfl
  have hl : is_eol (d + 48) = false := by interval_cases d <;> rfl
  rw [gcode_parse_char_of_not_eol cfg _ st (by rw [h1, h2]; exact hl),
    before_end_of_line_plain cfg _ st (by omega) hf hl hs hp,
    process_character_digit cfg (d + 48) (crc_before cfg (d + 48) st) (by omega) (by omega) hm he]
  rw [show d + 48 - 48 = d by omega]
  rfl

/-- A minus sign outside a comment sets the sign and clears mantissa and exponent. -/
theorem gcode_parse_char_minus (cfg : Config) (st : State)
    (hs : st.next_target.seen_semi_comment = false)
    (hp : st.next_target.seen_parens_comment = false) :
    gcode_parse_char cfg 45 st =
      { st with
        read_digit := ⟨true, 0, 0⟩,
        next_target := { st.next_target with
          checksum_calculated :=
            (crc_after cfg 45 (crc_before cfg 45 st)).next_target.checksum_calculated } } := by
  rw [gcode_parse_char_of_not_eol cfg _ st (by decide),
    before_end_of_line_plain cfg _ st (by decide) (by decide) (by decide) hs hp]
  rfl

/-- A decimal point outside a comment: the first one sets the exponent to 1,
any later one is ignored. -/
theorem gcode_parse_char_point (cfg : Config) (st : State)
    (hs : st.next_target.seen_semi_comment = false)
    (hp : st.next_target.seen_parens_comment = false) :
    gcode_parse_char cfg 46 st =
      { st with
        read_digit := { st.read_digit with
          exponent := if st.read_digit.exponent = 0 then 1 else st.read_digit.exponent },
        next_target := { st.next_target with
          checksum_calculated :=
            (crc_after cfg 46 (crc_before cfg 46 st)).next_target.checksum_calculated } } := by
  rw [gcode_parse_char_of_not_eol cfg _ st (by decide),
    before_end_of_line_plain cfg _ st (by decide) (by decide) (by decide) hs hp]
  rfl

theorem digits_value_cons (acc d : Nat) (ds : List Nat) :
    digits_value acc (d :: ds) = digits_value (10 * acc + d) ds := rfl

theorem digits_value_append (acc : Nat) (ds es : List Nat) :
    digits_value acc (ds ++ es) = digits_value (digits_value acc ds) es := by
  unfold digits_value; rw [List.foldl_append]

theorem digits_value_mono (ds : List Nat) : ∀ acc, acc ≤ digits_value acc ds := by
  induction ds with
  | nil => intro acc; exact le_refl _
  | cons d ds ih =>
    intro acc
    rw [digits_value_cons]
    exact le_trans (by omega) (ih (10 * acc + d))

/-- A run of digits, every one accepted by the caps, read outside a comment. -/
theorem feed_digits (cfg : Config) (ds : List Nat) :
    ∀ st : State,
      st.next_target.seen_semi_comment = false →
      st.next_target.seen_parens_comment = false →
      (∀ d ∈ ds, d < 10) →
      (∀ k, k < ds.length →
        digits_value st.read_digit.mantissa (ds.take k) < cfg.DECFLOAT_MANT_MAX / 10) →
      (st.read_digit.exponent = 0 ∧ 0 < cfg.DECFLOAT_EXP_MAX
        ∨ st.read_digit.exponent + ds.length ≤ cfg.DECFLOAT_EXP_MAX) →
      ∃ cs,
        feed cfg (digit_bytes ds) st =
          { st with
            read_digit := ⟨st.read_digit.sign, digits_value st.read_digit.mantissa ds,
              if st.read_digit.exponent = 0 then 0 else st.read_digit.exponent + ds.length⟩,
            next_target := { st.next_target with checksum_calculated := cs } }
        ∧ (st.next_target.seen_checksum = true → cs = st.next_target.checksum_calculated) := by
  induction ds with
  | nil =>
    intro st _ _ _ _ _
    refine ⟨st.next_target.checksum_calculated, ?_, fun _ => rfl⟩
    show st = _
    by_cases h0 : st.read_digit.exponent = 0
    · rw [if_pos h0]
      show st = { st with read_digit := ⟨st.read_digit.sign, st.read_digit.mantissa, 0⟩ }
      rw [← h0]
    · rw [if_neg h0]
      rfl
  | cons d ds ih =>
    intro st hs hp hd hfit hexp
    have hd0 : d < 10 := hd d (List.mem_cons_self _ _)
    have hm : st.read_digit.mantissa < cfg.DECFLOAT_MANT_MAX / 10 := by
      have := hfit 0 (by simp)
      simpa [digits_value] using this
    have he : st.read_digit.exponent < cfg.DECFLOAT_EXP_MAX := by
      rcases hexp with h | h
      · omega
      · simp only [List.length_cons] at h; omega
    have hstep := gcode_parse_char_digit cfg st d hd0 hs hp hm he
    obtain ⟨cs, hfeed, hcs⟩ := ih (gcode_parse_char cfg (d + 48) st)
      (by rw [hstep]; exact hs) (by rw [hstep]; exact hp)
      (fun x hx => hd x (List.mem_cons_of_mem _ hx))
      (by
        intro k hk
        have := hfit (k + 1) (by simp only [List.length_cons]; omega)
        rw [hstep]
        simpa [digits_value_cons] using this)
      (by
        rw [hstep]
        rcases hexp with h | h
        · left; exact ⟨by simp [h.1], h.2⟩
        · right
          simp only [List.length_cons] at h
          show (if st.read_digit.exponent = 0 then 0 else st.read_digit.exponent + 1)
            + ds.length ≤ cfg.DECFLOAT_EXP_MAX
          split <;> omega)
    refine ⟨cs, ?_, ?_⟩
    · show feed cfg (digit_bytes ds) (gcode_parse_char cfg (d + 48) st) = _
      rw [hfeed, hstep]
      simp only [digits_value_cons, List.length_cons]
      by_cases h0 : st.read_digit.exponent = 0
      · simp [h0]
      · simp [h0]; omega
    · intro hsc
      rw [hcs (by rw [hstep]; exact hsc), hstep]
      exact crc_steps_of_seen_checksum cfg _ st hsc

/-! ## `decfloat_to_int` rounds half up (C1) -/

/-- `decfloat_to_int` in terms of `round_half_up`, for a product that fits `int32_t`. -/
theorem decfloat_to_int_eq_round_half_up (s : Bool) (m x mult den : Nat)
    (hx : x ≤ 7) (hden : 0 < den) (hden32 : den < 4294967296) (hmult : mult < 2147483648)
    (hwrap : m * mult < 2147483648) :
    decfloat_to_int ⟨s, m, x⟩ mult den =
      if s then -round_half_up (m * mult) (den * 10 ^ (x - 1))
      else round_half_up (m * mult) (den * 10 ^ (x - 1)) := by
  rw [decfloat_to_int_nat s m x mult den hx hden hden32 hmult hwrap,
    round_half_up_eq _ _ (Nat.mul_pos hden (pow_pos (by norm_num) _))]

/-- C1. `decfloat_to_int` is exact round-half-up.  For every accumulator (sign `s`,
mantissa `m`, exponent field `x ≤ DECFLOAT_EXP_MAX`, where `rounding[]` has an
initialiser for each of its `DECFLOAT_EXP_MAX ≤ 7` entries), every multiplicand
`≥ 0` (an `int32_t`) and every denominator `> 0` (a `uint32_t`) such that
`m * multiplicand` does not wrap the 32 bit signed integer it is computed in,
`decfloat_to_int` returns `R`, negated iff `s` is set, where
`R = floor (m * multiplicand / (denominator * 10^e) + 1/2)` and `e = max (x - 1) 0`
(the truncated subtraction `x - 1` of natural numbers).  In particular the lone
decimal point `m = 0`, `x = 1` gives `0`. -/
theorem decfloat_to_int_exact (cfg : Config) (s : Bool) (m x multiplicand denominator : Nat)
    (hcfg : cfg.DECFLOAT_EXP_MAX ≤ 7) (hx : x ≤ cfg.DECFLOAT_EXP_MAX)
    (hmult : multiplicand < 2147483648)
    (hden : 0 < denominator) (hden32 : denominator < 4294967296)
    (hwrap : m * multiplicand < 2147483648) :
    decfloat_to_int ⟨s, m, x⟩ multiplicand denominator =
        (if s then -round_half_up (m * multiplicand) (denominator * 10 ^ (x - 1))
         else round_half_up (m * multiplicand) (denominator * 10 ^ (x - 1)))
      ∧ decfloat_to_int ⟨s, 0, 1⟩ multiplicand denominator = 0 := by
  refine ⟨decfloat_to_int_eq_round_half_up s m x multiplicand denominator (by omega) hden hden32
    hmult hwrap, ?_⟩
  rw [decfloat_to_int_nat s 0 1 multiplicand denominator (by norm_num) hden hden32 hmult
    (by simp)]
  have h0 : (2 * (0 * multiplicand) + denominator * 10 ^ (1 - 1)) / (2 * (denominator * 10 ^ (1 - 1)))
      = 0 := by
    simp only [Nat.zero_mul, Nat.mul_zero, Nat.zero_add, Nat.sub_self, pow_zero, Nat.mul_one]
    exact Nat.div_eq_of_lt (by omega)
  rw [h0]
  cases s <;> rfl

/-- Instance of C1: `-1.25`, scaled by `254 / 10`, is `-32` (31.75 rounded). -/
theorem decfloat_to_int_exact_witness :
    (Config.sample false false false).DECFLOAT_EXP_MAX ≤ 7
      ∧ 3 ≤ (Config.sample false false false).DECFLOAT_EXP_MAX
      ∧ 125 * 254 < 2147483648
      ∧ decfloat_to_int ⟨true, 125, 3⟩ 254 10 = -round_half_up (125 * 254) (10 * 10 ^ 2)
      ∧ decfloat_to_int ⟨true, 125, 3⟩ 254 10 = -32 :=
  ⟨by decide, by decide, by decide,
    (decfloat_to_int_exact (Config.sample false false false) true 125 3 254 10
      (by decide) (by decide) (by decide) (by decide) (by decide) (by decide)).1,
    by decide⟩

/-! ## Decode, then convert (C2) -/

/-- A run of digits read after the digits `pre`, outside a comment, every digit
being accepted by the caps. -/
theorem feed_digits_after (cfg : Config) (pre ds : List Nat) (st : State)
    (hs : st.next_target.seen_semi_comment = false)
    (hp : st.next_target.seen_parens_comment = false)
    (hd : ∀ d ∈ ds, d < 10)
    (hm : st.read_digit.mantissa = digits_value 0 pre)
    (hfit : ∀ k, k < (pre ++ ds).length →
      digits_value 0 ((pre ++ ds).take k) < cfg.DECFLOAT_MANT_MAX / 10)
    (hexp : st.read_digit.exponent = 0 ∧ 0 < cfg.DECFLOAT_EXP_MAX
      ∨ st.read_digit.exponent + ds.length ≤ cfg.DECFLOAT_EXP_MAX) :
    (feed cfg (digit_bytes ds) st).read_digit =
        ⟨st.read_digit.sign, digits_value 0 (pre ++ ds),
          if st.read_digit.exponent = 0 then 0 else st.read_digit.exponent + ds.length⟩
      ∧ (feed cfg (digit_bytes ds) st).next_target.seen_semi_comment = false
      ∧ (feed cfg (digit_bytes ds) st).next_target.seen_parens_comment = false := by
  obtain ⟨cs, hfeed, -⟩ := feed_digits cfg ds st hs hp hd
    (by
      intro k hk
      have := hfit (pre.length + k) (by rw [List.length_append]; omega)
      rw [List.take_append, digits_value_append] at this
      rw [hm]; exact this)
    hexp
  rw [hfeed]
  refine ⟨?_, hs, hp⟩
  rw [hm, digits_value_append]

/-- The mantissa of an accepted run of digits is below the cap. -/
theorem digits_value_lt_cap (cap : Nat) (ds : List Nat) (hd : ∀ d ∈ ds, d < 10)
    (hfit : ∀ k, k < ds.length → digits_value 0 (ds.take k) < cap / 10) :
    digits_value 0 ds < cap ∨ ds = [] := by
  rcases List.eq_nil_or_concat ds with h | ⟨init, last, h⟩
  · exact Or.inr h
  · left
    subst h
    rw [List.concat_eq_append] at hd hfit ⊢
    have h1 := hfit init.length (by simp)
    have h2 : last < 10 := hd last (by simp)
    rw [List.take_left' rfl] at h1
    rw [digits_value_append]
    show 10 * digits_value 0 init + last < cap
    omega

theorem hfit_initial (cap : Nat) (l1 l2 : List Nat)
    (hfit : ∀ k, k < (l1 ++ l2).length → digits_value 0 ((l1 ++ l2).take k) < cap) :
    ∀ k, k < l1.length → digits_value 0 (l1.take k) < cap := by
  intro k hk
  have := hfit k (by rw [List.length_append]; omega)
  rwa [List.take_append_of_le_length (by omega)] at this

/-- The optional sign and the integer digits, read into a zeroed accumulator. -/
theorem feed_sign_integer (cfg : Config) (st : State) (neg : Bool) (I : List Nat)
    (hexp1 : 0 < cfg.DECFLOAT_EXP_MAX)
    (hs : st.next_target.seen_semi_comment = false)
    (hp : st.next_target.seen_parens_comment = false)
    (hzero : st.read_digit = ⟨false, 0, 0⟩)
    (hI : ∀ d ∈ I, d < 10)
    (hfit : ∀ k, k < I.length → digits_value 0 (I.take k) < cfg.DECFLOAT_MANT_MAX / 10) :
    (feed cfg ((if neg then [45] else []) ++ digit_bytes I) st).read_digit
        = ⟨neg, digits_value 0 I, 0⟩
      ∧ (feed cfg ((if neg then [45] else []) ++ digit_bytes I) st).next_target.seen_semi_comment
          = false
      ∧ (feed cfg ((if neg then [45] else []) ++ digit_bytes I) st).next_target.seen_parens_comment
          = false := by
  rw [feed_append]
  have h1 : (feed cfg (if neg then [45] else []) st).read_digit = ⟨neg, 0, 0⟩
      ∧ (feed cfg (if neg then [45] else []) st).next_target.seen_semi_comment = false
      ∧ (feed cfg (if neg then [45] else []) st).next_target.seen_parens_comment = false := by
    cases neg
    · exact ⟨hzero, hs, hp⟩
    · rw [if_pos rfl, feed_cons, feed_nil, gcode_parse_char_minus cfg st hs hp]
      exact ⟨rfl, hs, hp⟩
  have h2 := feed_digits_after cfg [] I (feed cfg (if neg then [45] else []) st) h1.2.1 h1.2.2 hI
    (by rw [h1.1]; rfl) (by simpa using hfit) (Or.inl ⟨by rw [h1.1], hexp1⟩)
  rw [h1.1] at h2
  simpa using h2

/-- The fractional part, with or without a second point in it. -/
theorem feed_fraction (cfg : Config) (st : State) (neg : Bool) (I F1 F2 : List Nat) ( p2 : Bool)
    (hs : st.next_target.seen_semi_comment = false)
    (hp : st.next_target.seen_parens_comment = false)
    (hrd : st.read_digit = ⟨neg, digits_value 0 I, 0⟩)
    (hF1 : ∀ d ∈ F1, d < 10) (hF2 : ∀ d ∈ F2, d < 10)
    (hfit : ∀ k, k < (I ++ (F1 ++ F2)).length →
      digits_value 0 ((I ++ (F1 ++ F2)).take k) < cfg.DECFLOAT_MANT_MAX / 10)
    (hlen : (F1 ++ F2).length + 1 ≤ cfg.DECFLOAT_EXP_MAX) :
    (feed cfg (46 :: digit_bytes F1 ++ (if p2 then [46] else []) ++ digit_bytes F2) st).read_digit
      = ⟨neg, digits_value 0 (I ++ (F1 ++ F2)), (F1 ++ F2).length + 1⟩ := by
  rw [List.length_append] at hlen
  rw [List.cons_append, List.cons_append, feed_cons, feed_append, feed_append]
  -- the point
  have hpt := gcode_parse_char_point cfg st hs hp
  rw [hrd] at hpt
  have h0 : (gcode_parse_char cfg 46 st).read_digit = ⟨neg, digits_value 0 I, 1⟩ := by
    rw [hpt]; rfl
  have h0s : (gcode_parse_char cfg 46 st).next_target.seen_semi_comment = false := by
    rw [hpt]; exact hs
  have h0p : (gcode_parse_char cfg 46 st).next_target.seen_parens_comment = false := by
    rw [hpt]; exact hp
  -- the digits before a second point
  have h1 := feed_digits_after cfg I F1 (gcode_parse_char cfg 46 st) h0s h0p hF1
    (by rw [h0])
    (by rw [← List.append_assoc] at hfit; exact hfit_initial _ _ _ hfit)
    (Or.inr (by rw [h0]; show 1 + F1.length ≤ _; omega))
  rw [h0] at h1
  simp only [Nat.one_ne_zero, if_false] at h1
  -- the second point, if any, is ignored
  have h2 : (feed cfg (if p2 then [46] else [])
        (feed cfg (digit_bytes F1) (gcode_parse_char cfg 46 st))).read_digit
        = ⟨neg, digits_value 0 (I ++ F1), 1 + F1.length⟩
      ∧ (feed cfg (if p2 then [46] else [])
        (feed cfg (digit_bytes F1) (gcode_parse_char cfg 46 st))).next_target.seen_semi_comment
        = false
      ∧ (feed cfg (if p2 then [46] else [])
        (feed cfg (digit_bytes F1) (gcode_parse_char cfg 46 st))).next_target.seen_parens_comment
        = false := by
    cases p2
    · exact h1
    · rw [if_pos rfl, feed_cons, feed_nil, gcode_parse_char_point cfg _ h1.2.1 h1.2.2]
      refine ⟨?_, h1.2.1, h1.2.2⟩
      show ({ (feed cfg (digit_bytes F1) (gcode_parse_char cfg 46 st)).read_digit with
        exponent := _ } : decfloat) = _
      rw [h1.1]
      simp
  -- the digits after it
  have h3 := feed_digits_after cfg (I ++ F1) F2 _ h2.2.1 h2.2.2 hF2
    (by rw [h2.1])
    (by rw [List.append_assoc]; exact hfit)
    (Or.inr (by rw [h2.1]; show 1 + F1.length + F2.length ≤ _; omega))
  rw [h3.1, h2.1]
  simp only [List.append_assoc, List.length_append]
  rw [if_neg (by omega)]
  congr 1
  omega

/-- C2. Decode-then-convert reproduces the decimal.  For every string
`d = [-]I[.F]` (`I`, `F` runs of ASCII digits, `F = none` when `d` has no point)
whose accumulated mantissa stays below `DECFLOAT_MANT_MAX / 10` before each
digit and whose `F` has at most `DECFLOAT_EXP_MAX - 1` digits, feeding the bytes
of `d` one at a time through `gcode_parse_char`, in a state where a field is
being accumulated and the accumulator is zero, and then calling
`decfloat_to_int (&read_digit, 1, 1)` returns the integer nearest to `|d|` with
halves rounded up, negated iff `d` starts with `-`; and a second `.` anywhere
after the first one leaves the accumulator, hence the result, as it is without
it.  The build is one whose `rounding[]` is initialised throughout
(`1 ≤ DECFLOAT_EXP_MAX ≤ 7`) and whose mantissa cap fits `int32_t`. -/
theorem decode_then_convert (cfg : Config) (st : State) (neg : Bool) (I : List Nat)
    (F : Option (List Nat))
    (hexp1 : 0 < cfg.DECFLOAT_EXP_MAX) (hexp7 : cfg.DECFLOAT_EXP_MAX ≤ 7)
    (hmant : cfg.DECFLOAT_MANT_MAX ≤ 2147483648)
    (hst : accumulating_field st) (hzero : st.read_digit = ⟨false, 0, 0⟩)
    (hI : ∀ d ∈ I, d < 10) (hF : ∀ d ∈ F.getD [], d < 10)
    (hfit : ∀ k, k < (I ++ F.getD []).length →
      digits_value 0 ((I ++ F.getD []).take k) < cfg.DECFLOAT_MANT_MAX / 10)
    (hlen : (F.getD []).length ≤ cfg.DECFLOAT_EXP_MAX - 1) :
    decfloat_to_int (feed cfg (decimal_bytes neg I F) st).read_digit 1 1 =
        (if neg then -round_half_up (digits_value 0 (I ++ F.getD [])) (10 ^ (F.getD []).length)
         else round_half_up (digits_value 0 (I ++ F.getD [])) (10 ^ (F.getD []).length))
      ∧ ∀ F1 F2, F = some (F1 ++ F2) →
          (feed cfg ((if neg then [45] else []) ++ digit_bytes I
              ++ (46 :: digit_bytes F1 ++ [46] ++ digit_bytes F2)) st).read_digit
            = (feed cfg (decimal_bytes neg I F) st).read_digit := by
  obtain ⟨-, hs, hp⟩ := hst
  have hdig : ∀ d ∈ I ++ F.getD [], d < 10 := by
    intro d hd
    rcases List.mem_append.1 hd with h | h
    · exact hI d h
    · exact hF d h
  have hwrap : digits_value 0 (I ++ F.getD []) * 1 < 2147483648 := by
    rcases digits_value_lt_cap cfg.DECFLOAT_MANT_MAX _ hdig hfit with h | h
    · omega
    · rw [h]; decide
  have hint := feed_sign_integer cfg st neg I hexp1 hs hp hzero hI (hfit_initial _ _ _ hfit)
  cases F with
  | none =>
    simp only [Option.getD_none, List.append_nil, List.length_nil, pow_zero] at hwrap hfit ⊢
    refine ⟨?_, fun F1 F2 h => by cases h⟩
    have hb : decimal_bytes neg I none = (if neg then [45] else []) ++ digit_bytes I := by
      unfold decimal_bytes; simp
    have h := decfloat_to_int_eq_round_half_up neg (digits_value 0 I) 0 1 1 (by norm_num)
      (by norm_num) (by norm_num) (by norm_num) hwrap
    simp only [Nat.cast_one] at h
    rw [hb, hint.1, h]
    simp
  | some f =>
    simp only [Option.getD_some] at hwrap hfit hlen hF ⊢
    have hb : ∀ F1 F2 ( p2 : Bool),
        (feed cfg ((if neg then [45] else []) ++ digit_bytes I
          ++ (46 :: digit_bytes F1 ++ (if p2 then [46] else []) ++ digit_bytes F2)) st)
        = feed cfg (46 :: digit_bytes F1 ++ (if p2 then [46] else []) ++ digit_bytes F2)
            (feed cfg ((if neg then [45] else []) ++ digit_bytes I) st) := by
      intro F1 F2 p2
      rw [feed_append]
    have hplain : (feed cfg (decimal_bytes neg I (some f)) st).read_digit
        = ⟨neg, digits_value 0 (I ++ f), f.length + 1⟩ := by
      have e : decimal_bytes neg I (some f) = (if neg then [45] else []) ++ digit_bytes I
          ++ (46 :: digit_bytes [] ++ (if false then [46] else []) ++ digit_bytes f) := by
        unfold decimal_bytes digit_bytes; simp
      rw [e, hb [] f false]
      have := feed_fraction cfg _ neg I [] f false hint.2.1 hint.2.2 hint.1 (by simp) hF
        (by simpa using hfit) (by simp only [List.nil_append]; omega)
      simpa using this
    refine ⟨?_, ?_⟩
    · have h := decfloat_to_int_eq_round_half_up neg (digits_value 0 (I ++ f)) (f.length + 1) 1 1
        (by omega) (by norm_num) (by norm_num) (by norm_num) hwrap
      simp only [Nat.cast_one] at h
      rw [hplain, h]
      simp
    · intro F1 F2 hF12
      have hf : f = F1 ++ F2 := by cases hF12; rfl
      subst hf
      rw [hplain]
      have := feed_fraction cfg _ neg I F1 F2 true hint.2.1 hint.2.2 hint.1
        (fun d hd => hF d (List.mem_append_left _ hd))
        (fun d hd => hF d (List.mem_append_right _ hd)) hfit (by omega)
      rw [← hb F1 F2 true] at this
      simpa using this

/-- Instance of C2: `-12.5` read as a field (after the letter `X`) converts to
`-13`, the nearest integer to `12.5` with the half rounded up, negated. -/
theorem decode_then_convert_witness :
    accumulating_field (feed (Config.sample false false false) [88] State.init)
      ∧ decfloat_to_int
          (feed (Config.sample false false false) (decimal_bytes true [1, 2] (some [5]))
            (feed (Config.sample false false false) [88] State.init)).read_digit 1 1
          = -round_half_up (digits_value 0 ([1, 2] ++ [5])) (10 ^ 1)
      ∧ decfloat_to_int
          (feed (Config.sample false false false) (decimal_bytes true [1, 2] (some [5]))
            (feed (Config.sample false false false) [88] State.init)).read_digit 1 1 = -13 :=
  ⟨by decide,
    (decode_then_convert (Config.sample false false false)
      (feed (Config.sample false false false) [88] State.init) true [1, 2] (some [5])
      (by decide) (by decide) (by decide) (by decide) (by decide) (by decide) (by decide)
      (by decide) (by decide)).1,
    by decide⟩

/-! ## What a byte leaves alone -/

/-- What the character switch can change: the presence and comment flags, the
two command codes, the accumulator and the output log. -/
theorem process_character_frame (cfg : Config) (c : Nat) (st : State) :
    ∃ a1 a2 a3 a4 a5 a6 a7 a8 a9 a10 a11 a12 a13 a14 g m rd tx,
      process_character cfg c st =
        { st with
          read_digit := rd,
          next_target := { st.next_target with
            seen_G := a1, seen_M := a2, seen_X := a3, seen_Y := a4, seen_Z := a5, seen_E := a6,
            seen_F := a7, seen_S := a8, seen_P := a9, seen_T := a10, seen_N := a11,
            seen_checksum := a12, seen_semi_comment := a13, seen_parens_comment := a14,
            G := g, M := m },
          tx := tx } := by
  unfold process_character
  dsimp only
  by_cases h71 : c = 71
  · rw [if_pos h71]
    exact ⟨_, _, _, _, _, _, _, _, _, _, _, _, _, _, _, _, _, _, rfl⟩
  rw [if_neg h71]
  by_cases h77 : c = 77
  · rw [if_pos h77]
    exact ⟨_, _, _, _, _, _, _, _, _, _, _, _, _, _, _, _, _, _, rfl⟩
  rw [if_neg h77]
  by_cases h88 : c = 88
  · rw [if_pos h88]
    exact ⟨_, _, _, _, _, _, _, _, _, _, _, _, _, _, _, _, _, _, rfl⟩
  rw [if_neg h88]
  by_cases h89 : c = 89
  · rw [if_pos h89]
    exact ⟨_, _, _, _, _, _, _, _, _, _, _, _, _, _, _, _, _, _, rfl⟩
  rw [if_neg h89]
  by_cases h90 : c = 90
  · rw [if_pos h90]
    exact ⟨_, _, _, _, _, _, _, _, _, _, _, _, _, _, _, _, _, _, rfl⟩
  rw [if_neg h90]
  by_cases h69 : c = 69
  · rw [if_pos h69]
    exact ⟨_, _, _, _, _, _, _, _, _, _, _, _, _, _, _, _, _, _, rfl⟩
  rw [if_neg h69]
  by_cases h70 : c = 70
  · rw [if_pos h70]
    exact ⟨_, _, _, _, _, _, _, _, _, _, _, _, _, _, _, _, _, _, rfl⟩
  rw [if_neg h70]
  by_cases h83 : c = 83
  · rw [if_pos h83]
    exact ⟨_, _, _, _, _, _, _, _, _, _, _, _, _, _, _, _, _, _, rfl⟩
  rw [if_neg h83]
  by_cases h80 : c = 80
  · rw [if_pos h80]
    exact ⟨_, _, _, _, _, _, _, _, _, _, _, _, _, _, _, _, _, _, rfl⟩
  rw [if_neg h80]
  by_cases h84 : c = 84
  · rw [if_pos h84]
    exact ⟨_, _, _, _, _, _, _, _, _, _, _, _, _, _, _, _, _, _, rfl⟩
  rw [if_neg h84]
  by_cases h78 : c = 78
  · rw [if_pos h78]
    exact ⟨_, _, _, _, _, _, _, _, _, _, _, _, _, _, _, _, _, _, rfl⟩
  rw [if_neg h78]
  by_cases h42 : c = 42
  · rw [if_pos h42]
    exact ⟨_, _, _, _, _, _, _, _, _, _, _, _, _, _, _, _, _, _, rfl⟩
  rw [if_neg h42]
  by_cases h59 : c = 59
  · rw [if_pos h59]
    exact ⟨_, _, _, _, _, _, _, _, _, _, _, _, _, _, _, _, _, _, rfl⟩
  rw [if_neg h59]
  by_cases h40 : c = 40
  · rw [if_pos h40]
    exact ⟨_, _, _, _, _, _, _, _, _, _, _, _, _, _, _, _, _, _, rfl⟩
  rw [if_neg h40]
  by_cases h45 : c = 45
  · rw [if_pos h45]
    exact ⟨_, _, _, _, _, _, _, _, _, _, _, _, _, _, _, _, _, _, rfl⟩
  rw [if_neg h45]
  by_cases h46 : c = 46
  · rw [if_pos h46]
    exact ⟨_, _, _, _, _, _, _, _, _, _, _, _, _, _, _, _, _, _, rfl⟩
  rw [if_neg h46]
  split_ifs <;> exact ⟨_, _, _, _, _, _, _, _, _, _, _, _, _, _, _, _, _, _, rfl⟩

theorem commit_pending_frame (cfg : Config) (st : State) :
    ∃ lf rd g m tg s p t n cr tx,
      commit_pending cfg st =
        { last_field := lf, read_digit := rd,
          next_target := { st.next_target with
            G := g, M := m, target := tg, S := s, P := p, T := t, N := n, checksum_read := cr },
          tx := tx } := by
  rw [commit_pending_eq]
  by_cases h0 : st.last_field ≠ 0
  · rw [if_pos h0]
    obtain ⟨g, m, tg, s, p, t, n, cr, tx, h⟩ := commit_field_frame cfg st
    rw [h]
    exact ⟨_, _, _, _, _, _, _, _, _, _, _, rfl⟩
  · rw [if_neg h0]
    exact ⟨_, _, _, _, _, _, _, _, _, _, _, rfl⟩

theorem process_previous_field_frame (cfg : Config) (c : Nat) (st : State) :
    ∃ lf rd g m tg s p t n cr tx,
      process_previous_field cfg c st =
        { last_field := lf, read_digit := rd,
          next_target := { st.next_target with
            G := g, M := m, target := tg, S := s, P := p, T := t, N := n, checksum_read := cr },
          tx := tx } := by
  rw [process_previous_field_eq]
  by_cases h : (is_field_start c || is_eol c) = true
  · rw [if_pos h]; exact commit_pending_frame cfg st
  · rw [if_neg h]; exact ⟨_, _, _, _, _, _, _, _, _, _, _, rfl⟩

theorem skip_comments_frame (cfg : Config) (c : Nat) (st : State) :
    ∃ lf a1 a2 a3 a4 a5 a6 a7 a8 a9 a10 a11 a12 a13 a14 g m rd tx,
      skip_comments cfg c st =
        { last_field := lf,
          read_digit := rd,
          next_target := { st.next_target with
            seen_G := a1, seen_M := a2, seen_X := a3, seen_Y := a4, seen_Z := a5, seen_E := a6,
            seen_F := a7, seen_S := a8, seen_P := a9, seen_T := a10, seen_N := a11,
            seen_checksum := a12, seen_semi_comment := a13, seen_parens_comment := a14,
            G := g, M := m },
          tx := tx } := by
  unfold skip_comments
  split_ifs
  · obtain ⟨a1, a2, a3, a4, a5, a6, a7, a8, a9, a10, a11, a12, a13, a14, g, m, rd, tx, h⟩ :=
      process_character_frame cfg c
        { st with last_field := c, tx := echo cfg st.tx (Out.serial_writechar c) }
    rw [h]
    exact ⟨_, _, _, _, _, _, _, _, _, _, _, _, _, _, _, _, _, _, _, rfl⟩
  · obtain ⟨a1, a2, a3, a4, a5, a6, a7, a8, a9, a10, a11, a12, a13, a14, g, m, rd, tx, h⟩ :=
      process_character_frame cfg c st
    rw [h]
    exact ⟨_, _, _, _, _, _, _, _, _, _, _, _, _, _, _, _, _, _, _, rfl⟩
  · exact ⟨_, _, _, _, _, _, _, _, _, _, _, _, _, _, _, _, _, _, _, rfl⟩
  · exact ⟨_, _, _, _, _, _, _, _, _, _, _, _, _, _, _, _, _, _, _, rfl⟩

/-- Decoding a byte, up to the end-of-line test, never touches the mode flags
or the expected line number. -/
theorem before_end_of_line_frame (cfg : Config) (c : Nat) (st : State) :
    (before_end_of_line cfg c st).next_target.N_expected = st.next_target.N_expected
      ∧ (before_end_of_line cfg c st).next_target.option_relative
          = st.next_target.option_relative
      ∧ (before_end_of_line cfg c st).next_target.option_inches
          = st.next_target.option_inches := by
  unfold before_end_of_line
  dsimp only
  obtain ⟨lf, rd, g, m, tg, s, p, t, n, cr, tx, h1⟩ :=
    process_previous_field_frame cfg (uppercase (c % 256)) (crc_before cfg (c % 256) st)
  obtain ⟨lf2, a1, a2, a3, a4, a5, a6, a7, a8, a9, a10, a11, a12, a13, a14, g2, m2, rd2, tx2, h2⟩ :=
    skip_comments_frame cfg (uppercase (c % 256))
      (process_previous_field cfg (uppercase (c % 256)) (crc_before cfg (c % 256) st))
  rw [h2, h1]
  exact ⟨rfl, rfl, rfl⟩

/-! ## The end of a line (C3, C4) -/

theorem reset_variables_tx (st : State) : (reset_variables st).tx = st.tx := rfl

theorem reset_variables_N_expected (st : State) :
    (reset_variables st).next_target.N_expected = st.next_target.N_expected := by
  unfold reset_variables
  dsimp only
  split_ifs <;> rfl

/-- The three outcomes of the test of lines 315-346, as the log and the expected
line number left by the terminator byte `c`. -/
theorem gcode_parse_char_eol_outcome (cfg : Config) (st : State) (c : Nat) (hc : c = 10 ∨ c = 13) :
    (linenumber_ok cfg (before_end_of_line cfg c st).next_target = false →
      (gcode_parse_char cfg c st).tx =
          echo cfg (before_end_of_line cfg c st).tx (Out.serial_writechar c) ++
            [Out.rs_expected_line_number st.next_target.N_expected st.next_target.N_expected,
             Out.str_rs, Out.serwrite_uint8 ((before_end_of_line cfg c st).next_target.N % 256),
             Out.serial_writechar 10]
        ∧ (gcode_parse_char cfg c st).next_target.N_expected = st.next_target.N_expected)
    ∧ (linenumber_ok cfg (before_end_of_line cfg c st).next_target = true →
        checksum_ok cfg (before_end_of_line cfg c st).next_target = false →
      (gcode_parse_char cfg c st).tx =
          echo cfg (before_end_of_line cfg c st).tx (Out.serial_writechar c) ++
            [Out.rs_expected_checksum st.next_target.N_expected
               (before_end_of_line cfg c st).next_target.checksum_calculated,
             Out.str_rs, Out.serwrite_uint8 ((before_end_of_line cfg c st).next_target.N % 256),
             Out.serial_writechar 10]
        ∧ (gcode_parse_char cfg c st).next_target.N_expected = st.next_target.N_expected)
    ∧ (linenumber_ok cfg (before_end_of_line cfg c st).next_target = true →
        checksum_ok cfg (before_end_of_line cfg c st).next_target = true →
      (gcode_parse_char cfg c st).tx =
          echo cfg (before_end_of_line cfg c st).tx (Out.serial_writechar c) ++
            [Out.str_ok, Out.process_gcode_command (before_end_of_line cfg c st).next_target,
             Out.str_newline]) := by
  have hN := (before_end_of_line_frame cfg c st).1
  rw [gcode_parse_char_of_eol cfg c st hc, reset_variables_tx, reset_variables_N_expected]
  unfold accept_or_resend
  dsimp only
  refine ⟨?_, ?_, ?_⟩
  · intro h1
    rw [if_neg (by simp [h1])]
    unfold request_resend
    dsimp only
    rw [hN]
    exact ⟨by simp, rfl⟩
  · intro h1 h2
    rw [if_pos h1, if_neg (by simp [h2])]
    unfold request_resend
    dsimp only
    rw [hN]
    exact ⟨by simp, rfl⟩
  · intro h1 h2
    rw [if_pos h1, if_pos h2]
    split_ifs <;> simp

/-- C3. Checksum acceptance rule, with strict line-numbering disabled
(`REQUIRE_LINENUMBER` undefined).  For every parser state `st`, on a terminator
byte `c` (10 or 13), with `s` the state in which the test of line 322 is made:
the rule is `seen_checksum = 1 ∧ checksum_calculated = checksum_read` with
`REQUIRE_CHECKSUM`, and `seen_checksum = 0 ∨ checksum_calculated = checksum_read`
without it.  If the rule holds, the byte writes exactly the acknowledgement
`ok `, one call of `process_gcode_command` on the record of `s`, and the newline.
If it fails, the byte writes the resend request citing the `checksum_calculated`
of `s`, followed by the output of `request_resend`, no call of the executor, and
`N_expected` is what it was before the byte. -/
theorem checksum_acceptance_rule (cfg : Config) (st : State) (c : Nat)
    (hc : c = 10 ∨ c = 13) (hln : cfg.REQUIRE_LINENUMBER = false) :
    let s := before_end_of_line cfg c st
    let rule : Prop :=
      if cfg.REQUIRE_CHECKSUM then
        s.next_target.seen_checksum = true
          ∧ s.next_target.checksum_calculated = s.next_target.checksum_read
      else
        s.next_target.seen_checksum = false
          ∨ s.next_target.checksum_calculated = s.next_target.checksum_read
    (rule →
      (gcode_parse_char cfg c st).tx =
        echo cfg s.tx (Out.serial_writechar c) ++
          [Out.str_ok, Out.process_gcode_command s.next_target, Out.str_newline])
    ∧ (¬ rule →
      (gcode_parse_char cfg c st).tx =
          echo cfg s.tx (Out.serial_writechar c) ++
            [Out.rs_expected_checksum s.next_target.N_expected s.next_target.checksum_calculated,
             Out.str_rs, Out.serwrite_uint8 (s.next_target.N % 256), Out.serial_writechar 10]
        ∧ (gcode_parse_char cfg c st).next_target.N_expected = st.next_target.N_expected) := by
  intro s rule
  have hN : s.next_target.N_expected = st.next_target.N_expected :=
    (before_end_of_line_frame cfg c st).1
  have hl : linenumber_ok cfg s.next_target = true := by
    unfold linenumber_ok; rw [hln]; rfl
  have hrule : rule ↔ checksum_ok cfg s.next_target = true := by
    show (if cfg.REQUIRE_CHECKSUM then _ else _) ↔ _
    unfold checksum_ok
    cases cfg.REQUIRE_CHECKSUM <;> cases s.next_target.seen_checksum <;> simp
  obtain ⟨-, h2, h3⟩ := gcode_parse_char_eol_outcome cfg st c hc
  refine ⟨fun hr => h3 hl (hrule.1 hr), fun hr => ?_⟩
  have hf : checksum_ok cfg s.next_target = false := by
    cases h : checksum_ok cfg s.next_target
    · rfl
    · exact absurd (hrule.2 h) hr
  rw [hN]
  exact h2 hl hf

/-- Instance of C3, strict-checksum build: the line `G1*70` (the XOR of `G` and
`1` is 118) is answered by a resend request citing 118, and `G1*118` by the
acknowledgement and one call of the executor. -/
theorem checksum_acceptance_rule_witness :
    (Config.sample false false true).REQUIRE_LINENUMBER = false
      ∧ (gcode_parse_char (Config.sample false false true) 10
          (feed (Config.sample false false true) [71, 49, 42, 55, 48] State.init)).tx
          = [Out.rs_expected_checksum 0 118, Out.str_rs, Out.serwrite_uint8 0,
             Out.serial_writechar 10]
      ∧ ((gcode_parse_char (Config.sample false false true) 10
          (feed (Config.sample false false true) [71, 49, 42, 49, 49, 56] State.init)).tx).length
          = 3 :=
  ⟨rfl,
    ((checksum_acceptance_rule (Config.sample false false true)
      (feed (Config.sample false false true) [71, 49, 42, 55, 48] State.init) 10
      (Or.inl rfl) rfl).2 (by decide)).1,
    by
      rw [(checksum_acceptance_rule (Config.sample false false true)
        (feed (Config.sample false false true) [71, 49, 42, 49, 49, 56] State.init) 10
        (Or.inl rfl) rfl).1 (by decide)]
      decide⟩

/-- C4. Line-number enforcement, with `REQUIRE_LINENUMBER` defined.  For every
parser state `st` at a terminator byte `c`, with `s` the state in which the test
of line 317 is made: if no `N` field was seen on the line or its committed value
`N` is lower than `N_expected`, the line is rejected: the byte writes the resend
request citing `N_expected` (twice, as the format has it) followed by the output
of `request_resend`, no call of the executor, and `N_expected` after the byte is
`N_expected` before it; if an `N` field was seen with `N >= N_expected`, the
outcome is that of the checksum test of lines 322-328. -/
theorem linenumber_enforcement (cfg : Config) (st : State) (c : Nat)
    (hc : c = 10 ∨ c = 13) (hln : cfg.REQUIRE_LINENUMBER = true) :
    let s := before_end_of_line cfg c st
    (s.next_target.seen_N = false ∨ s.next_target.N < s.next_target.N_expected →
      (gcode_parse_char cfg c st).tx =
          echo cfg s.tx (Out.serial_writechar c) ++
            [Out.rs_expected_line_number st.next_target.N_expected st.next_target.N_expected,
             Out.str_rs, Out.serwrite_uint8 (s.next_target.N % 256), Out.serial_writechar 10]
        ∧ (gcode_parse_char cfg c st).next_target.N_expected = st.next_target.N_expected)
    ∧ (s.next_target.seen_N = true ∧ s.next_target.N_expected ≤ s.next_target.N →
      (gcode_parse_char cfg c st).tx =
        echo cfg s.tx (Out.serial_writechar c) ++
          (if checksum_ok cfg s.next_target then
            [Out.str_ok, Out.process_gcode_command s.next_target, Out.str_newline]
          else
            [Out.rs_expected_checksum s.next_target.N_expected s.next_target.checksum_calculated,
             Out.str_rs, Out.serwrite_uint8 (s.next_target.N % 256), Out.serial_writechar 10])) := by
  intro s
  have hN : s.next_target.N_expected = st.next_target.N_expected :=
    (before_end_of_line_frame cfg c st).1
  obtain ⟨h1, h2, h3⟩ := gcode_parse_char_eol_outcome cfg st c hc
  refine ⟨fun h => h1 ?_, fun h => ?_⟩
  · show linenumber_ok cfg s.next_target = false
    unfold linenumber_ok
    rw [hln]
    rcases h with h | h
    · simp [h]
    · simp; intro h'; omega
  · have hl : linenumber_ok cfg s.next_target = true := by
      unfold linenumber_ok
      rw [hln]
      simp [h.1, h.2]
    cases hck : checksum_ok cfg s.next_target
    · rw [hN]; simpa using (h2 hl hck).1
    · simpa using h3 hl hck

/-- Instance of C4: a line bearing `N5` while `N_expected = 7` is rejected, the
resend request cites 7, and `N_expected` stays 7. -/
theorem linenumber_enforcement_witness :
    (Config.sample false true false).REQUIRE_LINENUMBER = true
      ∧ (gcode_parse_char (Config.sample false true false) 10
          (feed (Config.sample false true false) [78, 53]
            { State.init with next_target := { GCODE_COMMAND.zero with N_expected := 7 } })).tx
          = [Out.rs_expected_line_number 7 7, Out.str_rs, Out.serwrite_uint8 5,
             Out.serial_writechar 10]
      ∧ (gcode_parse_char (Config.sample false true false) 10
          (feed (Config.sample false true false) [78, 53]
            { State.init with next_target := { GCODE_COMMAND.zero with N_expected := 7 } })
          ).next_target.N_expected = 7 :=
  ⟨rfl,
    ((linenumber_enforcement (Config.sample false true false)
      (feed (Config.sample false true false) [78, 53]
        { State.init with next_target := { GCODE_COMMAND.zero with N_expected := 7 } }) 10
      (Or.inl rfl) rfl).1 (by decide)).1,
    ((linenumber_enforcement (Config.sample false true false)
      (feed (Config.sample false true false) [78, 53]
        { State.init with next_target := { GCODE_COMMAND.zero with N_expected := 7 } }) 10
      (Or.inl rfl) rfl).1 (by decide)).2⟩

/-! ## The checksum accumulator -/

theorem crc_lt (a b : Nat) : crc a b < 256 := Nat.mod_lt _ (by norm_num)

theorem process_previous_field_checksum (cfg : Config) (c : Nat) (st : State) :
    (process_previous_field cfg c st).next_target.checksum_calculated
        = st.next_target.checksum_calculated
      ∧ (process_previous_field cfg c st).next_target.seen_checksum
        = st.next_target.seen_checksum
      ∧ (process_previous_field cfg c st).next_target.seen_semi_comment
        = st.next_target.seen_semi_comment
      ∧ (process_previous_field cfg c st).next_target.seen_parens_comment
        = st.next_target.seen_parens_comment := by
  obtain ⟨lf, rd, g, m, tg, s, p, t, n, cr, tx, h⟩ := process_previous_field_frame cfg c st
  rw [h]
  exact ⟨rfl, rfl, rfl, rfl⟩

theorem skip_comments_checksum (cfg : Config) (c : Nat) (st : State) :
    (skip_comments cfg c st).next_target.checksum_calculated
      = st.next_target.checksum_calculated := by
  obtain ⟨lf, a1, a2, a3, a4, a5, a6, a7, a8, a9, a10, a11, a12, a13, a14, g, m, rd, tx, h⟩ :=
    skip_comments_frame cfg c st
  rw [h]

/-- The checksum accumulator after the decoding of a byte: in the
`ASTERISK_IN_CHECKSUM_INCLUDED` build the byte as received is folded in unless a
checksum field had been seen before it; in the default build the byte after
case folding is folded in unless a checksum field has been seen by then. -/
theorem before_end_of_line_checksum (cfg : Config) (c : Nat) (st : State) :
    (before_end_of_line cfg c st).next_target.checksum_calculated =
      if cfg.ASTERISK_IN_CHECKSUM_INCLUDED then
        (if st.next_target.seen_checksum then st.next_target.checksum_calculated
         else crc st.next_target.checksum_calculated (c % 256))
      else
        (if (before_end_of_line cfg c st).next_target.seen_checksum then
           st.next_target.checksum_calculated
         else crc st.next_target.checksum_calculated (uppercase (c % 256))) := by
  unfold before_end_of_line
  dsimp only
  have h1 := skip_comments_checksum cfg (uppercase (c % 256))
    (process_previous_field cfg (uppercase (c % 256)) (crc_before cfg (c % 256) st))
  have h2 := (process_previous_field_checksum cfg (uppercase (c % 256))
    (crc_before cfg (c % 256) st)).1
  have h3 : (crc_before cfg (c % 256) st).next_target.checksum_calculated
      = if cfg.ASTERISK_IN_CHECKSUM_INCLUDED && !st.next_target.seen_checksum then
          crc st.next_target.checksum_calculated (c % 256)
        else st.next_target.checksum_calculated := rfl
  have h4 : ∀ s : State, (crc_after cfg (uppercase (c % 256)) s).next_target.checksum_calculated
      = if !cfg.ASTERISK_IN_CHECKSUM_INCLUDED && !s.next_target.seen_checksum then
          crc s.next_target.checksum_calculated (uppercase (c % 256))
        else s.next_target.checksum_calculated := fun _ => rfl
  have h5 : ∀ s : State, (crc_after cfg (uppercase (c % 256)) s).next_target.seen_checksum
      = s.next_target.seen_checksum := fun _ => rfl
  rw [h4, h5, h1, h2, h3]
  generalize (skip_comments cfg (uppercase (c % 256))
    (process_previous_field cfg (uppercase (c % 256))
      (crc_before cfg (c % 256) st))).next_target.seen_checksum = b
  cases cfg.ASTERISK_IN_CHECKSUM_INCLUDED <;> cases st.next_target.seen_checksum <;>
    cases b <;> simp

theorem reset_variables_checksum (st : State) :
    (reset_variables st).next_target.checksum_calculated = 0 := by
  unfold reset_variables
  dsimp only
  split_ifs <;> rfl

theorem before_end_of_line_checksum_lt (cfg : Config) (c : Nat) (st : State)
    (h : st.next_target.checksum_calculated < 256) :
    (before_end_of_line cfg c st).next_target.checksum_calculated < 256 := by
  rw [before_end_of_line_checksum]
  split_ifs <;> first | exact h | exact crc_lt _ _

theorem gcode_parse_char_checksum_lt (cfg : Config) (c : Nat) (st : State)
    (h : st.next_target.checksum_calculated < 256) :
    (gcode_parse_char cfg c st).next_target.checksum_calculated < 256 := by
  unfold gcode_parse_char end_of_line
  split_ifs
  · rw [reset_variables_checksum]; norm_num
  · exact before_end_of_line_checksum_lt cfg c st h

theorem feed_checksum_lt (cfg : Config) (l : List Nat) :
    ∀ st : State, st.next_target.checksum_calculated < 256 →
      (feed cfg l st).next_target.checksum_calculated < 256 := by
  induction l with
  | nil => intro st h; exact h
  | cons c l ih =>
    intro st h
    rw [feed_cons]
    exact ih _ (gcode_parse_char_checksum_lt cfg c st h)

theorem line_start_checksum (st : State) (h : line_start st) :
    st.next_target.checksum_calculated = 0 := by
  rcases h with h | h
  · rw [h]; rfl
  · rw [← h]; exact reset_variables_checksum st

/-! ## Checksum round trip (C5) -/

theorem commit_pending_flags (cfg : Config) (st : State) :
    (commit_pending cfg st).next_target.seen_checksum = st.next_target.seen_checksum
      ∧ (commit_pending cfg st).next_target.seen_semi_comment
          = st.next_target.seen_semi_comment
      ∧ (commit_pending cfg st).next_target.seen_parens_comment
          = st.next_target.seen_parens_comment
      ∧ (commit_pending cfg st).next_target.checksum_calculated
          = st.next_target.checksum_calculated := by
  obtain ⟨lf, rd, g, m, tg, s, p, t, n, cr, tx, h⟩ := commit_pending_frame cfg st
  rw [h]
  exact ⟨rfl, rfl, rfl, rfl⟩

theorem commit_pending_read_digit (cfg : Config) (st : State) :
    (commit_pending cfg st).read_digit
      = if st.last_field ≠ 0 then ⟨false, 0, 0⟩ else st.read_digit := by
  rw [commit_pending_eq]
  split_ifs <;> rfl

/-- A byte that starts a field, arriving outside a comment: the pending field is
committed, the byte becomes the pending field, and the character switch runs. -/
theorem before_end_of_line_field_start (cfg : Config) (c : Nat) (st : State)
    (hc : c < 97) (hf : is_field_start c = true)
    (hs : st.next_target.seen_semi_comment = false)
    (hp : st.next_target.seen_parens_comment = false) :
    before_end_of_line cfg c st =
      crc_after cfg c (process_character cfg c
        { commit_pending cfg (crc_before cfg c st) with
          last_field := c,
          tx := echo cfg (commit_pending cfg (crc_before cfg c st)).tx (Out.serial_writechar c) })
      := by
  unfold before_end_of_line
  have h1 : c % 256 = c := Nat.mod_eq_of_lt (by omega)
  have h2 : uppercase c = c := uppercase_of_not_lower c (Or.inl hc)
  simp only [h1, h2]
  rw [process_previous_field_eq, if_pos (by simp [hf])]
  unfold skip_comments
  have hfl := commit_pending_flags cfg (crc_before cfg c st)
  rw [if_pos (by
    rw [hfl.2.1, hfl.2.2.1]
    show (!(st.next_target.seen_semi_comment) && !(st.next_target.seen_parens_comment)) = true
    rw [hs, hp]; rfl)]
  rw [if_pos hf]

/-- The checksum marker `*` outside a comment, default build: it becomes the
pending field over a zero accumulator (provided a field was pending or the
accumulator was zero already), and closes the checksum window before it is
folded in. -/
theorem gcode_parse_char_star (cfg : Config) (st : State)
    (ha : cfg.ASTERISK_IN_CHECKSUM_INCLUDED = false)
    (hs : st.next_target.seen_semi_comment = false)
    (hp : st.next_target.seen_parens_comment = false)
    (hrd : st.last_field ≠ 0 ∨ st.read_digit = ⟨false, 0, 0⟩) :
    (gcode_parse_char cfg 42 st).last_field = 42
      ∧ (gcode_parse_char cfg 42 st).read_digit = ⟨false, 0, 0⟩
      ∧ (gcode_parse_char cfg 42 st).next_target.seen_checksum = true
      ∧ (gcode_parse_char cfg 42 st).next_target.seen_semi_comment = false
      ∧ (gcode_parse_char cfg 42 st).next_target.seen_parens_comment = false
      ∧ (gcode_parse_char cfg 42 st).next_target.checksum_calculated
          = st.next_target.checksum_calculated := by
  have hsc : (gcode_parse_char cfg 42 st).next_target.seen_checksum = true := by
    rw [gcode_parse_char_of_not_eol cfg 42 st (by decide),
      before_end_of_line_field_start cfg 42 st (by decide) (by decide) hs hp]
    rfl
  have hfl := commit_pending_flags cfg (crc_before cfg 42 st)
  have hcs : (gcode_parse_char cfg 42 st).next_target.checksum_calculated
      = st.next_target.checksum_calculated := by
    rw [gcode_parse_char_of_not_eol cfg 42 st (by decide)] at hsc ⊢
    rw [before_end_of_line_checksum, ha, hsc]
    rfl
  refine ⟨?_, ?_, hsc, ?_, ?_, hcs⟩
  · rw [gcode_parse_char_of_not_eol cfg 42 st (by decide),
      before_end_of_line_field_start cfg 42 st (by decide) (by decide) hs hp]
    rfl
  · rw [gcode_parse_char_of_not_eol cfg 42 st (by decide),
      before_end_of_line_field_start cfg 42 st (by decide) (by decide) hs hp]
    show (commit_pending cfg (crc_before cfg 42 st)).read_digit = _
    rw [commit_pending_read_digit]
    rcases hrd with h | h
    · rw [if_pos (show (crc_before cfg 42 st).last_field ≠ 0 from h)]
    · by_cases h0 : (crc_before cfg 42 st).last_field ≠ 0
      · rw [if_pos h0]
      · rw [if_neg h0]; exact h
  · rw [gcode_parse_char_of_not_eol cfg 42 st (by decide),
      before_end_of_line_field_start cfg 42 st (by decide) (by decide) hs hp]
    show (commit_pending cfg (crc_before cfg 42 st)).next_target.seen_semi_comment = false
    rw [hfl.2.1]; exact hs
  · rw [gcode_parse_char_of_not_eol cfg 42 st (by decide),
      before_end_of_line_field_start cfg 42 st (by decide) (by decide) hs hp]
    show (commit_pending cfg (crc_before cfg 42 st)).next_target.seen_parens_comment = false
    rw [hfl.2.2.1]; exact hp

theorem checksum_digits_spec (n : Nat) (hn : n < 256) :
    digits_value 0 (checksum_digits n) = n
      ∧ (∀ d ∈ checksum_digits n, d < 10)
      ∧ ∀ k, k < (checksum_digits n).length →
          digits_value 0 ((checksum_digits n).take k) < 26 := by
  unfold checksum_digits
  split_ifs with h1 h2
  · refine ⟨by simp [digits_value], by simpa using h1, ?_⟩
    intro k hk
    simp only [List.length_singleton] at hk
    interval_cases k
    simp [digits_value]
  · refine ⟨by simp only [digits_value, List.foldl]; omega, ?_, ?_⟩
    · intro d hd
      simp only [List.mem_cons, List.mem_singleton, List.mem_nil_iff, or_false] at hd
      rcases hd with h | h <;> omega
    · intro k hk
      simp only [List.length_cons, List.length_singleton, List.length_nil] at hk
      interval_cases k
      · simp [digits_value]
      · simp [digits_value]; omega
  · refine ⟨by simp only [digits_value, List.foldl]; omega, ?_, ?_⟩
    · intro d hd
      simp only [List.mem_cons, List.mem_singleton, List.mem_nil_iff, or_false] at hd
      rcases hd with h | h | h <;> omega
    · intro k hk
      simp only [List.length_cons, List.length_singleton, List.length_nil] at hk
      interval_cases k <;> simp [digits_value] <;> omega

theorem commit_field_star (cfg : Config) (st : State) (h : st.last_field = 42) :
    commit_field cfg st =
      { st with
        next_target := { st.next_target with
          checksum_read := u8 (decfloat_to_int st.read_digit 1 1) },
        tx := echo cfg st.tx (Out.serwrite_uint8 (u8 (decfloat_to_int st.read_digit 1 1))) } := by
  unfold commit_field
  dsimp only
  rw [if_neg (by omega : ¬ st.last_field = 71), if_neg (by omega : ¬ st.last_field = 77), if_neg (by omega : ¬ st.last_field = 88), if_neg (by omega : ¬ st.last_field = 89), if_neg (by omega : ¬ st.last_field = 90), if_neg (by omega : ¬ st.last_field = 69), if_neg (by omega : ¬ st.last_field = 70), if_neg (by omega : ¬ st.last_field = 83), if_neg (by omega : ¬ st.last_field = 80), if_neg (by omega : ¬ st.last_field = 84), if_neg (by omega : ¬ st.last_field = 78),
    if_pos h]

theorem process_character_eol (cfg : Config) (c : Nat) (st : State) (hc : c = 10 ∨ c = 13) :
    (process_character cfg c st).next_target = st.next_target
      ∧ (process_character cfg c st).read_digit = st.read_digit
      ∧ (process_character cfg c st).last_field = st.last_field := by
  unfold process_character
  dsimp only
  rw [if_neg (by omega : ¬ c = 71), if_neg (by omega : ¬ c = 77), if_neg (by omega : ¬ c = 88), if_neg (by omega : ¬ c = 89), if_neg (by omega : ¬ c = 90), if_neg (by omega : ¬ c = 69), if_neg (by omega : ¬ c = 70), if_neg (by omega : ¬ c = 83), if_neg (by omega : ¬ c = 80), if_neg (by omega : ¬ c = 84), if_neg (by omega : ¬ c = 78), if_neg (by omega : ¬ c = 42), if_neg (by omega : ¬ c = 59), if_neg (by omega : ¬ c = 40), if_neg (by omega : ¬ c = 45), if_neg (by omega : ¬ c = 46)]
  split_ifs <;> first | exact ⟨rfl, rfl, rfl⟩ | (exfalso; omega)

/-- A line terminator outside a comment: the pending field is committed and
the character switch leaves the record alone. -/
theorem before_end_of_line_eol (cfg : Config) (c : Nat) (st : State) (hc : c = 10 ∨ c = 13)
    (hs : st.next_target.seen_semi_comment = false)
    (hp : st.next_target.seen_parens_comment = false) :
    (before_end_of_line cfg c st).next_target =
      { (commit_pending cfg st).next_target with
        checksum_calculated := (before_end_of_line cfg c st).next_target.checksum_calculated } := by
  have h1 : c % 256 = c := Nat.mod_eq_of_lt (by omega)
  have h2 : uppercase c = c := uppercase_of_not_lower c (Or.inl (by omega))
  have hf : is_field_start c = false := by rcases hc with h | h <;> subst h <;> rfl
  have hl : is_eol c = true := by rcases hc with h | h <;> subst h <;> rfl
  have hfl := commit_pending_flags cfg (crc_before cfg c st)
  have e : before_end_of_line cfg c st =
      crc_after cfg c (process_character cfg c (commit_pending cfg (crc_before cfg c st))) := by
    unfold before_end_of_line
    simp only [h1, h2]
    rw [process_previous_field_eq, if_pos (by simp [hl])]
    unfold skip_comments
    rw [if_pos (by
      rw [hfl.2.1, hfl.2.2.1]
      show (!(st.next_target.seen_semi_comment) && !(st.next_target.seen_parens_comment)) = true
      rw [hs, hp]; rfl)]
    rw [if_neg (by simp [hf])]
  have h3 : (before_end_of_line cfg c st).core.next_target
      = (commit_pending cfg st).core.next_target := by
    rw [e, core_crc_after]
    show ({ (process_character cfg c (commit_pending cfg (crc_before cfg c st))).next_target
      with checksum_calculated := 0 } : GCODE_COMMAND) = _
    rw [(process_character_eol cfg c _ hc).1]
    have := core_commit_pending cfg (crc_before cfg c st)
    rw [core_crc_before, ← core_commit_pending] at this
    exact congrArg State.next_target this
  have h4 : ∀ a b : GCODE_COMMAND,
      ({ a with checksum_calculated := 0 } : GCODE_COMMAND) = { b with checksum_calculated := 0 } →
      a = { b with checksum_calculated := a.checksum_calculated } := by
    intro a b hab
    cases a; cases b
    simp only [GCODE_COMMAND.mk.injEq] at hab ⊢
    simp_all
  exact h4 _ _ h3

theorem decfloat_to_int_plain (n : Nat) (hn : n < 2147483648) :
    decfloat_to_int ⟨false, n, 0⟩ 1 1 = n := by
  have h := decfloat_to_int_nat false n 0 1 1 (by norm_num) (by norm_num) (by norm_num)
    (by norm_num) (by omega)
  simp only [Nat.cast_one] at h
  have e : (2 * (n * 1) + 1 * 10 ^ (0 - 1)) / (2 * (1 * 10 ^ (0 - 1))) = n := by
    simp only [Nat.zero_sub, pow_zero, Nat.mul_one]
    omega
  rw [h, e]
  rfl

/-- The state in which the end-of-line test finds a line that ends with the
checksum field `*C`, `C` being the accumulator: the field has been seen, and the
value read is the accumulator. -/
theorem checksum_field_at_eol (cfg : Config) (st : State) (c : Nat) (hc : c = 10 ∨ c = 13)
    (ha : cfg.ASTERISK_IN_CHECKSUM_INCLUDED = false)
    (hlf : st.last_field = 42)
    (hrd : st.read_digit = ⟨false, st.next_target.checksum_calculated, 0⟩)
    (hlt : st.next_target.checksum_calculated < 256)
    (hsc : st.next_target.seen_checksum = true)
    (hs : st.next_target.seen_semi_comment = false)
    (hp : st.next_target.seen_parens_comment = false) :
    checksum_ok cfg (before_end_of_line cfg c st).next_target = true := by
  have hnt := before_end_of_line_eol cfg c st hc hs hp
  have hfl := commit_pending_flags cfg st
  have hseen : (before_end_of_line cfg c st).next_target.seen_checksum = true := by
    rw [hnt]; show (commit_pending cfg st).next_target.seen_checksum = true
    rw [hfl.1]; exact hsc
  have hcs : (before_end_of_line cfg c st).next_target.checksum_calculated
      = st.next_target.checksum_calculated := by
    rw [before_end_of_line_checksum, ha, hseen]; rfl
  have hread : (before_end_of_line cfg c st).next_target.checksum_read
      = st.next_target.checksum_calculated := by
    rw [hnt]; show (commit_pending cfg st).next_target.checksum_read = _
    rw [commit_pending_eq, if_pos (by rw [hlf]; decide), commit_field_star cfg st hlf]
    show u8 (decfloat_to_int st.read_digit 1 1) = _
    rw [hrd, decfloat_to_int_plain _ (by omega)]
    unfold u8; omega
  unfold checksum_ok
  rw [hcs, hread, hseen]
  cases cfg.REQUIRE_CHECKSUM <;> simp

/-- C5 (amended).  Checksum round trip, default build (`ASTERISK_IN_CHECKSUM_INCLUDED`
and `REQUIRE_LINENUMBER` undefined, a mantissa cap of at least 260 so that three
digits are read): for every byte string `L` fed to a decoder in a line-start
state, after which the decoder is outside a comment and has a field pending or
a zero accumulator, let `C` be `checksum_calculated` after `L`; then feeding `L`,
`*`, the decimal digits of `C` and a line terminator to the same state yields
acceptance, with `REQUIRE_CHECKSUM` as well as without: the test of lines
322-328 holds and the terminator writes `ok `, one call of the executor and the
newline. -/
theorem checksum_round_trip (cfg : Config) (st0 : State) (L : List Nat) (c : Nat)
    (ha : cfg.ASTERISK_IN_CHECKSUM_INCLUDED = false) (hln : cfg.REQUIRE_LINENUMBER = false)
    (hmant : 260 ≤ cfg.DECFLOAT_MANT_MAX) (hexp : 0 < cfg.DECFLOAT_EXP_MAX)
    (hc : c = 10 ∨ c = 13) (h0 : line_start st0)
    (hs : (feed cfg L st0).next_target.seen_semi_comment = false)
    (hp : (feed cfg L st0).next_target.seen_parens_comment = false)
    (hrd : (feed cfg L st0).last_field ≠ 0 ∨ (feed cfg L st0).read_digit = ⟨false, 0, 0⟩) :
    let C := (feed cfg L st0).next_target.checksum_calculated
    let sC := feed cfg (L ++ 42 :: digit_bytes (checksum_digits C)) st0
    let s := before_end_of_line cfg c sC
    checksum_ok cfg s.next_target = true
      ∧ (gcode_parse_char cfg c sC).tx =
          echo cfg s.tx (Out.serial_writechar c) ++
            [Out.str_ok, Out.process_gcode_command s.next_target, Out.str_newline] := by
  intro C sC s
  have hC : C < 256 := feed_checksum_lt cfg L st0 (by rw [line_start_checksum st0 h0]; norm_num)
  obtain ⟨h1, h2, h3, h4, h5, h6⟩ := gcode_parse_char_star cfg (feed cfg L st0) ha hs hp hrd
  obtain ⟨hd1, hd2, hd3⟩ := checksum_digits_spec C hC
  obtain ⟨cs, hfeed, hcs⟩ := feed_digits cfg (checksum_digits C)
    (gcode_parse_char cfg 42 (feed cfg L st0)) h4 h5 hd2
    (by
      intro k hk
      rw [h2]
      show digits_value 0 _ < _
      have := hd3 k hk
      have : 26 ≤ cfg.DECFLOAT_MANT_MAX / 10 := by omega
      omega)
    (Or.inl ⟨by rw [h2], hexp⟩)
  have hsC : sC = feed cfg (digit_bytes (checksum_digits C))
      (gcode_parse_char cfg 42 (feed cfg L st0)) := by
    show feed cfg (L ++ 42 :: digit_bytes (checksum_digits C)) st0 = _
    rw [feed_append, feed_cons]
  rw [h2, hd1] at hfeed
  have hcs' : cs = C := by rw [hcs h3, h6]
  have hok : checksum_ok cfg s.next_target = true := by
    apply checksum_field_at_eol cfg sC c hc ha
    · rw [hsC, hfeed]; exact h1
    · rw [hsC, hfeed, hcs']; rfl
    · rw [hsC, hfeed, hcs']; exact hC
    · rw [hsC, hfeed]; exact h3
    · rw [hsC, hfeed]; exact h4
    · rw [hsC, hfeed]; exact h5
  refine ⟨hok, ?_⟩
  have hl : linenumber_ok cfg s.next_target = true := by
    unfold linenumber_ok; rw [hln]; rfl
  exact (gcode_parse_char_eol_outcome cfg sC c hc).2.2 hl hok

/-- Instance of the amended C5: the line `G1 X5` (accumulator 59), sent as
`G1 X5*59`, is accepted in the strict-checksum build. -/
theorem checksum_round_trip_witness :
    line_start (reset_variables State.init)
      ∧ (feed (Config.sample false false true) [71, 49, 32, 88, 53]
          (reset_variables State.init)).next_target.checksum_calculated = 59
      ∧ checksum_ok (Config.sample false false true)
          (before_end_of_line (Config.sample false false true) 10
            (feed (Config.sample false false true)
              ([71, 49, 32, 88, 53] ++ 42 :: digit_bytes (checksum_digits
                (feed (Config.sample false false true) [71, 49, 32, 88, 53]
                  (reset_variables State.init)).next_target.checksum_calculated))
              (reset_variables State.init))).next_target = true :=
  ⟨by decide, by decide,
    (checksum_round_trip (Config.sample false false true) (reset_variables State.init)
      [71, 49, 32, 88, 53] 10 rfl rfl (by decide) (by decide) (Or.inl rfl) (by decide)
      (by decide) (by decide) (by decide)).1⟩

/-- C5 as stated fails.  In the strict-checksum build the line `;` (a comment;
the accumulator after it is 59) sent as `;*59` is not accepted: the `*` is
inside the comment, no checksum field is seen, and the terminator is answered by
a resend request. -/
theorem checksum_round_trip_counterexample :
    (feed (Config.sample false false true) [59]
        (reset_variables State.init)).next_target.checksum_calculated = 59
      ∧ checksum_digits 59 = [5, 9]
      ∧ (feed (Config.sample false false true) ([59] ++ 42 :: digit_bytes [5, 9] ++ [10])
          (reset_variables State.init)).tx
          = [Out.rs_expected_checksum 0 23, Out.str_rs, Out.serwrite_uint8 0,
             Out.serial_writechar 10] := by
  decide

/-! ## The checksum folds the upper-cased byte (C6) -/

/-- C6, evaluated at the failing input.  Default build: for the line `g1*86`,
whose bytes before the checksum field XOR to 86 as received, the accumulator at
the end-of-line test is 118 (the XOR of `G` and `1`), so the line is answered by
a resend request citing 118.  In the `ASTERISK_IN_CHECKSUM_INCLUDED` build the
bytes are folded as received: for `g1*124` the accumulator is 124, the XOR of
`g`, `1` and `*`, and the line is accepted. -/
theorem checksum_of_lowercase_line :
    xor_fold [103, 49] = 86
      ∧ (before_end_of_line (Config.sample false false false) 10
          (feed (Config.sample false false false) [103, 49, 42, 56, 54] State.init)
          ).next_target.checksum_calculated = 118
      ∧ (feed (Config.sample false false false) [103, 49, 42, 56, 54, 10] State.init).tx
          = [Out.rs_expected_checksum 0 118, Out.str_rs, Out.serwrite_uint8 0,
             Out.serial_writechar 10]
      ∧ xor_fold [103, 49, 42] = 124
      ∧ (before_end_of_line (Config.sample true false false) 10
          (feed (Config.sample true false false) [103, 49, 42, 49, 50, 52] State.init)
          ).next_target.checksum_calculated = 124
      ∧ (executor_calls
          (feed (Config.sample true false false) [103, 49, 42, 49, 50, 52, 10] State.init).tx
          ).length = 1 := by
  decide

/-! ## Contextual scaling of `S` (C8, C9) -/

theorem decfloat_to_int_integer (n k : Nat) (hk : k < 2147483648) (hn : n * k < 2147483648) :
    decfloat_to_int ⟨false, n, 0⟩ k 1 = ((n * k : Nat) : Int) := by
  have h := decfloat_to_int_nat false n 0 k 1 (by norm_num) (by norm_num) (by norm_num) hk hn
  have e : (2 * (n * k) + 1 * 10 ^ (0 - 1)) / (2 * (1 * 10 ^ (0 - 1))) = n * k := by
    simp only [Nat.zero_sub, pow_zero, Nat.mul_one]
    omega
  rw [h, e]
  rfl

theorem commit_field_S (cfg : Config) (st : State) (h : st.last_field = 83) :
    (commit_field cfg st).next_target.S =
      if st.next_target.M = 104 ∨ st.next_target.M = 109 then
        i16 (decfloat_to_int st.read_digit 4 1)
      else if 130 ≤ st.next_target.M ∧ st.next_target.M ≤ 132 then
        i16 (decfloat_to_int st.read_digit (i32 cfg.PID_SCALE) 1)
      else i16 (decfloat_to_int st.read_digit 1 1) := by
  unfold commit_field
  dsimp only
  rw [if_neg (by omega : ¬ st.last_field = 71), if_neg (by omega : ¬ st.last_field = 77), if_neg (by omega : ¬ st.last_field = 88), if_neg (by omega : ¬ st.last_field = 89), if_neg (by omega : ¬ st.last_field = 90), if_neg (by omega : ¬ st.last_field = 69), if_neg (by omega : ¬ st.last_field = 70), if_pos h]

theorem i16_of_lt (x : Int) (h0 : 0 ≤ x) (h1 : x < 32768) : i16 x = x := by
  unfold i16; omega

/-- C8 (amended).  Contextual `S` scaling: for every non-negative integer `v`
(read without a decimal point) whose scaled value fits the 16 bit `S` slot, when
the `S` field is committed while the stored machine code `M` is 104 or 109 the
record gets `S = 4 * v`; while `M` is in `130..132` it gets `S = PID_SCALE * v`;
for every other `M` it gets `S = v`. -/
theorem contextual_S_scaling (cfg : Config) (st : State) (v pid : Nat)
    (hlf : st.last_field = 83) (hrd : st.read_digit = ⟨false, v, 0⟩)
    (hpid : cfg.PID_SCALE = (pid : Int)) :
    (st.next_target.M = 104 ∨ st.next_target.M = 109 → 4 * v < 32768 →
        (commit_field cfg st).next_target.S = 4 * (v : Int))
      ∧ (130 ≤ st.next_target.M ∧ st.next_target.M ≤ 132 → pid * v < 32768 →
        pid < 2147483648 →
        (commit_field cfg st).next_target.S = cfg.PID_SCALE * (v : Int))
      ∧ (¬ (st.next_target.M = 104 ∨ st.next_target.M = 109) →
        ¬ (130 ≤ st.next_target.M ∧ st.next_target.M ≤ 132) → v < 32768 →
        (commit_field cfg st).next_target.S = (v : Int)) := by
  rw [commit_field_S cfg st hlf, hrd]
  refine ⟨fun hM hv => ?_, fun hM hv hp => ?_, fun hM1 hM2 hv => ?_⟩
  · rw [if_pos hM]
    have h := decfloat_to_int_integer v 4 (by norm_num) (by omega)
    simp only [Nat.cast_ofNat] at h
    rw [h, i16_of_lt _ (by omega) (by omega)]
    push_cast; ring
  · have hM' : ¬ (st.next_target.M = 104 ∨ st.next_target.M = 109) := by omega
    rw [if_neg hM', if_pos hM, hpid, i32_of_lt _ (by omega) (by omega)]
    have h := decfloat_to_int_integer v pid hp (by rw [Nat.mul_comm]; omega)
    have hle : ((v * pid : Nat) : Int) < 32768 := by
      rw [Nat.mul_comm]; exact_mod_cast hv
    rw [h, i16_of_lt _ (Int.natCast_nonneg _) hle]
    push_cast; ring
  · rw [if_neg hM1, if_neg hM2]
    have h := decfloat_to_int_integer v 1 (by norm_num) (by omega)
    simp only [Nat.cast_one, Nat.mul_one] at h
    rw [h, i16_of_lt _ (by omega) (by omega)]

/-- Instance of the amended C8, with the lines of the claim: `M104 S200`
forwards `S = 800`, and `S200` under the default command forwards `S = 200`. -/
theorem contextual_S_scaling_witness :
    (commit_field (Config.sample false false false)
        ⟨83, ⟨false, 200, 0⟩, { GCODE_COMMAND.zero with M := 104 }, []⟩).next_target.S = 4 * 200
      ∧ (executor_calls (feed (Config.sample false false false)
          [77, 49, 48, 52, 32, 83, 50, 48, 48, 10] State.init).tx).map GCODE_COMMAND.S = [800]
      ∧ (executor_calls (feed (Config.sample false false false)
          [83, 50, 48, 48, 10] State.init).tx).map GCODE_COMMAND.S = [200] :=
  ⟨(contextual_S_scaling (Config.sample false false false)
      ⟨83, ⟨false, 200, 0⟩, { GCODE_COMMAND.zero with M := 104 }, []⟩ 200 1024 rfl rfl rfl).1
      (Or.inl rfl) (by decide),
    by decide, by decide⟩

/-- C8 as stated fails.  With a mantissa cap of 16777215 and `PID_SCALE = 1024`:
`S16384` under `M104` stores `S = 0`, not `4 * 16384`, and `S4194304` under
`M130` stores `S = 0`, the product `1024 * 4194304` having wrapped 32 bits inside
`decfloat_to_int` already. -/
theorem contextual_S_scaling_counterexample :
    16384 < (Config.sample false false false).DECFLOAT_MANT_MAX
      ∧ (commit_field (Config.sample false false false)
          ⟨83, ⟨false, 16384, 0⟩, { GCODE_COMMAND.zero with M := 104 }, []⟩).next_target.S = 0
      ∧ (executor_calls (feed (Config.sample false false false)
          [77, 49, 48, 52, 32, 83, 49, 54, 51, 56, 52, 10] State.init).tx).map GCODE_COMMAND.S
          = [0]
      ∧ 4194304 < (Config.sample false false false).DECFLOAT_MANT_MAX
      ∧ decfloat_to_int ⟨false, 4194304, 0⟩ (i32 (Config.sample false false false).PID_SCALE) 1
          = 0
      ∧ (commit_field (Config.sample false false false)
          ⟨83, ⟨false, 4194304, 0⟩, { GCODE_COMMAND.zero with M := 130 }, []⟩).next_target.S = 0
      := by
  decide

set_option maxRecDepth 16384 in
/-- C9, evaluated at the failing input.  After the line `M104 S200`, the line
`S200`, which has no command letter, is handed to the executor as the default
command (`seen_G = 1`, `G = 1`, `seen_M = 0`) but with the stale `M = 104` in
the record, and with `S = 800`: the reset at the end of the first line does not
clear `M`, and the commit of `S` scales by 4. -/
theorem S_scale_after_temperature_line :
    (executor_calls (feed (Config.sample false false false)
        [77, 49, 48, 52, 32, 83, 50, 48, 48, 10, 83, 50, 48, 48, 10] State.init).tx).map
        (fun cmd => (cmd.seen_G, cmd.G, cmd.seen_M, cmd.M, cmd.S))
      = [(false, 0, true, 104, 800), (true, 1, false, 104, 800)] := by
  decide

/-! ## Inches against millimetres (C10) -/

theorem STEPS_PER_M_natCast (n : Nat) : STEPS_PER_M (n : ℚ) = 1000 * n % 4294967296 := by
  unfold STEPS_PER_M
  have h : (n : ℚ) * 1000 + 1 / 2 = ((1000 * n : Nat) : ℚ) / ((1 : Nat) : ℚ) + 1 / 2 := by
    push_cast; ring
  have h2 := round_half_up_eq (1000 * n) 1 (by norm_num)
  unfold round_half_up at h2
  have e : (2 * (1000 * n) + 1) / (2 * 1) = 1000 * n := by omega
  rw [h, h2, u32_natCast, e]

theorem STEPS_PER_IN_natCast (n : Nat) :
    STEPS_PER_IN (n : ℚ) = (254 * n + 5) / 10 % 4294967296 := by
  unfold STEPS_PER_IN
  have h : (254 / 10 : ℚ) * (n : ℚ) + 1 / 2 = ((254 * n : Nat) : ℚ) / ((10 : Nat) : ℚ) + 1 / 2 := by
    push_cast; ring
  have h2 := round_half_up_eq (254 * n) 10 (by norm_num)
  unfold round_half_up at h2
  have e : (2 * (254 * n) + 10) / (2 * 10) = (254 * n + 5) / 10 := by omega
  rw [h, h2, u32_natCast, e]

theorem commit_field_X (cfg : Config) (st : State) (h : st.last_field = 88) :
    (commit_field cfg st).next_target.target.X =
      if st.next_target.option_inches then
        decfloat_to_int st.read_digit (i32 cfg.STEPS_PER_IN_X) 1
      else decfloat_to_int st.read_digit (i32 cfg.STEPS_PER_M_X) 1000 := by
  unfold commit_field
  dsimp only
  rw [if_neg (by omega : ¬ st.last_field = 71), if_neg (by omega : ¬ st.last_field = 77), if_pos h]

/-- The two values committed for `X1`, for a whole number `n` of steps per
millimetre: `n` in millimetre mode, `25.4 * n` rounded half up in inch mode. -/
theorem X1_committed (cfg : Config) (nt : GCODE_COMMAND) (tx : List Out) (n : Nat)
    (hn : n ≤ 2147483) :
    (commit_field (cfg.with_steps_per_mm_x (n : ℚ))
        ⟨88, ⟨false, 1, 0⟩, { nt with option_inches := false }, tx⟩).next_target.target.X
        = (n : Int)
      ∧ (commit_field (cfg.with_steps_per_mm_x (n : ℚ))
        ⟨88, ⟨false, 1, 0⟩, { nt with option_inches := true }, tx⟩).next_target.target.X
        = (((254 * n + 5) / 10 : Nat) : Int) := by
  constructor
  · rw [commit_field_X _ _ rfl]
    simp only [Config.with_steps_per_mm_x, Bool.false_eq_true, if_false]
    rw [STEPS_PER_M_natCast, Nat.mod_eq_of_lt (by omega), i32_of_lt _ (by omega) (by omega),
      decfloat_to_int_nat false 1 0 (1000 * n) 1000 (by norm_num) (by norm_num) (by norm_num)
        (by omega) (by omega)]
    have e : (2 * (1 * (1000 * n)) + 1000 * 10 ^ (0 - 1)) / (2 * (1000 * 10 ^ (0 - 1))) = n := by
      simp only [Nat.zero_sub, pow_zero, Nat.mul_one, Nat.one_mul]
      omega
    rw [e]
    rfl
  · rw [commit_field_X _ _ rfl]
    simp only [Config.with_steps_per_mm_x, if_true]
    rw [STEPS_PER_IN_natCast, Nat.mod_eq_of_lt (by omega), i32_of_lt _ (by omega) (by omega),
      decfloat_to_int_integer 1 _ (by omega) (by omega)]
    simp

/-- C10 (amended).  Unit-mode sensitivity: for every whole-number axis
calibration constant `STEPS_PER_MM_X = n` with `1 ≤ n ≤ 2147483` (so that
`STEPS_PER_M_X` fits `int32_t`), the steps value committed to `target.X` for the
field `X1` with `option_inches` clear is `n`, the value committed with
`option_inches` set is `25.4` times that value rounded half up to a whole
number of steps, the two values differ, and the second is exactly `25.4` times
the first when `n` is a multiple of 5. -/
theorem unit_mode_sensitivity (cfg : Config) (nt : GCODE_COMMAND) (tx : List Out) (n : Nat)
    (hn1 : 1 ≤ n) (hn2 : n ≤ 2147483) :
    let mm := (commit_field (cfg.with_steps_per_mm_x (n : ℚ))
      ⟨88, ⟨false, 1, 0⟩, { nt with option_inches := false }, tx⟩).next_target.target.X
    let inch := (commit_field (cfg.with_steps_per_mm_x (n : ℚ))
      ⟨88, ⟨false, 1, 0⟩, { nt with option_inches := true }, tx⟩).next_target.target.X
    mm = (n : Int)
      ∧ inch = round_half_up (254 * n) 10
      ∧ inch ≠ mm
      ∧ (5 ∣ n → 10 * inch = 254 * mm) := by
  intro mm inch
  obtain ⟨h1, h2⟩ := X1_committed cfg nt tx n hn2
  have hmm : mm = (n : Int) := h1
  have hin : inch = (((254 * n + 5) / 10 : Nat) : Int) := h2
  refine ⟨hmm, ?_, ?_, ?_⟩
  · have e : (2 * (254 * n) + 10) / (2 * 10) = (254 * n + 5) / 10 := by omega
    rw [hin, round_half_up_eq _ _ (by norm_num), e]
  · rw [hin, hmm]
    omega
  · intro h5
    obtain ⟨k, hk⟩ := h5
    rw [hin, hmm, hk]
    omega

/-- Instance of the amended C10: with 320 steps per millimetre, `X1` commits
320 steps in millimetre mode and 8128 steps in inch mode. -/
theorem unit_mode_sensitivity_witness :
    (1 ≤ 320 ∧ 320 ≤ 2147483 ∧ 5 ∣ 320)
      ∧ (commit_field ((Config.sample false false false).with_steps_per_mm_x ((320 : Nat) : ℚ))
          ⟨88, ⟨false, 1, 0⟩, { GCODE_COMMAND.zero with option_inches := false }, []⟩
          ).next_target.target.X = ((320 : Nat) : Int)
      ∧ 10 * (commit_field
          ((Config.sample false false false).with_steps_per_mm_x ((320 : Nat) : ℚ))
          ⟨88, ⟨false, 1, 0⟩, { GCODE_COMMAND.zero with option_inches := true }, []⟩
          ).next_target.target.X
        = 254 * (commit_field
          ((Config.sample false false false).with_steps_per_mm_x ((320 : Nat) : ℚ))
          ⟨88, ⟨false, 1, 0⟩, { GCODE_COMMAND.zero with option_inches := false }, []⟩
          ).next_target.target.X :=
  ⟨by decide,
    (unit_mode_sensitivity (Config.sample false false false) GCODE_COMMAND.zero [] 320
      (by decide) (by decide)).1,
    (unit_mode_sensitivity (Config.sample false false false) GCODE_COMMAND.zero [] 320
      (by decide) (by decide)).2.2.2 (by decide)⟩

/-- C10 as stated fails.  With `STEPS_PER_MM_X = 1` the macros give
`STEPS_PER_IN_X = 25` and `STEPS_PER_M_X = 1000`; `X1` commits 25 steps in inch
mode and 1 step in millimetre mode, and 25 is not 25.4 times 1. -/
theorem unit_mode_sensitivity_counterexample :
    STEPS_PER_IN ((1 : Nat) : ℚ) = 25 ∧ STEPS_PER_M ((1 : Nat) : ℚ) = 1000
      ∧ (commit_field ((Config.sample false false false).with_steps_per_mm_x ((1 : Nat) : ℚ))
          ⟨88, ⟨false, 1, 0⟩, { GCODE_COMMAND.zero with option_inches := true }, []⟩
          ).next_target.target.X = 25
      ∧ (commit_field ((Config.sample false false false).with_steps_per_mm_x ((1 : Nat) : ℚ))
          ⟨88, ⟨false, 1, 0⟩, { GCODE_COMMAND.zero with option_inches := false }, []⟩
          ).next_target.target.X = 1
      ∧ (10 : Int) * 25 ≠ 254 * 1 := by
  obtain ⟨h1, h2⟩ := X1_committed (Config.sample false false false) GCODE_COMMAND.zero [] 1
    (by decide)
  refine ⟨?_, ?_, ?_, ?_, by decide⟩
  · rw [STEPS_PER_IN_natCast]
  · rw [STEPS_PER_M_natCast]
  · rw [h2]; rfl
  · rw [h1]; rfl

/-! ## Bytes without a case of their own, comments, and the log -/

theorem has_case_false (c : Nat) (h : has_case c = false) :
    c ≠ 71 ∧ c ≠ 77 ∧ c ≠ 88 ∧ c ≠ 89 ∧ c ≠ 90 ∧ c ≠ 69 ∧ c ≠ 70 ∧ c ≠ 83 ∧ c ≠ 80 ∧ c ≠ 84
      ∧ c ≠ 78 ∧ c ≠ 42 ∧ c ≠ 59 ∧ c ≠ 40 ∧ c ≠ 45 ∧ c ≠ 46 := by
  unfold has_case at h
  simp only [List.mem_cons, List.mem_singleton, List.mem_nil_iff, or_false,
    decide_eq_false_iff_not, not_or] at h
  obtain ⟨h1, h2, h3, h4, h5, h6, h7, h8, h9, h10, h11, h12, h13, h14, h15, h16⟩ := h
  exact ⟨h1, h2, h3, h4, h5, h6, h7, h8, h9, h10, h11, h12, h13, h14, h15, h16⟩

/-- A byte without a case of its own that is not a digit changes nothing but,
in a `DEBUG` build, the log. -/
theorem process_character_other (cfg : Config) (c : Nat) (st : State)
    (h : has_case c = false) (hd : ¬ (48 ≤ c ∧ c ≤ 57)) :
    (process_character cfg c st).next_target = st.next_target
      ∧ (process_character cfg c st).read_digit = st.read_digit
      ∧ (process_character cfg c st).last_field = st.last_field := by
  have hc := has_case_false c h
  unfold process_character
  dsimp only
  rw [if_neg (by omega : ¬ c = 71), if_neg (by omega : ¬ c = 77), if_neg (by omega : ¬ c = 88), if_neg (by omega : ¬ c = 89), if_neg (by omega : ¬ c = 90), if_neg (by omega : ¬ c = 69), if_neg (by omega : ¬ c = 70), if_neg (by omega : ¬ c = 83), if_neg (by omega : ¬ c = 80), if_neg (by omega : ¬ c = 84), if_neg (by omega : ¬ c = 78), if_neg (by omega : ¬ c = 42), if_neg (by omega : ¬ c = 59), if_neg (by omega : ¬ c = 40), if_neg (by omega : ¬ c = 45), if_neg (by omega : ¬ c = 46)]
  split_ifs <;> first | exact ⟨rfl, rfl, rfl⟩ | (exfalso; omega)

/-- Only `*`, `;` and `(` touch the checksum and comment flags in the switch. -/
theorem process_character_flags (cfg : Config) (c : Nat) (st : State)
    (h : c ≠ 42 ∧ c ≠ 59 ∧ c ≠ 40) :
    (process_character cfg c st).next_target.seen_checksum = st.next_target.seen_checksum
      ∧ (process_character cfg c st).next_target.seen_semi_comment
          = st.next_target.seen_semi_comment
      ∧ (process_character cfg c st).next_target.seen_parens_comment
          = st.next_target.seen_parens_comment := by
  unfold process_character
  dsimp only
  by_cases h71 : c = 71
  · rw [if_pos h71]
    exact ⟨rfl, rfl, rfl⟩
  rw [if_neg h71]
  by_cases h77 : c = 77
  · rw [if_pos h77]
    exact ⟨rfl, rfl, rfl⟩
  rw [if_neg h77]
  by_cases h88 : c = 88
  · rw [if_pos h88]
    exact ⟨rfl, rfl, rfl⟩
  rw [if_neg h88]
  by_cases h89 : c = 89
  · rw [if_pos h89]
    exact ⟨rfl, rfl, rfl⟩
  rw [if_neg h89]
  by_cases h90 : c = 90
  · rw [if_pos h90]
    exact ⟨rfl, rfl, rfl⟩
  rw [if_neg h90]
  by_cases h69 : c = 69
  · rw [if_pos h69]
    exact ⟨rfl, rfl, rfl⟩
  rw [if_neg h69]
  by_cases h70 : c = 70
  · rw [if_pos h70]
    exact ⟨rfl, rfl, rfl⟩
  rw [if_neg h70]
  by_cases h83 : c = 83
  · rw [if_pos h83]
    exact ⟨rfl, rfl, rfl⟩
  rw [if_neg h83]
  by_cases h80 : c = 80
  · rw [if_pos h80]
    exact ⟨rfl, rfl, rfl⟩
  rw [if_neg h80]
  by_cases h84 : c = 84
  · rw [if_pos h84]
    exact ⟨rfl, rfl, rfl⟩
  rw [if_neg h84]
  by_cases h78 : c = 78
  · rw [if_pos h78]
    exact ⟨rfl, rfl, rfl⟩
  rw [if_neg h78]
  by_cases h42 : c = 42
  · rw [if_pos h42]
    exfalso; omega
  rw [if_neg h42]
  by_cases h59 : c = 59
  · rw [if_pos h59]
    exfalso; omega
  rw [if_neg h59]
  by_cases h40 : c = 40
  · rw [if_pos h40]
    exfalso; omega
  rw [if_neg h40]
  by_cases h45 : c = 45
  · rw [if_pos h45]
    exact ⟨rfl, rfl, rfl⟩
  rw [if_neg h45]
  by_cases h46 : c = 46
  · rw [if_pos h46]
    exact ⟨rfl, rfl, rfl⟩
  rw [if_neg h46]
  split_ifs <;> exact ⟨rfl, rfl, rfl⟩

theorem skip_comments_flags (cfg : Config) (c : Nat) (st : State)
    (h : c ≠ 42 ∧ c ≠ 59 ∧ c ≠ 40 ∧ c ≠ 41) :
    (skip_comments cfg c st).next_target.seen_checksum = st.next_target.seen_checksum
      ∧ (skip_comments cfg c st).next_target.seen_semi_comment
          = st.next_target.seen_semi_comment
      ∧ (skip_comments cfg c st).next_target.seen_parens_comment
          = st.next_target.seen_parens_comment := by
  unfold skip_comments
  split_ifs with h1 h2 h3
  · exact process_character_flags cfg c _ ⟨h.1, h.2.1, h.2.2.1⟩
  · exact process_character_flags cfg c _ ⟨h.1, h.2.1, h.2.2.1⟩
  · exfalso; exact h.2.2.2 h3.2
  · exact ⟨rfl, rfl, rfl⟩

/-- The checksum and comment flags survive every byte other than `*`, `;`, `(`
and `)`, up to the end-of-line test. -/
theorem before_end_of_line_flags (cfg : Config) (c : Nat) (st : State)
    (h : uppercase (c % 256) ≠ 42 ∧ uppercase (c % 256) ≠ 59 ∧ uppercase (c % 256) ≠ 40
      ∧ uppercase (c % 256) ≠ 41) :
    (before_end_of_line cfg c st).next_target.seen_checksum = st.next_target.seen_checksum
      ∧ (before_end_of_line cfg c st).next_target.seen_semi_comment
          = st.next_target.seen_semi_comment
      ∧ (before_end_of_line cfg c st).next_target.seen_parens_comment
          = st.next_target.seen_parens_comment := by
  unfold before_end_of_line
  dsimp only
  have h1 := skip_comments_flags cfg (uppercase (c % 256))
    (process_previous_field cfg (uppercase (c % 256)) (crc_before cfg (c % 256) st)) h
  have h2 := process_previous_field_checksum cfg (uppercase (c % 256))
    (crc_before cfg (c % 256) st)
  refine ⟨?_, ?_, ?_⟩
  · exact h1.1.trans h2.2.1
  · exact h1.2.1.trans h2.2.2.1
  · exact h1.2.2.trans h2.2.2.2

theorem executor_calls_append (l1 l2 : List Out) :
    executor_calls (l1 ++ l2) = executor_calls l1 ++ executor_calls l2 := by
  unfold executor_calls; rw [List.filterMap_append]

theorem executor_calls_echo (cfg : Config) (tx : List Out) (o : Out)
    (h : executor_calls [o] = []) : executor_calls (echo cfg tx o) = executor_calls tx := by
  unfold echo
  split_ifs
  · rw [executor_calls_append, h, List.append_nil]
  · rfl

theorem commit_field_executor_calls (cfg : Config) (st : State) :
    executor_calls (commit_field cfg st).tx = executor_calls st.tx := by
  unfold commit_field
  dsimp only
  by_cases h71 : st.last_field = 71
  · rw [if_pos h71]
    exact executor_calls_echo cfg _ _ rfl
  rw [if_neg h71]
  by_cases h77 : st.last_field = 77
  · rw [if_pos h77]
    exact executor_calls_echo cfg _ _ rfl
  rw [if_neg h77]
  by_cases h88 : st.last_field = 88
  · rw [if_pos h88]
    exact executor_calls_echo cfg _ _ rfl
  rw [if_neg h88]
  by_cases h89 : st.last_field = 89
  · rw [if_pos h89]
    exact executor_calls_echo cfg _ _ rfl
  rw [if_neg h89]
  by_cases h90 : st.last_field = 90
  · rw [if_pos h90]
    exact executor_calls_echo cfg _ _ rfl
  rw [if_neg h90]
  by_cases h69 : st.last_field = 69
  · rw [if_pos h69]
    exact executor_calls_echo cfg _ _ rfl
  rw [if_neg h69]
  by_cases h70 : st.last_field = 70
  · rw [if_pos h70]
    exact executor_calls_echo cfg _ _ rfl
  rw [if_neg h70]
  by_cases h83 : st.last_field = 83
  · rw [if_pos h83]
    exact executor_calls_echo cfg _ _ rfl
  rw [if_neg h83]
  by_cases h80 : st.last_field = 80
  · rw [if_pos h80]
    exact executor_calls_echo cfg _ _ rfl
  rw [if_neg h80]
  by_cases h84 : st.last_field = 84
  · rw [if_pos h84]
    exact executor_calls_echo cfg _ _ rfl
  rw [if_neg h84]
  by_cases h78 : st.last_field = 78
  · rw [if_pos h78]
    exact executor_calls_echo cfg _ _ rfl
  rw [if_neg h78]
  by_cases h42 : st.last_field = 42
  · rw [if_pos h42]
    exact executor_calls_echo cfg _ _ rfl
  rw [if_neg h42]

theorem commit_pending_executor_calls (cfg : Config) (st : State) :
    executor_calls (commit_pending cfg st).tx = executor_calls st.tx := by
  rw [commit_pending_eq]
  split_ifs
  · exact commit_field_executor_calls cfg st
  · rfl

theorem process_character_executor_calls (cfg : Config) (c : Nat) (st : State) :
    executor_calls (process_character cfg c st).tx = executor_calls st.tx := by
  unfold process_character
  dsimp only
  by_cases h71 : c = 71
  · rw [if_pos h71]
  rw [if_neg h71]
  by_cases h77 : c = 77
  · rw [if_pos h77]
  rw [if_neg h77]
  by_cases h88 : c = 88
  · rw [if_pos h88]
  rw [if_neg h88]
  by_cases h89 : c = 89
  · rw [if_pos h89]
  rw [if_neg h89]
  by_cases h90 : c = 90
  · rw [if_pos h90]
  rw [if_neg h90]
  by_cases h69 : c = 69
  · rw [if_pos h69]
  rw [if_neg h69]
  by_cases h70 : c = 70
  · rw [if_pos h70]
  rw [if_neg h70]
  by_cases h83 : c = 83
  · rw [if_pos h83]
  rw [if_neg h83]
  by_cases h80 : c = 80
  · rw [if_pos h80]
  rw [if_neg h80]
  by_cases h84 : c = 84
  · rw [if_pos h84]
  rw [if_neg h84]
  by_cases h78 : c = 78
  · rw [if_pos h78]
  rw [if_neg h78]
  by_cases h42 : c = 42
  · rw [if_pos h42]
  rw [if_neg h42]
  by_cases h59 : c = 59
  · rw [if_pos h59]
  rw [if_neg h59]
  by_cases h40 : c = 40
  · rw [if_pos h40]
  rw [if_neg h40]
  by_cases h45 : c = 45
  · rw [if_pos h45]
  rw [if_neg h45]
  by_cases h46 : c = 46
  · rw [if_pos h46]
  rw [if_neg h46]
  split_ifs <;> first | rfl | (rw [executor_calls_append]; exact List.append_nil _)

/-- Decoding a byte, up to the end-of-line test, calls no executor. -/
theorem before_end_of_line_executor_calls (cfg : Config) (c : Nat) (st : State) :
    executor_calls (before_end_of_line cfg c st).tx = executor_calls st.tx := by
  unfold before_end_of_line
  dsimp only
  show executor_calls (skip_comments cfg _ _).tx = _
  have h1 : ∀ s : State, executor_calls (skip_comments cfg (uppercase (c % 256)) s).tx
      = executor_calls s.tx := by
    intro s
    unfold skip_comments
    split_ifs
    · rw [process_character_executor_calls]
      exact executor_calls_echo cfg _ _ rfl
    · rw [process_character_executor_calls]
    · rfl
    · rfl
  rw [h1, process_previous_field_eq]
  split_ifs
  · rw [commit_pending_executor_calls]; rfl
  · rfl

/-! ## Comment transparency (C7) -/

theorem core_congr_before_end_of_line (cfg : Config) (c : Nat) (s1 s2 : State)
    (h : s1.core = s2.core) :
    (before_end_of_line cfg c s1).core = (before_end_of_line cfg c s2).core := by
  rw [core_before_end_of_line, h, ← core_before_end_of_line]

theorem core_congr_feed (cfg : Config) (l : List Nat)
    (hl : ∀ c ∈ l, is_eol (uppercase (c % 256)) = false) :
    ∀ s1 s2 : State, s1.core = s2.core → (feed cfg l s1).core = (feed cfg l s2).core := by
  induction l with
  | nil => intro s1 s2 h; exact h
  | cons c l ih =>
    intro s1 s2 h
    rw [feed_cons, feed_cons]
    apply ih (fun x hx => hl x (List.mem_cons_of_mem _ hx))
    rw [gcode_parse_char_of_not_eol cfg c s1 (hl c (List.mem_cons_self _ _)),
      gcode_parse_char_of_not_eol cfg c s2 (hl c (List.mem_cons_self _ _))]
    exact core_congr_before_end_of_line cfg c s1 s2 h

theorem commit_pending_idem (cfg : Config) (st : State) :
    commit_pending cfg (commit_pending cfg st) = commit_pending cfg st := by
  by_cases h0 : st.last_field ≠ 0
  · have h1 : (commit_pending cfg st).last_field = 0 := by
      rw [commit_pending_eq, if_pos h0]
    rw [commit_pending_eq cfg (commit_pending cfg st), if_neg (by rw [h1]; simp)]
  · have h1 : commit_pending cfg st = st := by rw [commit_pending_eq, if_neg h0]
    rw [h1, h1]

theorem core_congr_commit_pending (cfg : Config) (s1 s2 : State) (h : s1.core = s2.core) :
    (commit_pending cfg s1).core = (commit_pending cfg s2).core := by
  rw [core_commit_pending, h, ← core_commit_pending]

theorem pending_done_commit (cfg : Config) (s s1 : State) (h : pending_done cfg s s1) :
    (commit_pending cfg s1).core = (commit_pending cfg s).core := by
  rcases h with h | h
  · exact core_congr_commit_pending cfg s1 s h
  · rw [core_congr_commit_pending cfg s1 (commit_pending cfg s) h, commit_pending_idem]

theorem pending_done_flags (cfg : Config) (s s1 : State) (h : pending_done cfg s s1) :
    s1.next_target.seen_checksum = s.next_target.seen_checksum
      ∧ s1.next_target.seen_semi_comment = s.next_target.seen_semi_comment
      ∧ s1.next_target.seen_parens_comment = s.next_target.seen_parens_comment := by
  have hfl := commit_pending_flags cfg s
  have h1 : ∀ a b : State, a.core = b.core →
      a.next_target.seen_checksum = b.next_target.seen_checksum
        ∧ a.next_target.seen_semi_comment = b.next_target.seen_semi_comment
        ∧ a.next_target.seen_parens_comment = b.next_target.seen_parens_comment := by
    intro a b hab
    have e1 : a.core.next_target.seen_checksum = b.core.next_target.seen_checksum := by
      rw [hab]
    have e2 : a.core.next_target.seen_semi_comment = b.core.next_target.seen_semi_comment := by
      rw [hab]
    have e3 : a.core.next_target.seen_parens_comment
        = b.core.next_target.seen_parens_comment := by
      rw [hab]
    exact ⟨e1, e2, e3⟩
  rcases h with h | h
  · exact h1 _ _ h
  · obtain ⟨e1, e2, e3⟩ := h1 _ _ h
    exact ⟨e1.trans hfl.1, e2.trans hfl.2.1, e3.trans hfl.2.2.1⟩

/-- A byte that starts a field or ends the line first commits the pending
field. -/
theorem before_end_of_line_closing (cfg : Config) (b : Nat) (s : State)
    (hb : (is_field_start (uppercase (b % 256)) || is_eol (uppercase (b % 256))) = true) :
    (before_end_of_line cfg b s).core
      = (skip_comments cfg (uppercase (b % 256)) (commit_pending cfg s).core).core := by
  unfold before_end_of_line
  dsimp only
  rw [core_crc_after, core_skip_comments, process_previous_field_eq, if_pos hb,
    core_commit_pending, core_crc_before, ← core_commit_pending]

theorem closing_byte_joins (cfg : Config) (b : Nat) (s s1 s2 : State)
    (hb : (is_field_start (uppercase (b % 256)) || is_eol (uppercase (b % 256))) = true)
    (h1 : pending_done cfg s s1) (h2 : s2.core = s.core) :
    (before_end_of_line cfg b s1).core = (before_end_of_line cfg b s2).core := by
  rw [before_end_of_line_closing cfg b s1 hb, before_end_of_line_closing cfg b s2 hb,
    pending_done_commit cfg s s1 h1, core_congr_commit_pending cfg s2 s h2]

/-- Inside a parenthetical comment a byte other than `)` can only commit the
pending field. -/
theorem before_end_of_line_in_parens (cfg : Config) (c : Nat) (st : State)
    (hp : st.next_target.seen_parens_comment = true) (hc : uppercase (c % 256) ≠ 41) :
    (before_end_of_line cfg c st).core
      = (process_previous_field cfg (uppercase (c % 256)) st).core := by
  unfold before_end_of_line
  dsimp only
  have hfl := process_previous_field_checksum cfg (uppercase (c % 256))
    (crc_before cfg (c % 256) st)
  have hp' : (process_previous_field cfg (uppercase (c % 256))
      (crc_before cfg (c % 256) st)).next_target.seen_parens_comment = true := by
    rw [hfl.2.2.2]; exact hp
  rw [core_crc_after]
  unfold skip_comments
  rw [if_neg (by rw [hp']; simp), if_neg (by intro h; exact hc h.2),
    core_process_previous_field, core_crc_before, ← core_process_previous_field]

theorem in_parens_step (cfg : Config) (c : Nat) (s s1 : State)
    (hp : s.next_target.seen_parens_comment = true) (hc : uppercase (c % 256) ≠ 41)
    (h : pending_done cfg s s1) :
    pending_done cfg s (before_end_of_line cfg c s1) := by
  have hp1 : s1.next_target.seen_parens_comment = true :=
    (pending_done_flags cfg s s1 h).2.2.trans hp
  unfold pending_done
  rw [before_end_of_line_in_parens cfg c s1 hp1 hc, process_previous_field_eq]
  split_ifs
  · right; exact pending_done_commit cfg s s1 h
  · exact h

theorem comment_byte (x : Nat) (h : x < 256 ∧ x ≠ 41 ∧ x ≠ 10 ∧ x ≠ 13) :
    uppercase (x % 256) ≠ 41 ∧ is_eol (uppercase (x % 256)) = false := by
  rw [Nat.mod_eq_of_lt h.1]
  by_cases hl : 97 ≤ x ∧ x ≤ 122
  · rw [uppercase_of_lower x hl.1 hl.2]
    refine ⟨by omega, ?_⟩
    unfold is_eol
    simp only [Bool.or_eq_false_iff, beq_eq_false_iff_ne]
    omega
  · rw [uppercase_of_not_lower x (by omega)]
    refine ⟨h.2.1, ?_⟩
    unfold is_eol
    simp only [Bool.or_eq_false_iff, beq_eq_false_iff_ne]
    omega

theorem feed_in_parens (cfg : Config) (t : List Nat)
    (ht : ∀ x ∈ t, x < 256 ∧ x ≠ 41 ∧ x ≠ 10 ∧ x ≠ 13) :
    ∀ s s1 : State, s.next_target.seen_parens_comment = true → pending_done cfg s s1 →
      pending_done cfg s (feed cfg t s1) := by
  induction t with
  | nil => intro s s1 _ h; exact h
  | cons x t ih =>
    intro s s1 hp h
    have hx := comment_byte x (ht x (List.mem_cons_self _ _))
    rw [feed_cons, gcode_parse_char_of_not_eol cfg x s1 hx.2]
    exact ih (fun y hy => ht y (List.mem_cons_of_mem _ hy)) s _ hp
      (in_parens_step cfg x s s1 hp hx.1 h)

theorem core_set_parens (b : Bool) (st : State) :
    (set_parens b st).core = set_parens b st.core := rfl

theorem core_congr_set_parens (b : Bool) (s1 s2 : State) (h : s1.core = s2.core) :
    (set_parens b s1).core = (set_parens b s2).core := by
  rw [core_set_parens, h, ← core_set_parens]

theorem set_parens_self (b : Bool) (st : State) (h : st.next_target.seen_parens_comment = b) :
    set_parens b st = st := by
  subst h; rfl

theorem commit_field_set_parens (cfg : Config) (b : Bool) (st : State) :
    commit_field cfg (set_parens b st) = set_parens b (commit_field cfg st) := by
  unfold commit_field
  dsimp only
  by_cases h71 : st.last_field = 71
  · rw [if_pos h71, if_pos (show (set_parens b st).last_field = 71 from h71)]
    rfl
  rw [if_neg h71, if_neg (show ¬ (set_parens b st).last_field = 71 from h71)]
  by_cases h77 : st.last_field = 77
  · rw [if_pos h77, if_pos (show (set_parens b st).last_field = 77 from h77)]
    rfl
  rw [if_neg h77, if_neg (show ¬ (set_parens b st).last_field = 77 from h77)]
  by_cases h88 : st.last_field = 88
  · rw [if_pos h88, if_pos (show (set_parens b st).last_field = 88 from h88)]
    rfl
  rw [if_neg h88, if_neg (show ¬ (set_parens b st).last_field = 88 from h88)]
  by_cases h89 : st.last_field = 89
  · rw [if_pos h89, if_pos (show (set_parens b st).last_field = 89 from h89)]
    rfl
  rw [if_neg h89, if_neg (show ¬ (set_parens b st).last_field = 89 from h89)]
  by_cases h90 : st.last_field = 90
  · rw [if_pos h90, if_pos (show (set_parens b st).last_field = 90 from h90)]
    rfl
  rw [if_neg h90, if_neg (show ¬ (set_parens b st).last_field = 90 from h90)]
  by_cases h69 : st.last_field = 69
  · rw [if_pos h69, if_pos (show (set_parens b st).last_field = 69 from h69)]
    rfl
  rw [if_neg h69, if_neg (show ¬ (set_parens b st).last_field = 69 from h69)]
  by_cases h70 : st.last_field = 70
  · rw [if_pos h70, if_pos (show (set_parens b st).last_field = 70 from h70)]
    rfl
  rw [if_neg h70, if_neg (show ¬ (set_parens b st).last_field = 70 from h70)]
  by_cases h83 : st.last_field = 83
  · rw [if_pos h83, if_pos (show (set_parens b st).last_field = 83 from h83)]
    rfl
  rw [if_neg h83, if_neg (show ¬ (set_parens b st).last_field = 83 from h83)]
  by_cases h80 : st.last_field = 80
  · rw [if_pos h80, if_pos (show (set_parens b st).last_field = 80 from h80)]
    rfl
  rw [if_neg h80, if_neg (show ¬ (set_parens b st).last_field = 80 from h80)]
  by_cases h84 : st.last_field = 84
  · rw [if_pos h84, if_pos (show (set_parens b st).last_field = 84 from h84)]
    rfl
  rw [if_neg h84, if_neg (show ¬ (set_parens b st).last_field = 84 from h84)]
  by_cases h78 : st.last_field = 78
  · rw [if_pos h78, if_pos (show (set_parens b st).last_field = 78 from h78)]
    rfl
  rw [if_neg h78, if_neg (show ¬ (set_parens b st).last_field = 78 from h78)]
  by_cases h42 : st.last_field = 42
  · rw [if_pos h42, if_pos (show (set_parens b st).last_field = 42 from h42)]
    rfl
  rw [if_neg h42, if_neg (show ¬ (set_parens b st).last_field = 42 from h42)]

theorem commit_pending_set_parens (cfg : Config) (b : Bool) (st : State) :
    commit_pending cfg (set_parens b st) = set_parens b (commit_pending cfg st) := by
  rw [commit_pending_eq, commit_pending_eq]
  by_cases h0 : st.last_field ≠ 0
  · rw [if_pos h0, if_pos (show (set_parens b st).last_field ≠ 0 from h0),
      commit_field_set_parens]
    rfl
  · rw [if_neg h0, if_neg (show ¬ (set_parens b st).last_field ≠ 0 from h0)]

/-- A blank changes nothing but the checksum accumulator and, in a `DEBUG`
build, the log. -/
theorem gcode_parse_char_blank (cfg : Config) (st : State) :
    (gcode_parse_char cfg 32 st).core = st.core := by
  rw [gcode_parse_char_of_not_eol cfg 32 st (by decide)]
  unfold before_end_of_line
  dsimp only
  rw [core_crc_after, process_previous_field_eq,
    if_neg (by decide : ¬ (is_field_start (uppercase (32 % 256))
      || is_eol (uppercase (32 % 256))) = true)]
  unfold skip_comments
  split_ifs with h1 h2 h3
  · exact absurd h2 (by decide)
  · have h := (process_character_other cfg (uppercase (32 % 256)) (crc_before cfg (32 % 256) st)
      (by decide) (by decide))
    have e : process_character cfg (uppercase (32 % 256)) (crc_before cfg (32 % 256) st)
        = { crc_before cfg (32 % 256) st with
            tx := (process_character cfg (uppercase (32 % 256))
              (crc_before cfg (32 % 256) st)).tx } := by
      rcases hpc : process_character cfg (uppercase (32 % 256))
        (crc_before cfg (32 % 256) st) with ⟨lf, rd, nt, tx⟩
      rw [hpc] at h
      simp only at h
      rw [h.1, h.2.1, h.2.2]
    rw [e]
    rfl
  · exact absurd h3.2 (by decide)
  · rfl

/-- `(` outside a comment opens a parenthetical comment. -/
theorem gcode_parse_char_open (cfg : Config) (st : State)
    (hs : st.next_target.seen_semi_comment = false)
    (hp : st.next_target.seen_parens_comment = false) :
    (gcode_parse_char cfg 40 st).core = (set_parens true st).core := by
  rw [gcode_parse_char_of_not_eol cfg 40 st (by decide),
    before_end_of_line_plain cfg 40 st (by decide) (by decide) (by decide) hs hp]
  rfl

/-- `)` inside a parenthetical comment closes it. -/
theorem gcode_parse_char_close (cfg : Config) (st : State)
    (hp : st.next_target.seen_parens_comment = true) :
    (gcode_parse_char cfg 41 st).core = (set_parens false st).core := by
  rw [gcode_parse_char_of_not_eol cfg 41 st (by decide)]
  unfold before_end_of_line
  dsimp only
  rw [core_crc_after, process_previous_field_eq,
    if_neg (by decide : ¬ (is_field_start (uppercase (41 % 256))
      || is_eol (uppercase (41 % 256))) = true)]
  unfold skip_comments
  rw [if_neg (by
    show ¬ (!(st.next_target.seen_semi_comment) && !(st.next_target.seen_parens_comment)) = true
    rw [hp]; simp)]
  rw [if_pos ⟨hp, by decide⟩]
  rfl

/-- The bytes ` (`, `t`, `) ` read outside a comment leave the state as it was,
up to the checksum and the log, except that the pending field may have been
committed. -/
theorem feed_comment_block (cfg : Config) (t : List Nat) (s : State)
    (ht : ∀ x ∈ t, x < 256 ∧ x ≠ 41 ∧ x ≠ 10 ∧ x ≠ 13)
    (hs : s.next_target.seen_semi_comment = false)
    (hp : s.next_target.seen_parens_comment = false) :
    pending_done cfg s (feed cfg ([32, 40] ++ t ++ [41, 32]) s) := by
  rw [feed_append, feed_append]
  -- the blank and the opening parenthesis
  have h1 : (feed cfg [32, 40] s).core = (set_parens true s).core := by
    show (gcode_parse_char cfg 40 (gcode_parse_char cfg 32 s)).core = _
    have hb := gcode_parse_char_blank cfg s
    have e1 : (gcode_parse_char cfg 32 s).next_target.seen_semi_comment = false := by
      have : (gcode_parse_char cfg 32 s).core.next_target.seen_semi_comment = false := by
        rw [hb]; exact hs
      exact this
    have e2 : (gcode_parse_char cfg 32 s).next_target.seen_parens_comment = false := by
      have : (gcode_parse_char cfg 32 s).core.next_target.seen_parens_comment = false := by
        rw [hb]; exact hp
      exact this
    rw [gcode_parse_char_open cfg _ e1 e2]
    exact core_congr_set_parens true _ _ hb
  -- the text of the comment
  have h2 : pending_done cfg (set_parens true s) (feed cfg t (feed cfg [32, 40] s)) :=
    feed_in_parens cfg t ht (set_parens true s) _ rfl (Or.inl h1)
  -- the closing parenthesis and the blank
  have hp2 := (pending_done_flags cfg _ _ h2).2.2
  have h3 : (feed cfg [41, 32] (feed cfg t (feed cfg [32, 40] s))).core
      = (set_parens false (feed cfg t (feed cfg [32, 40] s))).core := by
    show (gcode_parse_char cfg 32 (gcode_parse_char cfg 41 _)).core = _
    rw [gcode_parse_char_blank, gcode_parse_char_close cfg _ (hp2.trans rfl)]
  unfold pending_done
  rw [h3]
  rcases h2 with h2 | h2
  · left
    rw [core_congr_set_parens false _ _ h2]
    show (set_parens false s).core = _
    rw [set_parens_self false s hp]
  · right
    rw [core_congr_set_parens false _ _ h2, commit_pending_set_parens]
    show (set_parens false (commit_pending cfg s)).core = _
    rw [set_parens_self false _ ((commit_pending_flags cfg s).2.2.1.trans hp)]

theorem letter_starts_field (b : Nat) (h : is_letter b = true) :
    is_field_start (uppercase (b % 256)) = true ∧ is_eol (uppercase (b % 256)) = false := by
  unfold is_letter at h
  simp only [Bool.or_eq_true, Bool.and_eq_true, decide_eq_true_eq] at h
  have hb : b % 256 = b := Nat.mod_eq_of_lt (by omega)
  rw [hb]
  rcases h with h | h
  · rw [uppercase_of_not_lower b (by omega)]
    unfold is_field_start is_eol
    simp only [Bool.or_eq_true, Bool.and_eq_true, decide_eq_true_eq, beq_iff_eq,
      Bool.or_eq_false_iff, beq_eq_false_iff_ne]
    omega
  · rw [uppercase_of_lower b h.1 h.2]
    unfold is_field_start is_eol
    simp only [Bool.or_eq_true, Bool.and_eq_true, decide_eq_true_eq, beq_iff_eq,
      Bool.or_eq_false_iff, beq_eq_false_iff_ne]
    omega

theorem field_char_plain (c : Nat) (h : field_char c = true) :
    is_eol (uppercase (c % 256)) = false
      ∧ uppercase (c % 256) ≠ 42 ∧ uppercase (c % 256) ≠ 59 ∧ uppercase (c % 256) ≠ 40
      ∧ uppercase (c % 256) ≠ 41 := by
  unfold field_char is_letter at h
  simp only [Bool.or_eq_true, Bool.and_eq_true, decide_eq_true_eq, beq_iff_eq] at h
  have hb : c % 256 = c := Nat.mod_eq_of_lt (by omega)
  rw [hb]
  unfold is_eol
  simp only [Bool.or_eq_false_iff, beq_eq_false_iff_ne]
  by_cases hl : 97 ≤ c ∧ c ≤ 122
  · rw [uppercase_of_lower c hl.1 hl.2]; omega
  · rw [uppercase_of_not_lower c (by omega)]; omega

/-- After the comment block, or without it, the rest of the line brings the
decoder to the same record at the end-of-line test. -/
theorem tail_joins (cfg : Config) (B : List Nat) (c : Nat) (s s1 s2 : State)
    (hB : field_sequence B) (hc : c = 10 ∨ c = 13)
    (h1 : pending_done cfg s s1) (h2 : s2.core = s.core) :
    (before_end_of_line cfg c (feed cfg B s1)).core
      = (before_end_of_line cfg c (feed cfg B s2)).core := by
  cases B with
  | nil =>
    apply closing_byte_joins cfg c s s1 s2 _ h1 h2
    rcases hc with h | h <;> subst h <;> rfl
  | cons b B =>
    have hb := letter_starts_field b (hB.2 b rfl)
    rw [feed_cons, feed_cons, gcode_parse_char_of_not_eol cfg b s1 hb.2,
      gcode_parse_char_of_not_eol cfg b s2 hb.2]
    apply core_congr_before_end_of_line
    apply core_congr_feed cfg B
      (fun x hx => (field_char_plain x (hB.1 x (List.mem_cons_of_mem _ hx))).1)
    exact closing_byte_joins cfg b s s1 s2 (by rw [hb.1]; rfl) h1 h2

theorem feed_field_chars_flags (cfg : Config) (l : List Nat)
    (hl : ∀ c ∈ l, field_char c = true) :
    ∀ st : State,
      (feed cfg l st).next_target.seen_checksum = st.next_target.seen_checksum
        ∧ (feed cfg l st).next_target.seen_semi_comment = st.next_target.seen_semi_comment
        ∧ (feed cfg l st).next_target.seen_parens_comment
            = st.next_target.seen_parens_comment := by
  induction l with
  | nil => intro st; exact ⟨rfl, rfl, rfl⟩
  | cons c l ih =>
    intro st
    have hc := field_char_plain c (hl c (List.mem_cons_self _ _))
    obtain ⟨e1, e2, e3⟩ := ih (fun x hx => hl x (List.mem_cons_of_mem _ hx))
      (gcode_parse_char cfg c st)
    rw [feed_cons, e1, e2, e3, gcode_parse_char_of_not_eol cfg c st hc.1]
    exact before_end_of_line_flags cfg c st hc.2

theorem feed_executor_calls (cfg : Config) (l : List Nat)
    (hl : ∀ c ∈ l, is_eol (uppercase (c % 256)) = false) :
    ∀ st : State, executor_calls (feed cfg l st).tx = executor_calls st.tx := by
  induction l with
  | nil => intro st; rfl
  | cons c l ih =>
    intro st
    rw [feed_cons, ih (fun x hx => hl x (List.mem_cons_of_mem _ hx)),
      gcode_parse_char_of_not_eol cfg c st (hl c (List.mem_cons_self _ _)),
      before_end_of_line_executor_calls]

/-- The calls of the executor after a terminator byte: one more, on the record
of the end-of-line test, iff the line is accepted. -/
theorem eol_executor_calls (cfg : Config) (c : Nat) (st : State) (hc : c = 10 ∨ c = 13) :
    executor_calls (gcode_parse_char cfg c st).tx =
      executor_calls st.tx ++
        (if linenumber_ok cfg (before_end_of_line cfg c st).next_target
            && checksum_ok cfg (before_end_of_line cfg c st).next_target then
          [(before_end_of_line cfg c st).next_target]
        else []) := by
  obtain ⟨h1, h2, h3⟩ := gcode_parse_char_eol_outcome cfg st c hc
  have he : executor_calls (echo cfg (before_end_of_line cfg c st).tx (Out.serial_writechar c))
      = executor_calls st.tx := by
    rw [executor_calls_echo cfg _ (Out.serial_writechar c) rfl,
      before_end_of_line_executor_calls]
  cases hl : linenumber_ok cfg (before_end_of_line cfg c st).next_target
  · rw [(h1 hl).1, executor_calls_append, he]
    rfl
  · cases hk : checksum_ok cfg (before_end_of_line cfg c st).next_target
    · rw [(h2 hl hk).1, executor_calls_append, he]
      rfl
    · rw [h3 hl hk, executor_calls_append, he]
      rfl

theorem reset_variables_flags (st : State) :
    (reset_variables st).next_target.seen_checksum = false
      ∧ (reset_variables st).next_target.seen_semi_comment = false
      ∧ (reset_variables st).next_target.seen_parens_comment = false := by
  unfold reset_variables
  dsimp only
  split_ifs <;> exact ⟨rfl, rfl, rfl⟩

theorem line_start_flags (st : State) (h : line_start st) :
    st.next_target.seen_checksum = false
      ∧ st.next_target.seen_semi_comment = false
      ∧ st.next_target.seen_parens_comment = false := by
  rcases h with h | h
  · rw [h]; exact ⟨rfl, rfl, rfl⟩
  · rw [← h]; exact reset_variables_flags st

/-! ## The checksum of a whole line -/

theorem process_character_seen_checksum_mono (cfg : Config) (c : Nat) (st : State)
    (h : st.next_target.seen_checksum = true) :
    (process_character cfg c st).next_target.seen_checksum = true := by
  unfold process_character
  dsimp only
  by_cases h71 : c = 71
  · rw [if_pos h71]
    exact h
  rw [if_neg h71]
  by_cases h77 : c = 77
  · rw [if_pos h77]
    exact h
  rw [if_neg h77]
  by_cases h88 : c = 88
  · rw [if_pos h88]
    exact h
  rw [if_neg h88]
  by_cases h89 : c = 89
  · rw [if_pos h89]
    exact h
  rw [if_neg h89]
  by_cases h90 : c = 90
  · rw [if_pos h90]
    exact h
  rw [if_neg h90]
  by_cases h69 : c = 69
  · rw [if_pos h69]
    exact h
  rw [if_neg h69]
  by_cases h70 : c = 70
  · rw [if_pos h70]
    exact h
  rw [if_neg h70]
  by_cases h83 : c = 83
  · rw [if_pos h83]
    exact h
  rw [if_neg h83]
  by_cases h80 : c = 80
  · rw [if_pos h80]
    exact h
  rw [if_neg h80]
  by_cases h84 : c = 84
  · rw [if_pos h84]
    exact h
  rw [if_neg h84]
  by_cases h78 : c = 78
  · rw [if_pos h78]
    exact h
  rw [if_neg h78]
  by_cases h42 : c = 42
  · rw [if_pos h42]
  rw [if_neg h42]
  by_cases h59 : c = 59
  · rw [if_pos h59]
    exact h
  rw [if_neg h59]
  by_cases h40 : c = 40
  · rw [if_pos h40]
    exact h
  rw [if_neg h40]
  by_cases h45 : c = 45
  · rw [if_pos h45]
    exact h
  rw [if_neg h45]
  by_cases h46 : c = 46
  · rw [if_pos h46]
    exact h
  rw [if_neg h46]
  split_ifs <;> exact h

theorem before_end_of_line_seen_checksum_mono (cfg : Config) (c : Nat) (st : State)
    (h : (before_end_of_line cfg c st).next_target.seen_checksum = false) :
    st.next_target.seen_checksum = false := by
  cases hst : st.next_target.seen_checksum
  · rfl
  · exfalso
    have h2 := (process_previous_field_checksum cfg (uppercase (c % 256))
      (crc_before cfg (c % 256) st)).2.1
    have h3 : (process_previous_field cfg (uppercase (c % 256))
        (crc_before cfg (c % 256) st)).next_target.seen_checksum = true := h2.trans hst
    have h4 : (skip_comments cfg (uppercase (c % 256)) (process_previous_field cfg
        (uppercase (c % 256)) (crc_before cfg (c % 256) st))).next_target.seen_checksum
        = true := by
      unfold skip_comments
      split_ifs
      · exact process_character_seen_checksum_mono cfg _ _ h3
      · exact process_character_seen_checksum_mono cfg _ _ h3
      · exact h3
      · exact h3
    have h5 : (before_end_of_line cfg c st).next_target.seen_checksum = true := h4
    rw [h5] at h
    exact Bool.noConfusion h

/-- While no checksum field has been seen, each byte is folded into the
accumulator as `checksum_byte` gives it. -/
theorem before_end_of_line_checksum_open (cfg : Config) (c : Nat) (st : State)
    (h : (before_end_of_line cfg c st).next_target.seen_checksum = false) :
    (before_end_of_line cfg c st).next_target.checksum_calculated
      = crc st.next_target.checksum_calculated (checksum_byte cfg c) := by
  have h0 := before_end_of_line_seen_checksum_mono cfg c st h
  rw [before_end_of_line_checksum, h, h0]
  unfold checksum_byte
  cases cfg.ASTERISK_IN_CHECKSUM_INCLUDED <;> simp

theorem feed_checksum_fold (cfg : Config) (l : List Nat)
    (hl : ∀ c ∈ l, is_eol (uppercase (c % 256)) = false) :
    ∀ st : State, (feed cfg l st).next_target.seen_checksum = false →
      st.next_target.seen_checksum = false
        ∧ (feed cfg l st).next_target.checksum_calculated
            = (l.map (checksum_byte cfg)).foldl crc st.next_target.checksum_calculated := by
  induction l with
  | nil => intro st h; exact ⟨h, rfl⟩
  | cons c l ih =>
    intro st h
    rw [feed_cons] at h ⊢
    obtain ⟨h1, h2⟩ := ih (fun x hx => hl x (List.mem_cons_of_mem _ hx)) _ h
    rw [gcode_parse_char_of_not_eol cfg c st (hl c (List.mem_cons_self _ _))] at h1 h2
    refine ⟨before_end_of_line_seen_checksum_mono cfg c st h1, ?_⟩
    rw [gcode_parse_char_of_not_eol cfg c st (hl c (List.mem_cons_self _ _)), h2,
      before_end_of_line_checksum_open cfg c st h1]
    rfl

theorem checksum_byte_lt (cfg : Config) (c : Nat) : checksum_byte cfg c < 256 := by
  unfold checksum_byte
  split_ifs
  · exact Nat.mod_lt _ (by norm_num)
  · exact uppercase_lt _ (Nat.mod_lt _ (by norm_num))

theorem crc_of_lt (a b : Nat) (ha : a < 256) (hb : b < 256) : crc a b = a ^^^ b := by
  unfold crc
  exact Nat.mod_eq_of_lt (Nat.xor_lt_two_pow (n := 8) ha hb)

theorem foldl_xor_eq (l : List Nat) : ∀ a : Nat,
    l.foldl (fun x y => x ^^^ y) a = a ^^^ xor_fold l := by
  unfold xor_fold
  induction l with
  | nil => intro a; simp
  | cons b l ih =>
    intro a
    rw [List.foldl_cons, List.foldl_cons, ih (a ^^^ b), ih (0 ^^^ b), Nat.zero_xor,
      Nat.xor_assoc]

theorem xor_fold_append (l1 l2 : List Nat) :
    xor_fold (l1 ++ l2) = xor_fold l1 ^^^ xor_fold l2 := by
  show (l1 ++ l2).foldl (fun x y => x ^^^ y) 0 = _
  rw [List.foldl_append, foldl_xor_eq l2]
  rfl

theorem xor_fold_lt (l : List Nat) (hl : ∀ b ∈ l, b < 256) : xor_fold l < 256 := by
  induction l with
  | nil => show 0 < 256; norm_num
  | cons b l ih =>
    have e : xor_fold (b :: l) = xor_fold [b] ^^^ xor_fold l := xor_fold_append [b] l
    rw [e]
    have hb : xor_fold [b] < 256 := by
      show 0 ^^^ b < 256
      rw [Nat.zero_xor]; exact hl b (List.mem_cons_self _ _)
    exact Nat.xor_lt_two_pow (n := 8) hb (ih (fun x hx => hl x (List.mem_cons_of_mem _ hx)))

theorem foldl_crc_eq (l : List Nat) (hl : ∀ b ∈ l, b < 256) :
    ∀ a : Nat, a < 256 → l.foldl crc a = a ^^^ xor_fold l := by
  induction l with
  | nil => intro a _; show a = a ^^^ 0; simp
  | cons b l ih =>
    intro a ha
    have hb := hl b (List.mem_cons_self _ _)
    rw [List.foldl_cons, crc_of_lt a b ha hb,
      ih (fun x hx => hl x (List.mem_cons_of_mem _ hx)) _ (Nat.xor_lt_two_pow (n := 8) ha hb)]
    have e : xor_fold (b :: l) = xor_fold [b] ^^^ xor_fold l := xor_fold_append [b] l
    rw [e, Nat.xor_assoc]
    show a ^^^ (b ^^^ xor_fold l) = a ^^^ ((0 ^^^ b) ^^^ xor_fold l)
    rw [Nat.zero_xor]

/-- The accumulator at the end-of-line test of a line that carries no checksum
field, read from a line start: the XOR of its bytes, terminator included, as
`checksum_byte` gives them. -/
theorem line_checksum (cfg : Config) (l : List Nat) (c : Nat) (st : State)
    (hst : line_start st) (hl : ∀ x ∈ l, is_eol (uppercase (x % 256)) = false)
    (h : (before_end_of_line cfg c (feed cfg l st)).next_target.seen_checksum = false) :
    (before_end_of_line cfg c (feed cfg l st)).next_target.checksum_calculated
      = xor_fold (l.map (checksum_byte cfg)) ^^^ checksum_byte cfg c := by
  have h1 := before_end_of_line_seen_checksum_mono cfg c _ h
  obtain ⟨-, h2⟩ := feed_checksum_fold cfg l hl st h1
  have hlt : ∀ b ∈ l.map (checksum_byte cfg), b < 256 := by
    intro b hb
    obtain ⟨x, -, rfl⟩ := List.mem_map.1 hb
    exact checksum_byte_lt cfg x
  rw [before_end_of_line_checksum_open cfg c _ h, h2, line_start_checksum st hst,
    foldl_crc_eq _ hlt 0 (by norm_num), Nat.zero_xor,
    crc_of_lt _ _ (xor_fold_lt _ hlt) (checksum_byte_lt cfg c)]

theorem checksum_ok_unseen (cfg : Config) (nt : GCODE_COMMAND)
    (h : nt.seen_checksum = false) : checksum_ok cfg nt = !cfg.REQUIRE_CHECKSUM := by
  unfold checksum_ok
  rw [h]
  cases cfg.REQUIRE_CHECKSUM <;> simp

theorem linenumber_ok_core (cfg : Config) (s1 s2 : State) (h : s1.core = s2.core) :
    linenumber_ok cfg s1.next_target = linenumber_ok cfg s2.next_target := by
  have e : linenumber_ok cfg s1.core.next_target = linenumber_ok cfg s2.core.next_target := by
    rw [h]
  exact e

theorem without_checksum_core (s1 s2 : State) (h : s1.core = s2.core) :
    s1.next_target.without_checksum = s2.next_target.without_checksum := by
  have e : s1.core.next_target = s2.core.next_target := by rw [h]
  exact e

theorem comment_line_bytes (A t B : List Nat)
    (hA : ∀ c ∈ A, field_char c = true) (hB : ∀ c ∈ B, field_char c = true)
    (ht : ∀ x ∈ t, x < 256 ∧ x ≠ 41 ∧ x ≠ 10 ∧ x ≠ 13) :
    (∀ x ∈ A ++ [32, 40] ++ t ++ [41, 32] ++ B, is_eol (uppercase (x % 256)) = false)
      ∧ (∀ x ∈ A ++ [32] ++ B, is_eol (uppercase (x % 256)) = false)
      ∧ ∀ x ∈ A ++ [32] ++ B, field_char x = true := by
  refine ⟨?_, ?_, ?_⟩
  · intro x hx
    simp only [List.mem_append, List.mem_cons, List.mem_singleton, List.mem_nil_iff,
      or_false] at hx
    rcases hx with (((h | h | h) | h) | h | h) | h
    · exact (field_char_plain x (hA x h)).1
    · subst h; rfl
    · subst h; rfl
    · exact (comment_byte x (ht x h)).2
    · subst h; rfl
    · subst h; rfl
    · exact (field_char_plain x (hB x h)).1
  · intro x hx
    simp only [List.mem_append, List.mem_cons, List.mem_singleton, List.mem_nil_iff,
      or_false] at hx
    rcases hx with (h | h) | h
    · exact (field_char_plain x (hA x h)).1
    · subst h; rfl
    · exact (field_char_plain x (hB x h)).1
  · intro x hx
    simp only [List.mem_append, List.mem_cons, List.mem_singleton, List.mem_nil_iff,
      or_false] at hx
    rcases hx with (h | h) | h
    · exact hA x h
    · subst h; rfl
    · exact hB x h

/-- The records at the end-of-line test of the line with the comment and of the
line without it agree on everything but the checksum accumulator, and neither
line has seen a checksum field. -/
theorem comment_transparency_core (cfg : Config) (st : State) (A t B : List Nat) (c : Nat)
    (hst : line_start st) (hA : field_sequence A) (hB : field_sequence B)
    (ht : ∀ x ∈ t, x < 256 ∧ x ≠ 41 ∧ x ≠ 10 ∧ x ≠ 13) (hc : c = 10 ∨ c = 13) :
    (before_end_of_line cfg c (feed cfg (A ++ [32, 40] ++ t ++ [41, 32] ++ B) st)).core
        = (before_end_of_line cfg c (feed cfg (A ++ [32] ++ B) st)).core
      ∧ (before_end_of_line cfg c (feed cfg (A ++ [32] ++ B) st)).next_target.seen_checksum
        = false
      ∧ (before_end_of_line cfg c
          (feed cfg (A ++ [32, 40] ++ t ++ [41, 32] ++ B) st)).next_target.seen_checksum
        = false := by
  obtain ⟨f1, f2, f3⟩ := line_start_flags st hst
  obtain ⟨-, -, hfc⟩ := comment_line_bytes A t B hA.1 hB.1 ht
  -- the state after A
  obtain ⟨a1, a2, a3⟩ := feed_field_chars_flags cfg A hA.1 st
  have hblock := feed_comment_block cfg t (feed cfg A st) ht (a2.trans f2) (a3.trans f3)
  have hblank : (feed cfg [32] (feed cfg A st)).core = (feed cfg A st).core :=
    gcode_parse_char_blank cfg (feed cfg A st)
  have e1 : feed cfg (A ++ [32, 40] ++ t ++ [41, 32] ++ B) st
      = feed cfg B (feed cfg ([32, 40] ++ t ++ [41, 32]) (feed cfg A st)) := by
    rw [← feed_append, ← feed_append]
    simp only [List.append_assoc]
  have e2 : feed cfg (A ++ [32] ++ B) st = feed cfg B (feed cfg [32] (feed cfg A st)) := by
    rw [← feed_append, ← feed_append]
    simp only [List.append_assoc]
  have hcore := tail_joins cfg B c (feed cfg A st) _ _ hB hc hblock hblank
  rw [← e1, ← e2] at hcore
  have hceol : uppercase (c % 256) ≠ 42 ∧ uppercase (c % 256) ≠ 59 ∧ uppercase (c % 256) ≠ 40
      ∧ uppercase (c % 256) ≠ 41 := by
    rcases hc with h | h <;> subst h <;> decide
  have hseen2 : (before_end_of_line cfg c
      (feed cfg (A ++ [32] ++ B) st)).next_target.seen_checksum = false := by
    rw [(before_end_of_line_flags cfg c _ hceol).1,
      (feed_field_chars_flags cfg (A ++ [32] ++ B) hfc st).1]
    exact f1
  refine ⟨hcore, hseen2, ?_⟩
  have e : (before_end_of_line cfg c
      (feed cfg (A ++ [32, 40] ++ t ++ [41, 32] ++ B) st)).core.next_target.seen_checksum
      = false := by
    rw [hcore]; exact hseen2
  exact e

/-- C7. Comment transparency: for every comment text `t` containing no `)` and
no byte 10 or 13, and every pair of field sequences `A` and `B`, read from a
line-start state `st`: the line `A (t) B` hands the executor a record equal, in
every field except `checksum_calculated`, to the one handed over for the line
`A B` (the two lines are accepted or rejected alike, and both are accepted when
neither line numbers nor checksums are required); and the bytes of `(t)`, with
the blank that follows, are still folded into `checksum_calculated`: at the
end-of-line test the accumulator of `A (t) B` is that of `A B` XOR the fold of
those bytes, each as `checksum_byte` gives it to the accumulator. -/
theorem comment_transparency (cfg : Config) (st : State) (A t B : List Nat) (c : Nat)
    (hst : line_start st) (hA : field_sequence A) (hB : field_sequence B)
    (ht : ∀ x ∈ t, x < 256 ∧ x ≠ 41 ∧ x ≠ 10 ∧ x ≠ 13) (hc : c = 10 ∨ c = 13) :
    (executor_calls (feed cfg (A ++ [32, 40] ++ t ++ [41, 32] ++ B ++ [c]) st).tx).map
        GCODE_COMMAND.without_checksum
      = (executor_calls (feed cfg (A ++ [32] ++ B ++ [c]) st).tx).map
        GCODE_COMMAND.without_checksum
    ∧ (cfg.REQUIRE_LINENUMBER = false → cfg.REQUIRE_CHECKSUM = false →
        executor_calls (feed cfg (A ++ [32, 40] ++ t ++ [41, 32] ++ B ++ [c]) st).tx
          = executor_calls st.tx ++
              [(before_end_of_line cfg c
                (feed cfg (A ++ [32, 40] ++ t ++ [41, 32] ++ B) st)).next_target])
    ∧ (before_end_of_line cfg c
        (feed cfg (A ++ [32, 40] ++ t ++ [41, 32] ++ B) st)).next_target.checksum_calculated
      = (before_end_of_line cfg c
          (feed cfg (A ++ [32] ++ B) st)).next_target.checksum_calculated
        ^^^ xor_fold (([40] ++ t ++ [41, 32]).map (checksum_byte cfg)) := by
  obtain ⟨hcore, hseen2, hseen1⟩ := comment_transparency_core cfg st A t B c hst hA hB ht hc
  obtain ⟨hl1, hl2, -⟩ := comment_line_bytes A t B hA.1 hB.1 ht
  have hcalls1 : executor_calls (feed cfg (A ++ [32, 40] ++ t ++ [41, 32] ++ B ++ [c]) st).tx
      = executor_calls st.tx ++
        (if linenumber_ok cfg (before_end_of_line cfg c
              (feed cfg (A ++ [32, 40] ++ t ++ [41, 32] ++ B) st)).next_target
            && checksum_ok cfg (before_end_of_line cfg c
              (feed cfg (A ++ [32, 40] ++ t ++ [41, 32] ++ B) st)).next_target then
          [(before_end_of_line cfg c
            (feed cfg (A ++ [32, 40] ++ t ++ [41, 32] ++ B) st)).next_target]
        else []) := by
    rw [feed_append, feed_cons, feed_nil, eol_executor_calls cfg c _ hc,
      feed_executor_calls cfg _ hl1]
  have hcalls2 : executor_calls (feed cfg (A ++ [32] ++ B ++ [c]) st).tx
      = executor_calls st.tx ++
        (if linenumber_ok cfg (before_end_of_line cfg c
              (feed cfg (A ++ [32] ++ B) st)).next_target
            && checksum_ok cfg (before_end_of_line cfg c
              (feed cfg (A ++ [32] ++ B) st)).next_target then
          [(before_end_of_line cfg c (feed cfg (A ++ [32] ++ B) st)).next_target]
        else []) := by
    rw [feed_append, feed_cons, feed_nil, eol_executor_calls cfg c _ hc,
      feed_executor_calls cfg _ hl2]
  refine ⟨?_, ?_, ?_⟩
  · rw [hcalls1, hcalls2, linenumber_ok_core cfg _ _ hcore, checksum_ok_unseen cfg _ hseen1,
      checksum_ok_unseen cfg _ hseen2]
    split_ifs
    · simp only [List.map_append, List.map_cons, List.map_nil]
      rw [without_checksum_core _ _ hcore]
    · rfl
  · intro hln hck
    rw [hcalls1, checksum_ok_unseen cfg _ hseen1, hck]
    have : linenumber_ok cfg (before_end_of_line cfg c
        (feed cfg (A ++ [32, 40] ++ t ++ [41, 32] ++ B) st)).next_target = true := by
      unfold linenumber_ok; rw [hln]; rfl
    rw [this]
    rfl
  · rw [line_checksum cfg _ c st hst hl1 hseen1, line_checksum cfg _ c st hst hl2 hseen2]
    have e : A ++ [32, 40] ++ t ++ [41, 32] ++ B = A ++ [32] ++ ([40] ++ t ++ [41, 32]) ++ B := by
      simp only [List.append_assoc, List.cons_append, List.nil_append]
    rw [e]
    simp only [List.map_append, xor_fold_append]
    generalize xor_fold (List.map (checksum_byte cfg) A) = a
    generalize xor_fold (List.map (checksum_byte cfg) B) = b
    generalize xor_fold (List.map (checksum_byte cfg) [32]) = s
    generalize xor_fold (List.map (checksum_byte cfg) [40]) = o
    generalize xor_fold (List.map (checksum_byte cfg) t) = m
    generalize xor_fold (List.map (checksum_byte cfg) [41, 32]) = p
    generalize checksum_byte cfg c = e
    ac_rfl

set_option maxRecDepth 16384 in
/-- Instance of C7, with the lines of the claim: `G1 X10 (move right) Y20`
against `G1 X10 Y20`, from process start, 320 steps per millimetre: both hand
over `G = 1`, `X = 3200`, `Y = 6400`, and the accumulators at the end-of-line
test are 46 and 126. -/
theorem comment_transparency_witness :
    line_start State.init
      ∧ (executor_calls (feed (Config.sample false false false)
            ([71, 49, 32, 88, 49, 48] ++ [32, 40]
              ++ [109, 111, 118, 101, 32, 114, 105, 103, 104, 116] ++ [41, 32]
              ++ [89, 50, 48] ++ [10]) State.init).tx).map GCODE_COMMAND.without_checksum
          = (executor_calls (feed (Config.sample false false false)
            ([71, 49, 32, 88, 49, 48] ++ [32] ++ [89, 50, 48] ++ [10]) State.init).tx).map
              GCODE_COMMAND.without_checksum
      ∧ (executor_calls (feed (Config.sample false false false)
            ([71, 49, 32, 88, 49, 48] ++ [32, 40]
              ++ [109, 111, 118, 101, 32, 114, 105, 103, 104, 116] ++ [41, 32]
              ++ [89, 50, 48] ++ [10]) State.init).tx).map
            (fun cmd => (cmd.G, cmd.target.X, cmd.target.Y, cmd.checksum_calculated))
          = [(1, 3200, 6400, 46)]
      ∧ (executor_calls (feed (Config.sample false false false)
            ([71, 49, 32, 88, 49, 48] ++ [32] ++ [89, 50, 48] ++ [10]) State.init).tx).map
            (fun cmd => (cmd.G, cmd.target.X, cmd.target.Y, cmd.checksum_calculated))
          = [(1, 3200, 6400, 126)] :=
  ⟨by decide,
    (comment_transparency (Config.sample false false false) State.init
      [71, 49, 32, 88, 49, 48] [109, 111, 118, 101, 32, 114, 105, 103, 104, 116] [89, 50, 48] 10
      (by decide)
      ⟨by decide, by intro c h; cases h; rfl⟩
      ⟨by decide, by intro c h; cases h; rfl⟩
      (by decide) (Or.inl rfl)).1,
    by decide, by decide⟩
/-! ## Resend messages (C11) -/

theorem resend_messages_append (l1 l2 : List Out) :
    resend_messages (l1 ++ l2) = resend_messages l1 + resend_messages l2 := by
  unfold resend_messages; rw [List.countP_append]

theorem resend_messages_echo (cfg : Config) (tx : List Out) (o : Out)
    (h : opens_resend o = false) : resend_messages (echo cfg tx o) = resend_messages tx := by
  unfold echo
  split_ifs
  · rw [resend_messages_append]
    unfold resend_messages
    rw [List.countP_singleton, h]
    rfl
  · rfl

theorem commit_field_resend_messages (cfg : Config) (st : State) :
    resend_messages (commit_field cfg st).tx = resend_messages st.tx := by
  unfold commit_field
  dsimp only
  by_cases h71 : st.last_field = 71
  · rw [if_pos h71]
    exact resend_messages_echo cfg _ _ rfl
  rw [if_neg h71]
  by_cases h77 : st.last_field = 77
  · rw [if_pos h77]
    exact resend_messages_echo cfg _ _ rfl
  rw [if_neg h77]
  by_cases h88 : st.last_field = 88
  · rw [if_pos h88]
    exact resend_messages_echo cfg _ _ rfl
  rw [if_neg h88]
  by_cases h89 : st.last_field = 89
  · rw [if_pos h89]
    exact resend_messages_echo cfg _ _ rfl
  rw [if_neg h89]
  by_cases h90 : st.last_field = 90
  · rw [if_pos h90]
    exact resend_messages_echo cfg _ _ rfl
  rw [if_neg h90]
  by_cases h69 : st.last_field = 69
  · rw [if_pos h69]
    exact resend_messages_echo cfg _ _ rfl
  rw [if_neg h69]
  by_cases h70 : st.last_field = 70
  · rw [if_pos h70]
    exact resend_messages_echo cfg _ _ rfl
  rw [if_neg h70]
  by_cases h83 : st.last_field = 83
  · rw [if_pos h83]
    exact resend_messages_echo cfg _ _ rfl
  rw [if_neg h83]
  by_cases h80 : st.last_field = 80
  · rw [if_pos h80]
    exact resend_messages_echo cfg _ _ rfl
  rw [if_neg h80]
  by_cases h84 : st.last_field = 84
  · rw [if_pos h84]
    exact resend_messages_echo cfg _ _ rfl
  rw [if_neg h84]
  by_cases h78 : st.last_field = 78
  · rw [if_pos h78]
    exact resend_messages_echo cfg _ _ rfl
  rw [if_neg h78]
  by_cases h42 : st.last_field = 42
  · rw [if_pos h42]
    exact resend_messages_echo cfg _ _ rfl
  rw [if_neg h42]

theorem commit_pending_resend_messages (cfg : Config) (st : State) :
    resend_messages (commit_pending cfg st).tx = resend_messages st.tx := by
  rw [commit_pending_eq]
  split_ifs
  · exact commit_field_resend_messages cfg st
  · rfl

theorem process_character_resend_messages (cfg : Config) (c : Nat) (st : State) :
    resend_messages (process_character cfg c st).tx = resend_messages st.tx := by
  unfold process_character
  dsimp only
  by_cases h71 : c = 71
  · rw [if_pos h71]
  rw [if_neg h71]
  by_cases h77 : c = 77
  · rw [if_pos h77]
  rw [if_neg h77]
  by_cases h88 : c = 88
  · rw [if_pos h88]
  rw [if_neg h88]
  by_cases h89 : c = 89
  · rw [if_pos h89]
  rw [if_neg h89]
  by_cases h90 : c = 90
  · rw [if_pos h90]
  rw [if_neg h90]
  by_cases h69 : c = 69
  · rw [if_pos h69]
  rw [if_neg h69]
  by_cases h70 : c = 70
  · rw [if_pos h70]
  rw [if_neg h70]
  by_cases h83 : c = 83
  · rw [if_pos h83]
  rw [if_neg h83]
  by_cases h80 : c = 80
  · rw [if_pos h80]
  rw [if_neg h80]
  by_cases h84 : c = 84
  · rw [if_pos h84]
  rw [if_neg h84]
  by_cases h78 : c = 78
  · rw [if_pos h78]
  rw [if_neg h78]
  by_cases h42 : c = 42
  · rw [if_pos h42]
  rw [if_neg h42]
  by_cases h59 : c = 59
  · rw [if_pos h59]
  rw [if_neg h59]
  by_cases h40 : c = 40
  · rw [if_pos h40]
  rw [if_neg h40]
  by_cases h45 : c = 45
  · rw [if_pos h45]
  rw [if_neg h45]
  by_cases h46 : c = 46
  · rw [if_pos h46]
  rw [if_neg h46]
  split_ifs <;> first | rfl | (rw [resend_messages_append]; rfl)

/-- Decoding a byte, up to the end-of-line test, writes no resend message. -/
theorem before_end_of_line_resend_messages (cfg : Config) (c : Nat) (st : State) :
    resend_messages (before_end_of_line cfg c st).tx = resend_messages st.tx := by
  unfold before_end_of_line
  dsimp only
  show resend_messages (skip_comments cfg _ _).tx = _
  have h1 : ∀ s : State, resend_messages (skip_comments cfg (uppercase (c % 256)) s).tx
      = resend_messages s.tx := by
    intro s
    unfold skip_comments
    split_ifs
    · rw [process_character_resend_messages]
      exact resend_messages_echo cfg _ _ rfl
    · rw [process_character_resend_messages]
    · rfl
    · rfl
  rw [h1, process_previous_field_eq]
  split_ifs
  · rw [commit_pending_resend_messages]; rfl
  · rfl

theorem line_accepted_false (cfg : Config) (nt : GCODE_COMMAND)
    (h : line_accepted cfg nt = false) :
    linenumber_ok cfg nt = false
      ∨ (linenumber_ok cfg nt = true ∧ checksum_ok cfg nt = false) := by
  unfold line_accepted at h
  cases h1 : linenumber_ok cfg nt
  · exact Or.inl rfl
  · rw [h1] at h
    exact Or.inr ⟨rfl, by simpa using h⟩

theorem line_accepted_true (cfg : Config) (nt : GCODE_COMMAND)
    (h : line_accepted cfg nt = true) :
    linenumber_ok cfg nt = true ∧ checksum_ok cfg nt = true := by
  unfold line_accepted at h
  simpa using h

/-- C11, as amended.  Two resend messages per rejected line.  For every parser
state `st` and terminator byte `c` (10 or 13), with `s` the state in which the
tests of lines 315-328 are made: if the line is rejected, the byte writes the
message of `sersendf_P` (`rs <N_expected> Expected line number <N_expected>` for
a sequence error, `rs <N_expected> Expected checksum <checksum_calculated>` for
an integrity error) and then the message `rs <N mod 256>` of `request_resend`,
so the log gains exactly two resend messages; if the line is accepted the log
gains none. -/
theorem resend_messages_per_line (cfg : Config) (st : State) (c : Nat)
    (hc : c = 10 ∨ c = 13) :
    let s := before_end_of_line cfg c st
    (line_accepted cfg s.next_target = false →
      resend_messages (gcode_parse_char cfg c st).tx = resend_messages st.tx + 2
        ∧ ∃ first,
            (first = Out.rs_expected_line_number s.next_target.N_expected
                s.next_target.N_expected
              ∨ first = Out.rs_expected_checksum s.next_target.N_expected
                s.next_target.checksum_calculated)
            ∧ (gcode_parse_char cfg c st).tx =
                echo cfg s.tx (Out.serial_writechar c) ++
                  [first, Out.str_rs, Out.serwrite_uint8 (s.next_target.N % 256),
                   Out.serial_writechar 10])
    ∧ (line_accepted cfg s.next_target = true →
      resend_messages (gcode_parse_char cfg c st).tx = resend_messages st.tx) := by
  intro s
  have hN : s.next_target.N_expected = st.next_target.N_expected :=
    (before_end_of_line_frame cfg c st).1
  have hs : resend_messages (echo cfg s.tx (Out.serial_writechar c)) = resend_messages st.tx := by
    rw [resend_messages_echo cfg s.tx (Out.serial_writechar c) rfl]
    exact before_end_of_line_resend_messages cfg c st
  obtain ⟨h1, h2, h3⟩ := gcode_parse_char_eol_outcome cfg st c hc
  refine ⟨fun h => ?_, fun h => ?_⟩
  · rcases line_accepted_false cfg _ h with hl | ⟨hl, hk⟩
    · have e := (h1 hl).1
      refine ⟨?_, _, Or.inl rfl, by rw [hN]; exact e⟩
      rw [e, resend_messages_append, hs]
      rfl
    · have e := (h2 hl hk).1
      refine ⟨?_, _, Or.inr rfl, by rw [hN]; exact e⟩
      rw [e, resend_messages_append, hs]
      rfl
  · obtain ⟨hl, hk⟩ := line_accepted_true cfg _ h
    rw [h3 hl hk, resend_messages_append, hs]
    rfl

/-- Instance of C11: with strict checksums the line `G1*70` is rejected and
answered by two resend messages, and `G1*118` is accepted and answered by
none. -/
theorem resend_messages_per_line_witness :
    resend_messages (gcode_parse_char (Config.sample false false true) 10
        (feed (Config.sample false false true) [71, 49, 42, 55, 48] State.init)).tx = 0 + 2
      ∧ resend_messages (gcode_parse_char (Config.sample false false true) 10
        (feed (Config.sample false false true) [71, 49, 42, 49, 49, 56] State.init)).tx = 0 :=
  ⟨((resend_messages_per_line (Config.sample false false true)
      (feed (Config.sample false false true) [71, 49, 42, 55, 48] State.init) 10
      (Or.inl rfl)).1 (by decide)).1,
   (resend_messages_per_line (Config.sample false false true)
      (feed (Config.sample false false true) [71, 49, 42, 49, 49, 56] State.init) 10
      (Or.inl rfl)).2 (by decide)⟩

/-- C11 as stated fails: with strict line-numbering, the empty line at process
start is rejected (no `N` field) and the terminator writes two resend messages,
`rs 0 Expected line number 0` and `rs 0`, not one. -/
theorem resend_messages_per_line_counterexample :
    line_accepted (Config.sample false true false)
        (before_end_of_line (Config.sample false true false) 10 State.init).next_target = false
      ∧ (gcode_parse_char (Config.sample false true false) 10 State.init).tx
          = [Out.rs_expected_line_number 0 0, Out.str_rs, Out.serwrite_uint8 0,
             Out.serial_writechar 10]
      ∧ resend_messages (gcode_parse_char (Config.sample false true false) 10 State.init).tx = 2
      ∧ resend_messages (gcode_parse_char (Config.sample false true false) 10 State.init).tx
          ≠ 1 := by
  decide
/-! ## The accumulator under the bytes of a number (C12) -/

/-- What the switch of lines 209-300 leaves in `read_digit` depends on the byte
and on `read_digit` only. -/
theorem process_character_read_digit_congr (cfg : Config) (c : Nat) (s1 s2 : State)
    (h : s1.read_digit = s2.read_digit) :
    (process_character cfg c s1).read_digit = (process_character cfg c s2).read_digit := by
  unfold process_character
  dsimp only
  by_cases h71 : c = 71
  · rw [if_pos h71, if_pos (show c = 71 from h71)]
    exact h
  rw [if_neg h71, if_neg (show ¬ c = 71 from h71)]
  by_cases h77 : c = 77
  · rw [if_pos h77, if_pos (show c = 77 from h77)]
    exact h
  rw [if_neg h77, if_neg (show ¬ c = 77 from h77)]
  by_cases h88 : c = 88
  · rw [if_pos h88, if_pos (show c = 88 from h88)]
    exact h
  rw [if_neg h88, if_neg (show ¬ c = 88 from h88)]
  by_cases h89 : c = 89
  · rw [if_pos h89, if_pos (show c = 89 from h89)]
    exact h
  rw [if_neg h89, if_neg (show ¬ c = 89 from h89)]
  by_cases h90 : c = 90
  · rw [if_pos h90, if_pos (show c = 90 from h90)]
    exact h
  rw [if_neg h90, if_neg (show ¬ c = 90 from h90)]
  by_cases h69 : c = 69
  · rw [if_pos h69, if_pos (show c = 69 from h69)]
    exact h
  rw [if_neg h69, if_neg (show ¬ c = 69 from h69)]
  by_cases h70 : c = 70
  · rw [if_pos h70, if_pos (show c = 70 from h70)]
    exact h
  rw [if_neg h70, if_neg (show ¬ c = 70 from h70)]
  by_cases h83 : c = 83
  · rw [if_pos h83, if_pos (show c = 83 from h83)]
    exact h
  rw [if_neg h83, if_neg (show ¬ c = 83 from h83)]
  by_cases h80 : c = 80
  · rw [if_pos h80, if_pos (show c = 80 from h80)]
    exact h
  rw [if_neg h80, if_neg (show ¬ c = 80 from h80)]
  by_cases h84 : c = 84
  · rw [if_pos h84, if_pos (show c = 84 from h84)]
    exact h
  rw [if_neg h84, if_neg (show ¬ c = 84 from h84)]
  by_cases h78 : c = 78
  · rw [if_pos h78, if_pos (show c = 78 from h78)]
    exact h
  rw [if_neg h78, if_neg (show ¬ c = 78 from h78)]
  by_cases h42 : c = 42
  · rw [if_pos h42, if_pos (show c = 42 from h42)]
    exact h
  rw [if_neg h42, if_neg (show ¬ c = 42 from h42)]
  by_cases h59 : c = 59
  · rw [if_pos h59, if_pos (show c = 59 from h59)]
    exact h
  rw [if_neg h59, if_neg (show ¬ c = 59 from h59)]
  by_cases h40 : c = 40
  · rw [if_pos h40, if_pos (show c = 40 from h40)]
    exact h
  rw [if_neg h40, if_neg (show ¬ c = 40 from h40)]
  rw [h]
  by_cases h45 : c = 45
  · rw [if_pos h45, if_pos h45]
  rw [if_neg h45, if_neg h45]
  by_cases h46 : c = 46
  · rw [if_pos h46, if_pos h46]
  rw [if_neg h46, if_neg h46]
  split_ifs <;> first | rfl | exact h

/-- A byte of a number, outside a comment: the field letter and the comment
flags stay, and the accumulator is what the switch makes of it. -/
theorem gcode_parse_char_number_char (cfg : Config) (c : Nat) (st : State)
    (hc : number_char c = true)
    (hs : st.next_target.seen_semi_comment = false)
    (hp : st.next_target.seen_parens_comment = false) :
    (gcode_parse_char cfg c st).read_digit = (process_character cfg c st).read_digit
      ∧ (gcode_parse_char cfg c st).last_field = st.last_field
      ∧ (gcode_parse_char cfg c st).next_target.seen_semi_comment = false
      ∧ (gcode_parse_char cfg c st).next_target.seen_parens_comment = false := by
  have hc1 : (48 ≤ c ∧ c ≤ 57) ∨ c = 46 ∨ c = 45 := by
    unfold number_char at hc
    simpa [Bool.or_eq_true, Bool.and_eq_true, decide_eq_true_eq, or_assoc] using hc
  have hlt : c < 97 := by omega
  have hm : c % 256 = c := Nat.mod_eq_of_lt (by omega)
  have hu : uppercase (c % 256) = c := by
    rw [hm]; exact uppercase_of_not_lower c (Or.inl hlt)
  have hf : is_field_start c = false := by
    unfold is_field_start
    rcases hc1 with h | h | h
    · have h1 : ¬ 65 ≤ c := by omega
      have h2 : ¬ c = 42 := by omega
      simp [h1, h2]
    · subst h; rfl
    · subst h; rfl
  have he : is_eol c = false := by
    unfold is_eol
    have h1 : ¬ c = 10 := by omega
    have h2 : ¬ c = 13 := by omega
    simp [h1, h2]
  rw [gcode_parse_char_of_not_eol cfg c st (by rw [hu]; exact he),
    before_end_of_line_plain cfg c st hlt hf he hs hp]
  have hfl := process_character_flags cfg c (crc_before cfg c st)
    ⟨by omega, by omega, by omega⟩
  have hlf : (process_character cfg c (crc_before cfg c st)).last_field = st.last_field := by
    obtain ⟨a1, a2, a3, a4, a5, a6, a7, a8, a9, a10, a11, a12, a13, a14, g, m, rd, tx, e⟩ :=
      process_character_frame cfg c (crc_before cfg c st)
    rw [e]
    rfl
  refine ⟨?_, ?_, ?_, ?_⟩
  · exact process_character_read_digit_congr cfg c (crc_before cfg c st) st rfl
  · exact hlf
  · exact hfl.2.1.trans hs
  · exact hfl.2.2.trans hp

/-- The bytes of a number leave the field letter and the comment flags as they
are. -/
theorem feed_number_chars_keep (cfg : Config) (l : List Nat)
    (hl : ∀ c ∈ l, number_char c = true) :
    ∀ st : State, st.next_target.seen_semi_comment = false →
      st.next_target.seen_parens_comment = false →
      (feed cfg l st).last_field = st.last_field
        ∧ (feed cfg l st).next_target.seen_semi_comment = false
        ∧ (feed cfg l st).next_target.seen_parens_comment = false := by
  induction l with
  | nil => intro st hs hp; exact ⟨rfl, hs, hp⟩
  | cons c t ih =>
    intro st hs hp
    obtain ⟨-, h2, h3, h4⟩ :=
      gcode_parse_char_number_char cfg c st (hl c (List.mem_cons_self c t)) hs hp
    rw [feed_cons]
    obtain ⟨k1, k2, k3⟩ :=
      ih (fun x hx => hl x (List.mem_cons_of_mem c hx)) (gcode_parse_char cfg c st) h3 h4
    exact ⟨k1.trans h2, k2, k3⟩

/-- Outside a comment, the accumulator after the bytes of a number depends on
the accumulator before them only. -/
theorem feed_number_chars_congr (cfg : Config) (l : List Nat)
    (hl : ∀ c ∈ l, number_char c = true) :
    ∀ s1 s2 : State, s1.next_target.seen_semi_comment = false →
      s1.next_target.seen_parens_comment = false →
      s2.next_target.seen_semi_comment = false →
      s2.next_target.seen_parens_comment = false →
      s1.read_digit = s2.read_digit →
      (feed cfg l s1).read_digit = (feed cfg l s2).read_digit := by
  induction l with
  | nil => intro s1 s2 _ _ _ _ h; exact h
  | cons c t ih =>
    intro s1 s2 hs1 hp1 hs2 hp2 h
    have hc := hl c (List.mem_cons_self c t)
    obtain ⟨a1, -, a3, a4⟩ := gcode_parse_char_number_char cfg c s1 hc hs1 hp1
    obtain ⟨b1, -, b3, b4⟩ := gcode_parse_char_number_char cfg c s2 hc hs2 hp2
    rw [feed_cons, feed_cons]
    refine ih (fun x hx => hl x (List.mem_cons_of_mem c hx)) _ _ a3 a4 b3 b4 ?_
    rw [a1, b1]
    exact process_character_read_digit_congr cfg c s1 s2 h

theorem number_char_of_digit_or_point (c : Nat) (h : digit_or_point c = true) :
    number_char c = true := by
  unfold number_char
  unfold digit_or_point at h
  rw [h]
  rfl

/-- C12. Sign placement.  Within one field (a field letter pending, outside
comments), for every byte string `u` of digits, points and `-` and every string
`v` of digits and points: feeding `u`, then `-`, then `v` leaves the accumulator
in the state that feeding `-` then `v` into a zeroed accumulator leaves it in;
right after the `-` the accumulator is sign set, mantissa 0, exponent 0, the sign
is still set after `v`, and the field letter is the same throughout. -/
theorem sign_placement (cfg : Config) (st : State) (u v : List Nat)
    (hst : accumulating_field st)
    (hu : ∀ c ∈ u, number_char c = true)
    (hv : ∀ c ∈ v, digit_or_point c = true) :
    (feed cfg (u ++ 45 :: v) st).read_digit
        = (feed cfg (45 :: v) { st with read_digit := ⟨false, 0, 0⟩ }).read_digit
      ∧ (feed cfg (u ++ [45]) st).read_digit = ⟨true, 0, 0⟩
      ∧ (feed cfg (u ++ 45 :: v) st).read_digit.sign = true
      ∧ (feed cfg (u ++ 45 :: v) st).last_field = st.last_field := by
  obtain ⟨-, hs, hp⟩ := hst
  obtain ⟨u1, u2, u3⟩ := feed_number_chars_keep cfg u hu st hs hp
  have hv1 : ∀ c ∈ v, number_char c = true :=
    fun c hc => number_char_of_digit_or_point c (hv c hc)
  have hm : ∀ s : State, s.next_target.seen_semi_comment = false →
      s.next_target.seen_parens_comment = false →
      (gcode_parse_char cfg 45 s).read_digit = ⟨true, 0, 0⟩
        ∧ (gcode_parse_char cfg 45 s).last_field = s.last_field
        ∧ (gcode_parse_char cfg 45 s).next_target.seen_semi_comment = false
        ∧ (gcode_parse_char cfg 45 s).next_target.seen_parens_comment = false := by
    intro s h1 h2
    obtain ⟨a1, a2, a3, a4⟩ := gcode_parse_char_number_char cfg 45 s rfl h1 h2
    refine ⟨?_, a2, a3, a4⟩
    rw [a1, process_character_minus]
  obtain ⟨m1, m2, m3, m4⟩ := hm (feed cfg u st) u2 u3
  obtain ⟨z1, -, z3, z4⟩ := hm { st with read_digit := ⟨false, 0, 0⟩ } hs hp
  have hsign : ∀ l : List Nat, (∀ c ∈ l, digit_or_point c = true) →
      ∀ s : State, s.next_target.seen_semi_comment = false →
        s.next_target.seen_parens_comment = false → s.read_digit.sign = true →
        (feed cfg l s).read_digit.sign = true := by
    intro l
    induction l with
    | nil => intro _ s _ _ h; exact h
    | cons c t ih =>
      intro hl s h1 h2 h3
      have hc := hl c (List.mem_cons_self c t)
      obtain ⟨a1, -, a3, a4⟩ :=
        gcode_parse_char_number_char cfg c s (number_char_of_digit_or_point c hc) h1 h2
      rw [feed_cons]
      refine ih (fun x hx => hl x (List.mem_cons_of_mem c hx)) _ a3 a4 ?_
      rw [a1]
      have hc1 : (48 ≤ c ∧ c ≤ 57) ∨ c = 46 := by
        unfold digit_or_point at hc
        simpa [Bool.or_eq_true, Bool.and_eq_true, decide_eq_true_eq] using hc
      rcases hc1 with hd | hd
      · by_cases hcap : s.read_digit.mantissa < cfg.DECFLOAT_MANT_MAX / 10
            ∧ s.read_digit.exponent < cfg.DECFLOAT_EXP_MAX
        · rw [process_character_digit cfg c s hd.1 hd.2 hcap.1 hcap.2]
          exact h3
        · unfold process_character
          dsimp only
          rw [if_neg (by omega : ¬ c = 71), if_neg (by omega : ¬ c = 77),
            if_neg (by omega : ¬ c = 88), if_neg (by omega : ¬ c = 89),
            if_neg (by omega : ¬ c = 90), if_neg (by omega : ¬ c = 69),
            if_neg (by omega : ¬ c = 70), if_neg (by omega : ¬ c = 83),
            if_neg (by omega : ¬ c = 80), if_neg (by omega : ¬ c = 84),
            if_neg (by omega : ¬ c = 78), if_neg (by omega : ¬ c = 42),
            if_neg (by omega : ¬ c = 59), if_neg (by omega : ¬ c = 40),
            if_neg (by omega : ¬ c = 45), if_neg (by omega : ¬ c = 46)]
          split_ifs <;> exact h3
      · subst hd
        rw [process_character_point]
        exact h3
  have e1 : feed cfg (u ++ 45 :: v) st = feed cfg v (gcode_parse_char cfg 45 (feed cfg u st)) := by
    rw [feed_append, feed_cons]
  have e2 : feed cfg (u ++ [45]) st = gcode_parse_char cfg 45 (feed cfg u st) := by
    rw [feed_append, feed_cons, feed_nil]
  obtain ⟨k1, -, -⟩ := feed_number_chars_keep cfg v hv1 _ m3 m4
  refine ⟨?_, ?_, ?_, ?_⟩
  · rw [e1, feed_cons]
    exact feed_number_chars_congr cfg v hv1 _ _ m3 m4 z3 z4 (m1.trans z1.symm)
  · rw [e2]; exact m1
  · rw [e1]
    exact hsign v hv _ m3 m4 (by rw [m1])
  · rw [e1, k1, m2, u1]

/-- Instance of C12: `1-2` read as one field (after the letter `X`) leaves the
accumulator at sign set, mantissa 2, and the field converts to -2, not -12. -/
theorem sign_placement_witness :
    accumulating_field (feed (Config.sample false false false) [88] State.init)
      ∧ (feed (Config.sample false false false) ([49] ++ 45 :: [50])
          (feed (Config.sample false false false) [88] State.init)).read_digit
          = (feed (Config.sample false false false) (45 :: [50])
              { feed (Config.sample false false false) [88] State.init with
                read_digit := ⟨false, 0, 0⟩ }).read_digit
      ∧ (feed (Config.sample false false false) (45 :: [50])
              { feed (Config.sample false false false) [88] State.init with
                read_digit := ⟨false, 0, 0⟩ }).read_digit = ⟨true, 2, 0⟩
      ∧ decfloat_to_int (feed (Config.sample false false false) ([49] ++ 45 :: [50])
          (feed (Config.sample false false false) [88] State.init)).read_digit 1 1 = -2 :=
  ⟨by decide,
   (sign_placement (Config.sample false false false)
      (feed (Config.sample false false false) [88] State.init) [49] [50]
      (by decide) (by decide) (by decide)).1,
   by decide,
   by decide⟩
/-! ## The record after a line terminator (C13, C14, C15) -/

/-- The record left by lines 315-346. -/
theorem accept_or_resend_next_target (cfg : Config) (st : State) :
    (accept_or_resend cfg st).next_target =
      if line_accepted cfg st.next_target then
        (if (cfg.process_gcode_command st.next_target).seen_N then
          { cfg.process_gcode_command st.next_target with
            N_expected := ((cfg.process_gcode_command st.next_target).N + 1) % 4294967296 }
        else cfg.process_gcode_command st.next_target)
      else st.next_target := by
  unfold accept_or_resend line_accepted
  dsimp only
  cases h1 : linenumber_ok cfg st.next_target
  · rw [if_neg (by simp), if_neg (by simp)]
    rfl
  · cases h2 : checksum_ok cfg st.next_target
    · rw [if_pos rfl, if_neg (by simp), if_neg (by simp)]
      rfl
    · rw [if_pos rfl, if_pos rfl, if_pos (show (true && true) = true from rfl)]
      by_cases h : (cfg.process_gcode_command st.next_target).seen_N = true
      · rw [if_pos h, if_pos h]
      · rw [if_neg h, if_neg h]

/-- The record left by the reset of lines 348-366. -/
theorem reset_variables_next_target (st : State) :
    (reset_variables st).next_target =
      { st.next_target with
        seen_G := true, seen_M := false, seen_X := false, seen_Y := false, seen_Z := false,
        seen_E := false, seen_F := false, seen_S := false, seen_P := false, seen_T := false,
        seen_N := false, seen_checksum := false, seen_semi_comment := false,
        seen_parens_comment := false, G := 1, checksum_read := 0, checksum_calculated := 0,
        target :=
          { X := if st.next_target.option_relative then 0 else st.next_target.target.X,
            Y := if st.next_target.option_relative then 0 else st.next_target.target.Y,
            Z := if st.next_target.option_relative then 0 else st.next_target.target.Z,
            E := 0,
            F := st.next_target.target.F } } := by
  unfold reset_variables
  dsimp only
  cases st.next_target.option_relative <;> rfl

/-- The record after a terminator byte, from the record `s` on which the tests
of lines 315-328 are made. -/
theorem gcode_parse_char_eol_next_target (cfg : Config) (st : State) (c : Nat)
    (hc : c = 10 ∨ c = 13) :
    ∃ a : State,
      (gcode_parse_char cfg c st).next_target = (reset_variables a).next_target
        ∧ (gcode_parse_char cfg c st).last_field = 0
        ∧ (gcode_parse_char cfg c st).read_digit = ⟨false, 0, 0⟩
        ∧ a.next_target.target
            = (record_at_reset cfg (before_end_of_line cfg c st).next_target).target
        ∧ a.next_target.option_relative
            = (record_at_reset cfg (before_end_of_line cfg c st).next_target).option_relative
        ∧ a.next_target.option_inches
            = (record_at_reset cfg (before_end_of_line cfg c st).next_target).option_inches
        ∧ a.next_target.N_expected
            = if line_accepted cfg (before_end_of_line cfg c st).next_target then
                (if (cfg.process_gcode_command
                      (before_end_of_line cfg c st).next_target).seen_N then
                  ((cfg.process_gcode_command
                      (before_end_of_line cfg c st).next_target).N + 1) % 4294967296
                else (cfg.process_gcode_command
                      (before_end_of_line cfg c st).next_target).N_expected)
              else st.next_target.N_expected := by
  have hN := (before_end_of_line_frame cfg c st).1
  refine ⟨accept_or_resend cfg { before_end_of_line cfg c st with
      tx := echo cfg (before_end_of_line cfg c st).tx (Out.serial_writechar c) }, ?_⟩
  rw [gcode_parse_char_of_eol cfg c st hc, accept_or_resend_next_target]
  unfold record_at_reset
  dsimp only
  refine ⟨rfl, rfl, rfl, ?_⟩
  cases h : line_accepted cfg (before_end_of_line cfg c st).next_target
  · rw [if_neg (by simp), if_neg (by simp)]
    exact ⟨rfl, rfl, rfl, hN⟩
  · rw [if_pos rfl, if_pos rfl]
    by_cases hn : (cfg.process_gcode_command (before_end_of_line cfg c st).next_target).seen_N
        = true
    · rw [if_pos hn, if_pos hn]
      exact ⟨rfl, rfl, rfl, rfl⟩
    · rw [if_neg hn, if_neg hn]
      exact ⟨rfl, rfl, rfl, rfl⟩

/-- C13, as amended.  Reset at a line end.  For every parser state, after
`gcode_parse_char` processes a terminator byte (10 or 13), whether the line was
accepted or rejected: every presence flag other than `seen_G` (`seen_M`,
`seen_X`, `seen_Y`, `seen_Z`, `seen_E`, `seen_F`, `seen_S`, `seen_P`, `seen_T`,
`seen_N`, `seen_checksum`), both comment flags, `checksum_read` and
`checksum_calculated` have the value of the zero-initialised record; `seen_G` is
1 and `G` is 1 (the next line is assumed to be a `G1`). -/
theorem reset_at_line_end (cfg : Config) (st : State) (c : Nat) (hc : c = 10 ∨ c = 13) :
    let r := (gcode_parse_char cfg c st).next_target
    r.seen_M = GCODE_COMMAND.zero.seen_M ∧ r.seen_X = GCODE_COMMAND.zero.seen_X
      ∧ r.seen_Y = GCODE_COMMAND.zero.seen_Y ∧ r.seen_Z = GCODE_COMMAND.zero.seen_Z
      ∧ r.seen_E = GCODE_COMMAND.zero.seen_E ∧ r.seen_F = GCODE_COMMAND.zero.seen_F
      ∧ r.seen_S = GCODE_COMMAND.zero.seen_S ∧ r.seen_P = GCODE_COMMAND.zero.seen_P
      ∧ r.seen_T = GCODE_COMMAND.zero.seen_T ∧ r.seen_N = GCODE_COMMAND.zero.seen_N
      ∧ r.seen_checksum = GCODE_COMMAND.zero.seen_checksum
      ∧ r.seen_semi_comment = GCODE_COMMAND.zero.seen_semi_comment
      ∧ r.seen_parens_comment = GCODE_COMMAND.zero.seen_parens_comment
      ∧ r.checksum_read = GCODE_COMMAND.zero.checksum_read
      ∧ r.checksum_calculated = GCODE_COMMAND.zero.checksum_calculated
      ∧ r.seen_G = true ∧ r.G = 1 := by
  intro r
  obtain ⟨a, e, -⟩ := gcode_parse_char_eol_next_target cfg st c hc
  have hr : r = (reset_variables a).next_target := e
  rw [hr, reset_variables_next_target]
  exact ⟨rfl, rfl, rfl, rfl, rfl, rfl, rfl, rfl, rfl, rfl, rfl, rfl, rfl, rfl, rfl, rfl, rfl⟩

/-- Instance of C13: after the line `M104 S200 ;x` the flags `seen_M`, `seen_S`
and `seen_semi_comment` are clear again and `seen_G` is set. -/
theorem reset_at_line_end_witness :
    (feed (Config.sample false false false) [77, 49, 48, 52, 32, 83, 50, 48, 48, 32, 59, 120]
        State.init).next_target.seen_M = true
      ∧ (gcode_parse_char (Config.sample false false false) 10
          (feed (Config.sample false false false)
            [77, 49, 48, 52, 32, 83, 50, 48, 48, 32, 59, 120] State.init)).next_target.seen_M
          = GCODE_COMMAND.zero.seen_M
      ∧ (gcode_parse_char (Config.sample false false false) 10
          (feed (Config.sample false false false)
            [77, 49, 48, 52, 32, 83, 50, 48, 48, 32, 59, 120] State.init)).next_target.seen_G
          = true :=
  ⟨by decide,
   (reset_at_line_end (Config.sample false false false)
      (feed (Config.sample false false false)
        [77, 49, 48, 52, 32, 83, 50, 48, 48, 32, 59, 120] State.init) 10 (Or.inl rfl)).1,
   (reset_at_line_end (Config.sample false false false)
      (feed (Config.sample false false false)
        [77, 49, 48, 52, 32, 83, 50, 48, 48, 32, 59, 120] State.init) 10
      (Or.inl rfl)).2.2.2.2.2.2.2.2.2.2.2.2.2.2.2.1⟩

/-- C13 as stated fails for `seen_G`: at process start `seen_G` is 0, after the
first terminator byte it is 1. -/
theorem reset_at_line_end_counterexample :
    State.init.next_target.seen_G = false
      ∧ (gcode_parse_char (Config.sample false false false) 10 State.init).next_target.seen_G
          = true
      ∧ (gcode_parse_char (Config.sample false false false) 10 State.init).next_target.seen_G
          ≠ State.init.next_target.seen_G := by
  decide

/-- C14. Axis reset at a line end.  For every parser state and terminator byte,
with `s` the record on which the acceptance tests are made and `e` the record
the reset finds (`s` as the executor leaves it for an accepted line, `s` itself
for a rejected one): after the byte `target.E` is 0; `target.X`, `target.Y` and
`target.Z` are 0 if `option_relative` is set and are those of `e` otherwise;
`option_inches` and `option_relative` are those of `e`; on a rejected line `e` is
`s` and `N_expected` is what it was before the byte; and `e` has the axis targets
of `s`, the record handed to the executor, for every executor that does not
write them. -/
theorem axis_reset_at_line_end (cfg : Config) (st : State) (c : Nat)
    (hc : c = 10 ∨ c = 13) :
    let s := (before_end_of_line cfg c st).next_target
    let e := record_at_reset cfg s
    let r := (gcode_parse_char cfg c st).next_target
    r.target.E = 0
      ∧ (r.option_relative = true → r.target.X = 0 ∧ r.target.Y = 0 ∧ r.target.Z = 0)
      ∧ (r.option_relative = false →
          r.target.X = e.target.X ∧ r.target.Y = e.target.Y ∧ r.target.Z = e.target.Z)
      ∧ r.option_inches = e.option_inches
      ∧ r.option_relative = e.option_relative
      ∧ (line_accepted cfg s = false →
          e = s ∧ r.N_expected = st.next_target.N_expected)
      ∧ ((∀ cmd, (cfg.process_gcode_command cmd).target = cmd.target) →
          e.target = s.target) := by
  intro s e r
  obtain ⟨a, h, -, -, ht, hrel, hin, hN⟩ := gcode_parse_char_eol_next_target cfg st c hc
  have hr : r = (reset_variables a).next_target := h
  have hr1 : r.option_relative = a.next_target.option_relative := by
    rw [hr, reset_variables_next_target]
  have hr2 : r.target.X = (if a.next_target.option_relative then 0 else a.next_target.target.X)
      ∧ r.target.Y = (if a.next_target.option_relative then 0 else a.next_target.target.Y)
      ∧ r.target.Z = (if a.next_target.option_relative then 0 else a.next_target.target.Z) := by
    rw [hr, reset_variables_next_target]
    exact ⟨rfl, rfl, rfl⟩
  refine ⟨?_, ?_, ?_, ?_, ?_, ?_, ?_⟩
  · rw [hr, reset_variables_next_target]
  · intro h1
    rw [hr1] at h1
    obtain ⟨x, y, z⟩ := hr2
    rw [x, y, z, h1]
    exact ⟨rfl, rfl, rfl⟩
  · intro h1
    rw [hr1] at h1
    obtain ⟨x, y, z⟩ := hr2
    rw [x, y, z, h1, ht]
    exact ⟨rfl, rfl, rfl⟩
  · rw [hr, reset_variables_next_target]
    exact hin
  · rw [hr1]; exact hrel
  · intro h1
    refine ⟨?_, ?_⟩
    · show record_at_reset cfg s = s
      unfold record_at_reset
      rw [h1]
      rfl
    · rw [hr, reset_variables_N_expected, hN, h1]
      rfl
  · intro h1
    show (record_at_reset cfg s).target = s.target
    unfold record_at_reset
    split_ifs
    · exact h1 s
    · rfl

/-- Instance of C14: in relative mode the line `X5 E2` leaves X = 0 and E = 0
behind; in absolute mode it leaves X = 1600 steps and E = 0. -/
theorem axis_reset_at_line_end_witness :
    ((gcode_parse_char (Config.sample false false false) 10
        (feed (Config.sample false false false) [88, 53, 32, 69, 50]
          { State.init with
            next_target := { GCODE_COMMAND.zero with option_relative := true } })
        ).next_target.target.X = 0)
      ∧ (gcode_parse_char (Config.sample false false false) 10
          (feed (Config.sample false false false) [88, 53, 32, 69, 50] State.init)
          ).next_target.target.X = 1600
      ∧ (gcode_parse_char (Config.sample false false false) 10
          (feed (Config.sample false false false) [88, 53, 32, 69, 50] State.init)
          ).next_target.target.E = 0 :=
  ⟨((axis_reset_at_line_end (Config.sample false false false)
      (feed (Config.sample false false false) [88, 53, 32, 69, 50]
        { State.init with next_target := { GCODE_COMMAND.zero with option_relative := true } })
      10 (Or.inl rfl)).2.1 (by decide)).1,
   by
    rw [((axis_reset_at_line_end (Config.sample false false false)
      (feed (Config.sample false false false) [88, 53, 32, 69, 50] State.init)
      10 (Or.inl rfl)).2.2.1 (by decide)).1]
    decide,
   (axis_reset_at_line_end (Config.sample false false false)
      (feed (Config.sample false false false) [88, 53, 32, 69, 50] State.init)
      10 (Or.inl rfl)).1⟩

/-- C15. The expected line number advances only on acceptance.  For every parser
state and terminator byte, in every build (strict line-numbering or not), with
`s` the record on which the acceptance tests are made and `e` that record as the
executor leaves it: if the line is accepted, `N_expected` becomes `N + 1`
(computed on 32 bits) when `seen_N` is set in `e`, and is the `N_expected` of `e`
otherwise; for an executor that leaves `seen_N`, `N` and `N_expected` alone that
is `N + 1` of the line when an `N` field was seen on it, and `N_expected` as it
was before the byte when none was seen.  If the line is rejected `N_expected` is
what it was before the byte. -/
theorem expected_line_number_advance (cfg : Config) (st : State) (c : Nat)
    (hc : c = 10 ∨ c = 13) :
    let s := (before_end_of_line cfg c st).next_target
    let e := cfg.process_gcode_command s
    let r := (gcode_parse_char cfg c st).next_target
    (line_accepted cfg s = true →
      (e.seen_N = true → r.N_expected = (e.N + 1) % 4294967296)
        ∧ (e.seen_N = true → e.N + 1 < 4294967296 → r.N_expected = e.N + 1)
        ∧ (e.seen_N = false → r.N_expected = e.N_expected)
        ∧ (e.seen_N = s.seen_N ∧ e.N = s.N ∧ e.N_expected = s.N_expected →
            (s.seen_N = true → r.N_expected = (s.N + 1) % 4294967296)
              ∧ (s.seen_N = false → r.N_expected = st.next_target.N_expected)))
      ∧ (line_accepted cfg s = false → r.N_expected = st.next_target.N_expected) := by
  intro s e r
  obtain ⟨a, h, -, -, -, -, -, hN⟩ := gcode_parse_char_eol_next_target cfg st c hc
  have hr : r.N_expected = a.next_target.N_expected := by
    show (gcode_parse_char cfg c st).next_target.N_expected = _
    rw [h, reset_variables_N_expected]
  have hs : s.N_expected = st.next_target.N_expected := (before_end_of_line_frame cfg c st).1
  rw [hr, hN]
  refine ⟨fun hacc => ?_, fun hrej => ?_⟩
  · rw [if_pos hacc]
    refine ⟨?_, ?_, ?_, ?_⟩
    · intro h1
      rw [if_pos h1]
    · intro h1 h2
      rw [if_pos h1]
      exact Nat.mod_eq_of_lt h2
    · intro h1
      rw [if_neg (by rw [h1]; simp)]
    · rintro ⟨k1, k2, k3⟩
      refine ⟨fun h1 => ?_, fun h1 => ?_⟩
      · rw [if_pos (k1.trans h1)]
        show (e.N + 1) % 4294967296 = _
        rw [k2]
      · rw [if_neg (by rw [k1.trans h1]; simp)]
        exact k3.trans hs
  · rw [if_neg (by rw [hrej]; simp)]

/-- Instance of C15: the accepted line `N5` moves `N_expected` from 3 to 6, in a
build with strict line-numbering and in one without; the accepted line `G1`
leaves it at 3. -/
theorem expected_line_number_advance_witness :
    (gcode_parse_char (Config.sample false true false) 10
        (feed (Config.sample false true false) [78, 53]
          { State.init with next_target := { GCODE_COMMAND.zero with N_expected := 3 } })
        ).next_target.N_expected = 5 + 1
      ∧ (gcode_parse_char (Config.sample false false false) 10
        (feed (Config.sample false false false) [78, 53]
          { State.init with next_target := { GCODE_COMMAND.zero with N_expected := 3 } })
        ).next_target.N_expected = 5 + 1
      ∧ (gcode_parse_char (Config.sample false false false) 10
        (feed (Config.sample false false false) [71, 49]
          { State.init with next_target := { GCODE_COMMAND.zero with N_expected := 3 } })
        ).next_target.N_expected = 3 :=
  ⟨((expected_line_number_advance (Config.sample false true false)
      (feed (Config.sample false true false) [78, 53]
        { State.init with next_target := { GCODE_COMMAND.zero with N_expected := 3 } })
      10 (Or.inl rfl)).1 (by decide)).2.1 (by decide) (by decide),
   ((expected_line_number_advance (Config.sample false false false)
      (feed (Config.sample false false false) [78, 53]
        { State.init with next_target := { GCODE_COMMAND.zero with N_expected := 3 } })
      10 (Or.inl rfl)).1 (by decide)).2.1 (by decide) (by decide),
   ((expected_line_number_advance (Config.sample false false false)
      (feed (Config.sample false false false) [71, 49]
        { State.init with next_target := { GCODE_COMMAND.zero with N_expected := 3 } })
      10 (Or.inl rfl)).1 (by decide)).2.2.1 (by decide)⟩
/-! ## The command selector: `G` against `M` (C16) -/

/-- What committing a field does to the two command codes. -/
theorem commit_field_selector (cfg : Config) (st : State) :
    (st.last_field = 71 →
        (commit_field cfg st).next_target.G = st.read_digit.mantissa % 256)
      ∧ (st.last_field ≠ 71 → (commit_field cfg st).next_target.G = st.next_target.G)
      ∧ (st.last_field = 77 →
        (commit_field cfg st).next_target.M = st.read_digit.mantissa % 256)
      ∧ (st.last_field ≠ 77 → (commit_field cfg st).next_target.M = st.next_target.M) := by
  unfold commit_field
  dsimp only
  by_cases h71 : st.last_field = 71
  · rw [if_pos h71]
    exact ⟨fun _ => rfl, fun hn => absurd h71 hn, fun h => absurd h (by omega), fun _ => rfl⟩
  rw [if_neg h71]
  by_cases h77 : st.last_field = 77
  · rw [if_pos h77]
    exact ⟨fun h => absurd h (by omega), fun _ => rfl, fun _ => rfl, fun hn => absurd h77 hn⟩
  rw [if_neg h77]
  by_cases h88 : st.last_field = 88
  · rw [if_pos h88]
    exact ⟨fun h => absurd h (by omega), fun _ => rfl, fun h => absurd h (by omega), fun _ => rfl⟩
  rw [if_neg h88]
  by_cases h89 : st.last_field = 89
  · rw [if_pos h89]
    exact ⟨fun h => absurd h (by omega), fun _ => rfl, fun h => absurd h (by omega), fun _ => rfl⟩
  rw [if_neg h89]
  by_cases h90 : st.last_field = 90
  · rw [if_pos h90]
    exact ⟨fun h => absurd h (by omega), fun _ => rfl, fun h => absurd h (by omega), fun _ => rfl⟩
  rw [if_neg h90]
  by_cases h69 : st.last_field = 69
  · rw [if_pos h69]
    exact ⟨fun h => absurd h (by omega), fun _ => rfl, fun h => absurd h (by omega), fun _ => rfl⟩
  rw [if_neg h69]
  by_cases h70 : st.last_field = 70
  · rw [if_pos h70]
    exact ⟨fun h => absurd h (by omega), fun _ => rfl, fun h => absurd h (by omega), fun _ => rfl⟩
  rw [if_neg h70]
  by_cases h83 : st.last_field = 83
  · rw [if_pos h83]
    exact ⟨fun h => absurd h (by omega), fun _ => rfl, fun h => absurd h (by omega), fun _ => rfl⟩
  rw [if_neg h83]
  by_cases h80 : st.last_field = 80
  · rw [if_pos h80]
    exact ⟨fun h => absurd h (by omega), fun _ => rfl, fun h => absurd h (by omega), fun _ => rfl⟩
  rw [if_neg h80]
  by_cases h84 : st.last_field = 84
  · rw [if_pos h84]
    exact ⟨fun h => absurd h (by omega), fun _ => rfl, fun h => absurd h (by omega), fun _ => rfl⟩
  rw [if_neg h84]
  by_cases h78 : st.last_field = 78
  · rw [if_pos h78]
    exact ⟨fun h => absurd h (by omega), fun _ => rfl, fun h => absurd h (by omega), fun _ => rfl⟩
  rw [if_neg h78]
  by_cases h42 : st.last_field = 42
  · rw [if_pos h42]
    exact ⟨fun h => absurd h (by omega), fun _ => rfl, fun h => absurd h (by omega), fun _ => rfl⟩
  rw [if_neg h42]
  exact ⟨fun h => absurd h h71, fun _ => rfl, fun h => absurd h h77, fun _ => rfl⟩

theorem commit_pending_selector (cfg : Config) (st : State) :
    (st.last_field ≠ 71 → (commit_pending cfg st).next_target.G = st.next_target.G)
      ∧ (st.last_field ≠ 77 → (commit_pending cfg st).next_target.M = st.next_target.M)
      ∧ (commit_pending cfg st).next_target.seen_G = st.next_target.seen_G
      ∧ (commit_pending cfg st).next_target.seen_M = st.next_target.seen_M
      ∧ ((commit_pending cfg st).last_field = st.last_field
          ∨ (commit_pending cfg st).last_field = 0) := by
  have hsel := commit_field_selector cfg st
  have hfl : (commit_pending cfg st).next_target.seen_G = st.next_target.seen_G
      ∧ (commit_pending cfg st).next_target.seen_M = st.next_target.seen_M := by
    obtain ⟨lf, rd, g, m, tg, s, p, t, n, cr, tx, e⟩ := commit_pending_frame cfg st
    rw [e]
    exact ⟨rfl, rfl⟩
  refine ⟨?_, ?_, hfl.1, hfl.2, ?_⟩
  · intro h
    rw [commit_pending_eq]
    by_cases h0 : st.last_field ≠ 0
    · rw [if_pos h0]; exact hsel.2.1 h
    · rw [if_neg h0]
  · intro h
    rw [commit_pending_eq]
    by_cases h0 : st.last_field ≠ 0
    · rw [if_pos h0]; exact hsel.2.2.2 h
    · rw [if_neg h0]
  · rw [commit_pending_eq]
    by_cases h0 : st.last_field ≠ 0
    · rw [if_pos h0]; exact Or.inr rfl
    · rw [if_neg h0]; exact Or.inl rfl

theorem process_previous_field_selector (cfg : Config) (c : Nat) (st : State) :
    (st.last_field ≠ 71 →
        (process_previous_field cfg c st).next_target.G = st.next_target.G)
      ∧ (st.last_field ≠ 77 →
        (process_previous_field cfg c st).next_target.M = st.next_target.M)
      ∧ (process_previous_field cfg c st).next_target.seen_G = st.next_target.seen_G
      ∧ (process_previous_field cfg c st).next_target.seen_M = st.next_target.seen_M
      ∧ ((process_previous_field cfg c st).last_field = st.last_field
          ∨ (process_previous_field cfg c st).last_field = 0) := by
  rw [process_previous_field_eq]
  by_cases h : (is_field_start c || is_eol c) = true
  · rw [if_pos h]; exact commit_pending_selector cfg st
  · rw [if_neg h]; exact ⟨fun _ => rfl, fun _ => rfl, rfl, rfl, Or.inl rfl⟩

theorem process_character_G (cfg : Config) (st : State) :
    process_character cfg 71 st =
      { st with next_target := { st.next_target with seen_G := true, seen_M := false, M := 0 } } := by
  unfold process_character
  dsimp only
  rw [if_pos rfl]

theorem process_character_M (cfg : Config) (st : State) :
    process_character cfg 77 st =
      { st with next_target := { st.next_target with seen_M := true, seen_G := false, G := 0 } } := by
  unfold process_character
  dsimp only
  rw [if_neg (by decide), if_pos rfl]

/-- Bytes other than `G` and `M` leave the selector alone in the switch. -/
theorem process_character_selector (cfg : Config) (c : Nat) (st : State)
    (hG : c ≠ 71) (hM : c ≠ 77) :
    (process_character cfg c st).next_target.G = st.next_target.G
      ∧ (process_character cfg c st).next_target.M = st.next_target.M
      ∧ (process_character cfg c st).next_target.seen_G = st.next_target.seen_G
      ∧ (process_character cfg c st).next_target.seen_M = st.next_target.seen_M
      ∧ (process_character cfg c st).last_field = st.last_field := by
  unfold process_character
  dsimp only
  rw [if_neg hG, if_neg hM]
  by_cases h88 : c = 88
  · rw [if_pos h88]
    exact ⟨rfl, rfl, rfl, rfl, rfl⟩
  rw [if_neg h88]
  by_cases h89 : c = 89
  · rw [if_pos h89]
    exact ⟨rfl, rfl, rfl, rfl, rfl⟩
  rw [if_neg h89]
  by_cases h90 : c = 90
  · rw [if_pos h90]
    exact ⟨rfl, rfl, rfl, rfl, rfl⟩
  rw [if_neg h90]
  by_cases h69 : c = 69
  · rw [if_pos h69]
    exact ⟨rfl, rfl, rfl, rfl, rfl⟩
  rw [if_neg h69]
  by_cases h70 : c = 70
  · rw [if_pos h70]
    exact ⟨rfl, rfl, rfl, rfl, rfl⟩
  rw [if_neg h70]
  by_cases h83 : c = 83
  · rw [if_pos h83]
    exact ⟨rfl, rfl, rfl, rfl, rfl⟩
  rw [if_neg h83]
  by_cases h80 : c = 80
  · rw [if_pos h80]
    exact ⟨rfl, rfl, rfl, rfl, rfl⟩
  rw [if_neg h80]
  by_cases h84 : c = 84
  · rw [if_pos h84]
    exact ⟨rfl, rfl, rfl, rfl, rfl⟩
  rw [if_neg h84]
  by_cases h78 : c = 78
  · rw [if_pos h78]
    exact ⟨rfl, rfl, rfl, rfl, rfl⟩
  rw [if_neg h78]
  by_cases h42 : c = 42
  · rw [if_pos h42]
    exact ⟨rfl, rfl, rfl, rfl, rfl⟩
  rw [if_neg h42]
  by_cases h59 : c = 59
  · rw [if_pos h59]
    exact ⟨rfl, rfl, rfl, rfl, rfl⟩
  rw [if_neg h59]
  by_cases h40 : c = 40
  · rw [if_pos h40]
    exact ⟨rfl, rfl, rfl, rfl, rfl⟩
  rw [if_neg h40]
  by_cases h45 : c = 45
  · rw [if_pos h45]
    exact ⟨rfl, rfl, rfl, rfl, rfl⟩
  rw [if_neg h45]
  by_cases h46 : c = 46
  · rw [if_pos h46]
    exact ⟨rfl, rfl, rfl, rfl, rfl⟩
  rw [if_neg h46]
  split_ifs <;> exact ⟨rfl, rfl, rfl, rfl, rfl⟩

theorem in_comment_false (st : State) (h : in_comment st = false) :
    st.next_target.seen_semi_comment = false ∧ st.next_target.seen_parens_comment = false := by
  unfold in_comment at h
  simpa using h

theorem in_comment_true (st : State) (h : in_comment st = true) :
    ¬ ((!st.next_target.seen_semi_comment && !st.next_target.seen_parens_comment) = true) := by
  unfold in_comment at h
  cases h1 : st.next_target.seen_semi_comment <;> cases h2 : st.next_target.seen_parens_comment
    <;> simp [h1, h2] at h ⊢

/-- What lines 199-302 do to the selector. -/
theorem skip_comments_selector (cfg : Config) (c : Nat) (st : State) :
    (in_comment st = false → c = 71 →
        (skip_comments cfg c st).next_target.seen_G = true
          ∧ (skip_comments cfg c st).next_target.seen_M = false
          ∧ (skip_comments cfg c st).next_target.M = 0
          ∧ (skip_comments cfg c st).last_field = 71)
      ∧ (in_comment st = false → c = 77 →
        (skip_comments cfg c st).next_target.seen_M = true
          ∧ (skip_comments cfg c st).next_target.seen_G = false
          ∧ (skip_comments cfg c st).next_target.G = 0
          ∧ (skip_comments cfg c st).last_field = 77)
      ∧ (in_comment st = true →
        (skip_comments cfg c st).next_target.G = st.next_target.G
          ∧ (skip_comments cfg c st).next_target.M = st.next_target.M
          ∧ (skip_comments cfg c st).next_target.seen_G = st.next_target.seen_G
          ∧ (skip_comments cfg c st).next_target.seen_M = st.next_target.seen_M
          ∧ (skip_comments cfg c st).last_field = st.last_field)
      ∧ (in_comment st = false → c ≠ 71 → c ≠ 77 →
        (skip_comments cfg c st).next_target.G = st.next_target.G
          ∧ (skip_comments cfg c st).next_target.M = st.next_target.M
          ∧ (skip_comments cfg c st).next_target.seen_G = st.next_target.seen_G
          ∧ (skip_comments cfg c st).next_target.seen_M = st.next_target.seen_M
          ∧ ((skip_comments cfg c st).last_field = st.last_field
              ∨ (skip_comments cfg c st).last_field = c)) := by
  refine ⟨?_, ?_, ?_, ?_⟩
  · intro h hc
    obtain ⟨hs, hp⟩ := in_comment_false st h
    subst hc
    unfold skip_comments
    rw [if_pos (by rw [hs, hp]; rfl), if_pos (by decide), process_character_G]
    exact ⟨rfl, rfl, rfl, rfl⟩
  · intro h hc
    obtain ⟨hs, hp⟩ := in_comment_false st h
    subst hc
    unfold skip_comments
    rw [if_pos (by rw [hs, hp]; rfl), if_pos (by decide), process_character_M]
    exact ⟨rfl, rfl, rfl, rfl⟩
  · intro h
    unfold skip_comments
    rw [if_neg (in_comment_true st h)]
    split_ifs <;> exact ⟨rfl, rfl, rfl, rfl, rfl⟩
  · intro h hG hM
    obtain ⟨hs, hp⟩ := in_comment_false st h
    unfold skip_comments
    rw [if_pos (by rw [hs, hp]; rfl)]
    by_cases hf : is_field_start c = true
    · rw [if_pos hf]
      obtain ⟨k1, k2, k3, k4, k5⟩ := process_character_selector cfg c
        { st with last_field := c, tx := echo cfg st.tx (Out.serial_writechar c) } hG hM
      exact ⟨k1, k2, k3, k4, Or.inr k5⟩
    · rw [if_neg hf]
      obtain ⟨k1, k2, k3, k4, k5⟩ := process_character_selector cfg c st hG hM
      exact ⟨k1, k2, k3, k4, Or.inl k5⟩

/-- What a byte does to the selector, up to the end-of-line test: `G` and `M`
outside a comment switch it, and nothing else touches the flags. -/
theorem before_end_of_line_selector (cfg : Config) (c : Nat) (st : State) :
    (in_comment st = false → uppercase (c % 256) = 71 →
        (before_end_of_line cfg c st).next_target.seen_G = true
          ∧ (before_end_of_line cfg c st).next_target.seen_M = false
          ∧ (before_end_of_line cfg c st).next_target.M = 0
          ∧ (before_end_of_line cfg c st).last_field = 71)
      ∧ (in_comment st = false → uppercase (c % 256) = 77 →
        (before_end_of_line cfg c st).next_target.seen_M = true
          ∧ (before_end_of_line cfg c st).next_target.seen_G = false
          ∧ (before_end_of_line cfg c st).next_target.G = 0
          ∧ (before_end_of_line cfg c st).last_field = 77)
      ∧ (in_comment st = true ∨ (uppercase (c % 256) ≠ 71 ∧ uppercase (c % 256) ≠ 77) →
        (before_end_of_line cfg c st).next_target.seen_G = st.next_target.seen_G
          ∧ (before_end_of_line cfg c st).next_target.seen_M = st.next_target.seen_M) := by
  have hpf := process_previous_field_selector cfg (uppercase (c % 256))
    (crc_before cfg (c % 256) st)
  have hpc := process_previous_field_checksum cfg (uppercase (c % 256))
    (crc_before cfg (c % 256) st)
  have hin : in_comment (process_previous_field cfg (uppercase (c % 256))
      (crc_before cfg (c % 256) st)) = in_comment st := by
    unfold in_comment
    rw [hpc.2.2.1, hpc.2.2.2]
    rfl
  have hsk := skip_comments_selector cfg (uppercase (c % 256))
    (process_previous_field cfg (uppercase (c % 256)) (crc_before cfg (c % 256) st))
  rw [hin] at hsk
  obtain ⟨s1, s2, s3, s4⟩ := hsk
  refine ⟨fun h hc => s1 h hc, fun h hc => s2 h hc, fun h => ?_⟩
  show (skip_comments cfg _ _).next_target.seen_G = _ ∧ (skip_comments cfg _ _).next_target.seen_M = _
  by_cases hcm : in_comment st = true
  · obtain ⟨-, -, k3, k4, -⟩ := s3 hcm
    exact ⟨k3.trans hpf.2.2.1, k4.trans hpf.2.2.2.1⟩
  · have hcm1 : in_comment st = false := by simpa using hcm
    rcases h with h | h
    · exact absurd h hcm
    · obtain ⟨-, -, k3, k4, -⟩ := s4 hcm1 h.1 h.2
      exact ⟨k3.trans hpf.2.2.1, k4.trans hpf.2.2.2.1⟩

/-- Once `G` is 0 and no `G` field is pending, it stays so until a `G` field
starts. -/
theorem before_end_of_line_G_zero (cfg : Config) (c : Nat) (st : State)
    (hc : uppercase (c % 256) ≠ 71 ∨ in_comment st = true)
    (hG : st.next_target.G = 0) (hlf : st.last_field ≠ 71) :
    (before_end_of_line cfg c st).next_target.G = 0
      ∧ (before_end_of_line cfg c st).last_field ≠ 71 := by
  have hpf := process_previous_field_selector cfg (uppercase (c % 256))
    (crc_before cfg (c % 256) st)
  have hpc := process_previous_field_checksum cfg (uppercase (c % 256))
    (crc_before cfg (c % 256) st)
  have hin : in_comment (process_previous_field cfg (uppercase (c % 256))
      (crc_before cfg (c % 256) st)) = in_comment st := by
    unfold in_comment
    rw [hpc.2.2.1, hpc.2.2.2]
    rfl
  have hsk := skip_comments_selector cfg (uppercase (c % 256))
    (process_previous_field cfg (uppercase (c % 256)) (crc_before cfg (c % 256) st))
  rw [hin] at hsk
  obtain ⟨-, s2, s3, s4⟩ := hsk
  have hg1 : (process_previous_field cfg (uppercase (c % 256))
      (crc_before cfg (c % 256) st)).next_target.G = 0 := (hpf.1 hlf).trans hG
  have hl1 : (process_previous_field cfg (uppercase (c % 256))
      (crc_before cfg (c % 256) st)).last_field ≠ 71 := by
    rcases hpf.2.2.2.2 with h | h
    · rw [h]; exact hlf
    · rw [h]; decide
  show (skip_comments cfg _ _).next_target.G = 0 ∧ (skip_comments cfg _ _).last_field ≠ 71
  by_cases hcm : in_comment st = true
  · obtain ⟨k1, -, -, -, k5⟩ := s3 hcm
    exact ⟨k1.trans hg1, by rw [k5]; exact hl1⟩
  · have hcm1 : in_comment st = false := by simpa using hcm
    have hc1 : uppercase (c % 256) ≠ 71 := by
      rcases hc with h | h
      · exact h
      · exact absurd h hcm
    by_cases h77 : uppercase (c % 256) = 77
    · obtain ⟨-, -, k3, k4⟩ := s2 hcm1 h77
      exact ⟨k3, by rw [k4]; decide⟩
    · obtain ⟨k1, -, -, -, k5⟩ := s4 hcm1 hc1 h77
      refine ⟨k1.trans hg1, ?_⟩
      rcases k5 with h | h
      · rw [h]; exact hl1
      · rw [h]; exact hc1

/-- Once `M` is 0 and no `M` field is pending, it stays so until an `M` field
starts. -/
theorem before_end_of_line_M_zero (cfg : Config) (c : Nat) (st : State)
    (hc : uppercase (c % 256) ≠ 77 ∨ in_comment st = true)
    (hM : st.next_target.M = 0) (hlf : st.last_field ≠ 77) :
    (before_end_of_line cfg c st).next_target.M = 0
      ∧ (before_end_of_line cfg c st).last_field ≠ 77 := by
  have hpf := process_previous_field_selector cfg (uppercase (c % 256))
    (crc_before cfg (c % 256) st)
  have hpc := process_previous_field_checksum cfg (uppercase (c % 256))
    (crc_before cfg (c % 256) st)
  have hin : in_comment (process_previous_field cfg (uppercase (c % 256))
      (crc_before cfg (c % 256) st)) = in_comment st := by
    unfold in_comment
    rw [hpc.2.2.1, hpc.2.2.2]
    rfl
  have hsk := skip_comments_selector cfg (uppercase (c % 256))
    (process_previous_field cfg (uppercase (c % 256)) (crc_before cfg (c % 256) st))
  rw [hin] at hsk
  obtain ⟨s1, -, s3, s4⟩ := hsk
  have hm1 : (process_previous_field cfg (uppercase (c % 256))
      (crc_before cfg (c % 256) st)).next_target.M = 0 := (hpf.2.1 hlf).trans hM
  have hl1 : (process_previous_field cfg (uppercase (c % 256))
      (crc_before cfg (c % 256) st)).last_field ≠ 77 := by
    rcases hpf.2.2.2.2 with h | h
    · rw [h]; exact hlf
    · rw [h]; decide
  show (skip_comments cfg _ _).next_target.M = 0 ∧ (skip_comments cfg _ _).last_field ≠ 77
  by_cases hcm : in_comment st = true
  · obtain ⟨-, k2, -, -, k5⟩ := s3 hcm
    exact ⟨k2.trans hm1, by rw [k5]; exact hl1⟩
  · have hcm1 : in_comment st = false := by simpa using hcm
    have hc1 : uppercase (c % 256) ≠ 77 := by
      rcases hc with h | h
      · exact h
      · exact absurd h hcm
    by_cases h71 : uppercase (c % 256) = 71
    · obtain ⟨-, -, k3, k4⟩ := s1 hcm1 h71
      exact ⟨k3, by rw [k4]; decide⟩
    · obtain ⟨-, k2, -, -, k5⟩ := s4 hcm1 h71 hc1
      refine ⟨k2.trans hm1, ?_⟩
      rcases k5 with h | h
      · rw [h]; exact hl1
      · rw [h]; exact hc1

theorem no_field_cons (cfg : Config) (L c : Nat) (t : List Nat) (st : State)
    (h : no_field cfg L (c :: t) st = true) :
    (uppercase (c % 256) ≠ L ∨ in_comment st = true)
      ∧ no_field cfg L t (gcode_parse_char cfg c st) = true := by
  unfold no_field at h
  rw [Bool.and_eq_true, Bool.or_eq_true] at h
  refine ⟨?_, h.2⟩
  rcases h.1 with h1 | h1
  · exact Or.inl (by simpa using h1)
  · exact Or.inr h1

theorem feed_G_zero (cfg : Config) (l : List Nat)
    (hl : ∀ x ∈ l, is_eol (uppercase (x % 256)) = false) :
    ∀ st : State, no_field cfg 71 l st = true → st.next_target.G = 0 → st.last_field ≠ 71 →
      (feed cfg l st).next_target.G = 0 ∧ (feed cfg l st).last_field ≠ 71 := by
  induction l with
  | nil => intro st _ h1 h2; exact ⟨h1, h2⟩
  | cons c t ih =>
    intro st hn h1 h2
    obtain ⟨n1, n2⟩ := no_field_cons cfg 71 c t st hn
    rw [feed_cons]
    have e := gcode_parse_char_of_not_eol cfg c st (hl c (List.mem_cons_self c t))
    obtain ⟨k1, k2⟩ := before_end_of_line_G_zero cfg c st n1 h1 h2
    rw [← e] at k1 k2
    exact ih (fun x hx => hl x (List.mem_cons_of_mem c hx)) _ n2 k1 k2

theorem feed_M_zero (cfg : Config) (l : List Nat)
    (hl : ∀ x ∈ l, is_eol (uppercase (x % 256)) = false) :
    ∀ st : State, no_field cfg 77 l st = true → st.next_target.M = 0 → st.last_field ≠ 77 →
      (feed cfg l st).next_target.M = 0 ∧ (feed cfg l st).last_field ≠ 77 := by
  induction l with
  | nil => intro st _ h1 h2; exact ⟨h1, h2⟩
  | cons c t ih =>
    intro st hn h1 h2
    obtain ⟨n1, n2⟩ := no_field_cons cfg 77 c t st hn
    rw [feed_cons]
    have e := gcode_parse_char_of_not_eol cfg c st (hl c (List.mem_cons_self c t))
    obtain ⟨k1, k2⟩ := before_end_of_line_M_zero cfg c st n1 h1 h2
    rw [← e] at k1 k2
    exact ih (fun x hx => hl x (List.mem_cons_of_mem c hx)) _ n2 k1 k2

/-- The two selector flags are never both set after a byte, if they were not
both set before it. -/
theorem gcode_parse_char_selector_exclusive (cfg : Config) (c : Nat) (st : State)
    (h : ¬ (st.next_target.seen_G = true ∧ st.next_target.seen_M = true)) :
    ¬ ((gcode_parse_char cfg c st).next_target.seen_G = true
        ∧ (gcode_parse_char cfg c st).next_target.seen_M = true) := by
  by_cases he : is_eol (uppercase (c % 256)) = true
  · have hM : (gcode_parse_char cfg c st).next_target.seen_M = false := by
      unfold gcode_parse_char end_of_line
      rw [if_pos he, reset_variables_next_target]
    rw [hM]
    simp
  · have he1 : is_eol (uppercase (c % 256)) = false := by simpa using he
    rw [gcode_parse_char_of_not_eol cfg c st he1]
    obtain ⟨s1, s2, s3⟩ := before_end_of_line_selector cfg c st
    by_cases hcm : in_comment st = true
    · obtain ⟨k1, k2⟩ := s3 (Or.inl hcm)
      rw [k1, k2]; exact h
    · have hcm1 : in_comment st = false := by simpa using hcm
      by_cases h71 : uppercase (c % 256) = 71
      · obtain ⟨-, k2, -, -⟩ := s1 hcm1 h71
        rw [k2]; simp
      · by_cases h77 : uppercase (c % 256) = 77
        · obtain ⟨-, k2, -, -⟩ := s2 hcm1 h77
          rw [k2]; simp
        · obtain ⟨k1, k2⟩ := s3 (Or.inr ⟨h71, h77⟩)
          rw [k1, k2]; exact h

theorem feed_selector_exclusive (cfg : Config) (l : List Nat) :
    ∀ st : State, ¬ (st.next_target.seen_G = true ∧ st.next_target.seen_M = true) →
      ¬ ((feed cfg l st).next_target.seen_G = true
          ∧ (feed cfg l st).next_target.seen_M = true) := by
  induction l with
  | nil => intro st h; exact h
  | cons c t ih =>
    intro st h
    rw [feed_cons]
    exact ih _ (gcode_parse_char_selector_exclusive cfg c st h)

/-- C16. `G` and `M` are mutually exclusive.  (1) A `G` byte (either case)
processed outside a comment leaves `seen_G = 1`, `seen_M = 0` and `M = 0`; an `M`
byte leaves `seen_M = 1`, `seen_G = 0` and `G = 0`.  (2) In every state reached
from process start, `seen_G` and `seen_M` are not both set.  (3) For every line
in which an `M` field starts and no `G` field starts after it, the record on
which the terminator makes its tests, which is the record handed to the
executor when the line is accepted, has `G = 0`; and it has `M = 0` for every
line in which a `G` field starts and no `M` field after it.  A field starts at
its letter when the letter arrives outside a comment. -/
theorem G_M_mutually_exclusive (cfg : Config) :
    (∀ (st : State) (c : Nat), in_comment st = false → uppercase (c % 256) = 71 →
        (gcode_parse_char cfg c st).next_target.seen_G = true
          ∧ (gcode_parse_char cfg c st).next_target.seen_M = false
          ∧ (gcode_parse_char cfg c st).next_target.M = 0)
      ∧ (∀ (st : State) (c : Nat), in_comment st = false → uppercase (c % 256) = 77 →
        (gcode_parse_char cfg c st).next_target.seen_M = true
          ∧ (gcode_parse_char cfg c st).next_target.seen_G = false
          ∧ (gcode_parse_char cfg c st).next_target.G = 0)
      ∧ (∀ l : List Nat,
        ¬ ((feed cfg l State.init).next_target.seen_G = true
            ∧ (feed cfg l State.init).next_target.seen_M = true))
      ∧ (∀ (st : State) (m : Nat) (post : List Nat) (c : Nat),
        in_comment st = false → uppercase (m % 256) = 77 →
        (∀ x ∈ post, is_eol (uppercase (x % 256)) = false) →
        no_field cfg 71 post (gcode_parse_char cfg m st) = true →
        c = 10 ∨ c = 13 →
        (before_end_of_line cfg c (feed cfg (m :: post) st)).next_target.G = 0
          ∧ ∀ cmd ∈ executor_calls (feed cfg (m :: post ++ [c]) st).tx,
              cmd ∈ executor_calls st.tx ∨ cmd.G = 0)
      ∧ (∀ (st : State) (g : Nat) (post : List Nat) (c : Nat),
        in_comment st = false → uppercase (g % 256) = 71 →
        (∀ x ∈ post, is_eol (uppercase (x % 256)) = false) →
        no_field cfg 77 post (gcode_parse_char cfg g st) = true →
        c = 10 ∨ c = 13 →
        (before_end_of_line cfg c (feed cfg (g :: post) st)).next_target.M = 0
          ∧ ∀ cmd ∈ executor_calls (feed cfg (g :: post ++ [c]) st).tx,
              cmd ∈ executor_calls st.tx ∨ cmd.M = 0) := by
  have hne : ∀ c : Nat, uppercase (c % 256) = 71 ∨ uppercase (c % 256) = 77 →
      is_eol (uppercase (c % 256)) = false := by
    intro c h
    rcases h with h | h <;> rw [h] <;> rfl
  have hcu : ∀ c : Nat, c = 10 ∨ c = 13 →
      uppercase (c % 256) ≠ 71 ∧ uppercase (c % 256) ≠ 77 := by
    intro c h
    rcases h with h | h <;> subst h <;> decide
  have hcalls : ∀ (st : State) (b : Nat) (post : List Nat) (c : Nat),
      is_eol (uppercase (b % 256)) = false →
      (∀ x ∈ post, is_eol (uppercase (x % 256)) = false) → c = 10 ∨ c = 13 →
      ∀ cmd ∈ executor_calls (feed cfg (b :: post ++ [c]) st).tx,
        cmd ∈ executor_calls st.tx
          ∨ cmd = (before_end_of_line cfg c (feed cfg (b :: post) st)).next_target := by
    intro st b post c hb hpost hc cmd hcmd
    have hl : ∀ x ∈ b :: post, is_eol (uppercase (x % 256)) = false := by
      intro x hx
      rcases List.mem_cons.1 hx with h | h
      · rw [h]; exact hb
      · exact hpost x h
    rw [feed_append, feed_cons, feed_nil, eol_executor_calls cfg c _ hc,
      feed_executor_calls cfg (b :: post) hl st] at hcmd
    rcases List.mem_append.1 hcmd with h | h
    · exact Or.inl h
    · split_ifs at h
      · exact Or.inr (List.mem_singleton.1 h)
      · exact absurd h (List.not_mem_nil _)
  refine ⟨?_, ?_, ?_, ?_, ?_⟩
  · intro st c hcm hc
    rw [gcode_parse_char_of_not_eol cfg c st (hne c (Or.inl hc))]
    obtain ⟨k1, k2, k3, -⟩ := (before_end_of_line_selector cfg c st).1 hcm hc
    exact ⟨k1, k2, k3⟩
  · intro st c hcm hc
    rw [gcode_parse_char_of_not_eol cfg c st (hne c (Or.inr hc))]
    obtain ⟨k1, k2, k3, -⟩ := (before_end_of_line_selector cfg c st).2.1 hcm hc
    exact ⟨k1, k2, k3⟩
  · intro l
    exact feed_selector_exclusive cfg l State.init (by decide)
  · intro st m post c hcm hm hpost hno hc
    have e := gcode_parse_char_of_not_eol cfg m st (hne m (Or.inr hm))
    obtain ⟨-, -, k3, k4⟩ := (before_end_of_line_selector cfg m st).2.1 hcm hm
    rw [← e] at k3 k4
    obtain ⟨f1, f2⟩ := feed_G_zero cfg post hpost _ hno k3 (by rw [k4]; decide)
    have hz : (before_end_of_line cfg c (feed cfg (m :: post) st)).next_target.G = 0 := by
      rw [feed_cons]
      exact (before_end_of_line_G_zero cfg c _ (Or.inl (hcu c hc).1) f1 f2).1
    refine ⟨hz, fun cmd hcmd => ?_⟩
    rcases hcalls st m post c (hne m (Or.inr hm)) hpost hc cmd hcmd with h | h
    · exact Or.inl h
    · exact Or.inr (by rw [h]; exact hz)
  · intro st g post c hcm hg hpost hno hc
    have e := gcode_parse_char_of_not_eol cfg g st (hne g (Or.inl hg))
    obtain ⟨-, -, k3, k4⟩ := (before_end_of_line_selector cfg g st).1 hcm hg
    rw [← e] at k3 k4
    obtain ⟨f1, f2⟩ := feed_M_zero cfg post hpost _ hno k3 (by rw [k4]; decide)
    have hz : (before_end_of_line cfg c (feed cfg (g :: post) st)).next_target.M = 0 := by
      rw [feed_cons]
      exact (before_end_of_line_M_zero cfg c _ (Or.inl (hcu c hc).2) f1 f2).1
    refine ⟨hz, fun cmd hcmd => ?_⟩
    rcases hcalls st g post c (hne g (Or.inl hg)) hpost hc cmd hcmd with h | h
    · exact Or.inl h
    · exact Or.inr (by rw [h]; exact hz)

/-- Instance of C16: in the line `G1 M104 (g)` the `M` field comes last (the `g`
is inside a comment), and the record at the terminator has `G = 0` and
`M = 104`. -/
theorem G_M_mutually_exclusive_witness :
    in_comment (feed (Config.sample false false false) [71, 49, 32] State.init) = false
      ∧ no_field (Config.sample false false false) 71 [49, 48, 52, 32, 40, 103, 41]
          (gcode_parse_char (Config.sample false false false) 77
            (feed (Config.sample false false false) [71, 49, 32] State.init)) = true
      ∧ (before_end_of_line (Config.sample false false false) 10
          (feed (Config.sample false false false) (77 :: [49, 48, 52, 32, 40, 103, 41])
            (feed (Config.sample false false false) [71, 49, 32] State.init))).next_target.G = 0
      ∧ (before_end_of_line (Config.sample false false false) 10
          (feed (Config.sample false false false) (77 :: [49, 48, 52, 32, 40, 103, 41])
            (feed (Config.sample false false false) [71, 49, 32] State.init))).next_target.M
          = 104 :=
  ⟨by decide, by decide,
   ((G_M_mutually_exclusive (Config.sample false false false)).2.2.2.1
      (feed (Config.sample false false false) [71, 49, 32] State.init) 77
      [49, 48, 52, 32, 40, 103, 41] 10 (by decide) (by decide) (by decide) (by decide)
      (Or.inl rfl)).1,
   by decide⟩
/-! ## Letters without a slot (C17) and lower-case letters (C20) -/

theorem known_letter_false (c : Nat) (h : known_letter c = false) :
    c ≠ 71 ∧ c ≠ 77 ∧ c ≠ 88 ∧ c ≠ 89 ∧ c ≠ 90 ∧ c ≠ 69 ∧ c ≠ 70 ∧ c ≠ 83 ∧ c ≠ 80 ∧ c ≠ 84
      ∧ c ≠ 78 := by
  unfold known_letter at h
  simp only [List.mem_cons, List.mem_singleton, List.mem_nil_iff, or_false,
    decide_eq_false_iff_not, not_or] at h
  obtain ⟨h1, h2, h3, h4, h5, h6, h7, h8, h9, h10, h11⟩ := h
  exact ⟨h1, h2, h3, h4, h5, h6, h7, h8, h9, h10, h11⟩

/-- A pending field whose letter has no `case` in the switch of lines 102-192
is committed nowhere. -/
theorem commit_field_unknown (cfg : Config) (st : State)
    (h : known_letter st.last_field = false) (h42 : st.last_field ≠ 42) :
    commit_field cfg st = st := by
  obtain ⟨h1, h2, h3, h4, h5, h6, h7, h8, h9, h10, h11⟩ := known_letter_false _ h
  unfold commit_field
  dsimp only
  rw [if_neg h1, if_neg h2, if_neg h3, if_neg h4, if_neg h5, if_neg h6, if_neg h7,
    if_neg h8, if_neg h9, if_neg h10, if_neg h11, if_neg h42]

/-- The byte `c` as the decoder sees it after case folding, for a letter. -/
theorem uppercase_letter (c : Nat) (h : is_letter c = true) :
    65 ≤ uppercase (c % 256) ∧ uppercase (c % 256) ≤ 90 := by
  unfold is_letter at h
  simp only [Bool.or_eq_true, Bool.and_eq_true, decide_eq_true_eq] at h
  have hb : c % 256 = c := Nat.mod_eq_of_lt (by omega)
  rw [hb]
  rcases h with h | h
  · rw [uppercase_of_not_lower c (by omega)]; exact h
  · rw [uppercase_of_lower c h.1 h.2]; omega

/-- States that agree on the field letter, the accumulator and the record agree
up to the checksum accumulator and the log. -/
theorem core_eq_of (s1 s2 : State) (h1 : s1.last_field = s2.last_field)
    (h2 : s1.read_digit = s2.read_digit) (h3 : s1.next_target = s2.next_target) :
    s1.core = s2.core := by
  unfold State.core
  rw [h1, h2, h3]

/-- The state after a letter without a slot, outside a comment, up to the
checksum accumulator and the log: the pending field is committed and the letter
is the new pending field. -/
theorem gcode_parse_char_unknown_letter (cfg : Config) (st : State) (c : Nat)
    (hl : is_letter c = true) (hk : known_letter (uppercase (c % 256)) = false)
    (hcm : in_comment st = false) :
    (gcode_parse_char cfg c st).core
      = ({ commit_pending cfg st with last_field := uppercase (c % 256) } : State).core := by
  obtain ⟨hf, he⟩ := letter_starts_field c hl
  obtain ⟨hs, hp⟩ := in_comment_false st hcm
  obtain ⟨u1, u2⟩ := uppercase_letter c hl
  obtain ⟨k1, k2, k3, k4, k5, k6, k7, k8, k9, k10, k11⟩ := known_letter_false _ hk
  have hfl := commit_pending_flags cfg st
  rw [gcode_parse_char_of_not_eol cfg c st he,
    before_end_of_line_closing cfg c st (by rw [hf]; rfl)]
  unfold skip_comments
  rw [if_pos (by
    show (!(commit_pending cfg st).next_target.seen_semi_comment
      && !(commit_pending cfg st).next_target.seen_parens_comment) = true
    rw [hfl.2.1, hfl.2.2.1, hs, hp]; rfl), if_pos hf]
  have hc : has_case (uppercase (c % 256)) = false := by
    unfold has_case
    simp only [List.mem_cons, List.mem_singleton, List.mem_nil_iff, or_false,
      decide_eq_false_iff_not, not_or]
    refine ⟨k1, k2, k3, k4, k5, k6, k7, k8, k9, k10, k11, ?_, ?_, ?_, ?_, ?_⟩ <;> omega
  obtain ⟨p1, p2, p3⟩ := process_character_other cfg (uppercase (c % 256))
    { (commit_pending cfg st).core with
      last_field := uppercase (c % 256),
      tx := echo cfg (commit_pending cfg st).core.tx
        (Out.serial_writechar (uppercase (c % 256))) } hc (by omega)
  exact (core_eq_of _ _ p3 p2 p1).trans rfl

/-- C17, as amended.  A letter without a slot starts a field all the same.  For
every letter `c` (either case) outside {G, M, X, Y, Z, E, F, S, P, T, N} and
every parser state outside a comment, feeding `c` closes the pending field as
any field letter does (the field is committed to its slot and the accumulator
cleared; with no field pending the accumulator is left as it is) and makes the
letter the pending field: `last_field` is the letter in upper case, no presence
flag is set, and no slot changes but the one of the field that was pending.
When the field of such a letter is closed in turn, its value is stored
nowhere. -/
theorem unknown_letter_starts_field (cfg : Config) (st : State) (c : Nat)
    (hl : is_letter c = true) (hk : known_letter (uppercase (c % 256)) = false)
    (hcm : in_comment st = false) :
    (gcode_parse_char cfg c st).last_field = uppercase (c % 256)
      ∧ (gcode_parse_char cfg c st).read_digit
          = (if st.last_field ≠ 0 then ⟨false, 0, 0⟩ else st.read_digit)
      ∧ (gcode_parse_char cfg c st).next_target.without_checksum
          = (commit_pending cfg st).next_target.without_checksum
      ∧ (st.last_field = 0 →
          (gcode_parse_char cfg c st).next_target.without_checksum
            = st.next_target.without_checksum)
      ∧ commit_field cfg (gcode_parse_char cfg c st) = gcode_parse_char cfg c st := by
  have h := gcode_parse_char_unknown_letter cfg st c hl hk hcm
  have h1 : (gcode_parse_char cfg c st).last_field = uppercase (c % 256) := by
    have e := congrArg State.last_field h
    exact e
  have h2 : (gcode_parse_char cfg c st).read_digit = (commit_pending cfg st).read_digit := by
    have e := congrArg State.read_digit h
    exact e
  have h3 := without_checksum_core _ _ h
  obtain ⟨u1, u2⟩ := uppercase_letter c hl
  refine ⟨h1, ?_, h3, ?_, ?_⟩
  · rw [h2, commit_pending_read_digit]
  · intro h0
    rw [h3, commit_pending_eq, if_neg (by rw [h0]; simp)]
  · exact commit_field_unknown cfg _ (by rw [h1]; exact hk) (by rw [h1]; omega)

/-- Instance of C17: after `X5`, the letter `A` commits X = 1600 steps, clears
the accumulator and becomes the pending field. -/
theorem unknown_letter_starts_field_witness :
    is_letter 65 = true ∧ known_letter (uppercase (65 % 256)) = false
      ∧ (gcode_parse_char (Config.sample false false false) 65
          (feed (Config.sample false false false) [88, 53] State.init)).last_field
          = uppercase (65 % 256)
      ∧ (gcode_parse_char (Config.sample false false false) 65
          (feed (Config.sample false false false) [88, 53] State.init)).read_digit
          = ⟨false, 0, 0⟩ :=
  ⟨by decide, by decide,
   (unknown_letter_starts_field (Config.sample false false false)
      (feed (Config.sample false false false) [88, 53] State.init) 65
      (by decide) (by decide) (by decide)).1,
   (unknown_letter_starts_field (Config.sample false false false)
      (feed (Config.sample false false false) [88, 53] State.init) 65
      (by decide) (by decide) (by decide)).2.1⟩

/-- C17 as stated fails: after `X5`, outside a comment, the letter `A` (not a
field letter of the record) changes `last_field` from 88 to 65, clears the
accumulator (5 before the byte) and writes the slot X (0 before the byte, 1600
steps after it). -/
theorem unknown_letter_starts_field_counterexample :
    known_letter 65 = false
      ∧ in_comment (feed (Config.sample false false false) [88, 53] State.init) = false
      ∧ (feed (Config.sample false false false) [88, 53] State.init).last_field = 88
      ∧ (gcode_parse_char (Config.sample false false false) 65
          (feed (Config.sample false false false) [88, 53] State.init)).last_field = 65
      ∧ (feed (Config.sample false false false) [88, 53] State.init).read_digit
          = ⟨false, 5, 0⟩
      ∧ (gcode_parse_char (Config.sample false false false) 65
          (feed (Config.sample false false false) [88, 53] State.init)).read_digit
          = ⟨false, 0, 0⟩
      ∧ (feed (Config.sample false false false) [88, 53] State.init).next_target.target.X = 0
      ∧ (gcode_parse_char (Config.sample false false false) 65
          (feed (Config.sample false false false) [88, 53] State.init)).next_target.target.X
          = 1600 := by
  decide

theorem crc_before_default (cfg : Config) (c : Nat) (st : State)
    (h : cfg.ASTERISK_IN_CHECKSUM_INCLUDED = false) : crc_before cfg c st = st := by
  unfold crc_before
  rw [h]
  rfl

/-- C20. Case folding.  For every parser state and every lower-case letter `c`
(`a` to `z`), `gcode_parse_char c` leaves the same `last_field`, the same
accumulator and the same command record, checksum accumulator apart, as
`gcode_parse_char (c - 32)` from the same state; neither byte ends a line, so
neither calls the executor or asks for a resend; and in the default build (no
`ASTERISK_IN_CHECKSUM_INCLUDED`) the two states are equal altogether. -/
theorem case_folding (cfg : Config) (st : State) (c : Nat) (h1 : 97 ≤ c) (h2 : c ≤ 122) :
    (gcode_parse_char cfg c st).last_field = (gcode_parse_char cfg (c - 32) st).last_field
      ∧ (gcode_parse_char cfg c st).read_digit = (gcode_parse_char cfg (c - 32) st).read_digit
      ∧ (gcode_parse_char cfg c st).next_target.without_checksum
          = (gcode_parse_char cfg (c - 32) st).next_target.without_checksum
      ∧ executor_calls (gcode_parse_char cfg c st).tx
          = executor_calls (gcode_parse_char cfg (c - 32) st).tx
      ∧ resend_messages (gcode_parse_char cfg c st).tx
          = resend_messages (gcode_parse_char cfg (c - 32) st).tx
      ∧ (cfg.ASTERISK_IN_CHECKSUM_INCLUDED = false →
          gcode_parse_char cfg c st = gcode_parse_char cfg (c - 32) st) := by
  have hl : is_letter c = true := by
    unfold is_letter
    simp only [Bool.or_eq_true, Bool.and_eq_true, decide_eq_true_eq]
    omega
  have hu : is_letter (c - 32) = true := by
    unfold is_letter
    simp only [Bool.or_eq_true, Bool.and_eq_true, decide_eq_true_eq]
    omega
  have e1 : uppercase (c % 256) = c - 32 := by
    rw [Nat.mod_eq_of_lt (by omega)]
    exact uppercase_of_lower c h1 h2
  have e2 : uppercase ((c - 32) % 256) = c - 32 := by
    rw [Nat.mod_eq_of_lt (by omega)]
    exact uppercase_of_not_lower (c - 32) (Or.inl (by omega))
  obtain ⟨f1, n1⟩ := letter_starts_field c hl
  obtain ⟨f2, n2⟩ := letter_starts_field (c - 32) hu
  rw [gcode_parse_char_of_not_eol cfg c st n1, gcode_parse_char_of_not_eol cfg (c - 32) st n2]
  have hcore : (before_end_of_line cfg c st).core = (before_end_of_line cfg (c - 32) st).core := by
    rw [before_end_of_line_closing cfg c st (by rw [f1]; rfl),
      before_end_of_line_closing cfg (c - 32) st (by rw [f2]; rfl), e1, e2]
  refine ⟨?_, ?_, without_checksum_core _ _ hcore, ?_, ?_, ?_⟩
  · have e := congrArg State.last_field hcore
    exact e
  · have e := congrArg State.read_digit hcore
    exact e
  · rw [before_end_of_line_executor_calls, before_end_of_line_executor_calls]
  · rw [before_end_of_line_resend_messages, before_end_of_line_resend_messages]
  · intro ha
    unfold before_end_of_line
    dsimp only
    rw [crc_before_default cfg _ st ha, crc_before_default cfg _ st ha, e1, e2]

/-- Instance of C20: `x` after `G1 ` starts the field `X` exactly as `X` does. -/
theorem case_folding_witness :
    (gcode_parse_char (Config.sample true false false) 120
        (feed (Config.sample true false false) [71, 49, 32] State.init)).last_field
        = (gcode_parse_char (Config.sample true false false) (120 - 32)
            (feed (Config.sample true false false) [71, 49, 32] State.init)).last_field
      ∧ (gcode_parse_char (Config.sample true false false) (120 - 32)
            (feed (Config.sample true false false) [71, 49, 32] State.init)).last_field = 88
      ∧ (gcode_parse_char (Config.sample true false false) 120
            (feed (Config.sample true false false) [71, 49, 32] State.init)
          ).next_target.checksum_calculated
          ≠ (gcode_parse_char (Config.sample true false false) (120 - 32)
            (feed (Config.sample true false false) [71, 49, 32] State.init)
          ).next_target.checksum_calculated :=
  ⟨(case_folding (Config.sample true false false)
      (feed (Config.sample true false false) [71, 49, 32] State.init) 120
      (by decide) (by decide)).1,
   by decide, by decide⟩
/-! ## The caps of the accumulator (C18) -/

/-- The index used by `decfloat_to_int` is `rounding_index`. -/
theorem decfloat_to_int_rounding_index (df : decfloat) (multiplicand : Int)
    (denominator : Nat) :
    decfloat_to_int df multiplicand denominator =
      (let r : Int := i32 df.mantissa
       let e : Nat := rounding_index df
       let rnew1 : Int := i32 (u32 r * (u32 multiplicand / denominator) : Nat)
       let r : Int :=
         if e ≠ 0 then
           i32 ((u32 (i32 (i32 (rnew1 + i32 ((u32 r * (u32 multiplicand % denominator)
             % 4294967296 / denominator : Nat))) + rounding e)) / powers e : Nat))
         else
           i32 (rnew1 + i32 (((u32 r * (u32 multiplicand % denominator) + denominator / 2)
             % 4294967296 / denominator : Nat)))
       if df.sign then i32 (-r) else r) := rfl

/-- A byte that is not `-`, `.` or a digit below the caps leaves the accumulator
alone in the switch. -/
theorem process_character_read_digit_same (cfg : Config) (c : Nat) (st : State)
    (h45 : c ≠ 45) (h46 : c ≠ 46)
    (hd : ¬ (48 ≤ c ∧ c ≤ 57 ∧ st.read_digit.mantissa < cfg.DECFLOAT_MANT_MAX / 10
      ∧ st.read_digit.exponent < cfg.DECFLOAT_EXP_MAX)) :
    (process_character cfg c st).read_digit = st.read_digit := by
  unfold process_character
  dsimp only
  by_cases h71 : c = 71
  · rw [if_pos h71]
  rw [if_neg h71]
  by_cases h77 : c = 77
  · rw [if_pos h77]
  rw [if_neg h77]
  by_cases h88 : c = 88
  · rw [if_pos h88]
  rw [if_neg h88]
  by_cases h89 : c = 89
  · rw [if_pos h89]
  rw [if_neg h89]
  by_cases h90 : c = 90
  · rw [if_pos h90]
  rw [if_neg h90]
  by_cases h69 : c = 69
  · rw [if_pos h69]
  rw [if_neg h69]
  by_cases h70 : c = 70
  · rw [if_pos h70]
  rw [if_neg h70]
  by_cases h83 : c = 83
  · rw [if_pos h83]
  rw [if_neg h83]
  by_cases h80 : c = 80
  · rw [if_pos h80]
  rw [if_neg h80]
  by_cases h84 : c = 84
  · rw [if_pos h84]
  rw [if_neg h84]
  by_cases h78 : c = 78
  · rw [if_pos h78]
  rw [if_neg h78]
  by_cases h42 : c = 42
  · rw [if_pos h42]
  rw [if_neg h42]
  by_cases h59 : c = 59
  · rw [if_pos h59]
  rw [if_neg h59]
  by_cases h40 : c = 40
  · rw [if_pos h40]
  rw [if_neg h40]
  rw [if_neg h45, if_neg h46]
  split_ifs <;> rfl

/-- The accumulator after the switch of lines 209-300. -/
theorem process_character_read_digit (cfg : Config) (c : Nat) (st : State) :
    (process_character cfg c st).read_digit =
      if c = 45 then ⟨true, 0, 0⟩
      else if c = 46 then
        ⟨st.read_digit.sign, st.read_digit.mantissa,
          if st.read_digit.exponent = 0 then 1 else st.read_digit.exponent⟩
      else if 48 ≤ c ∧ c ≤ 57 ∧ st.read_digit.mantissa < cfg.DECFLOAT_MANT_MAX / 10
          ∧ st.read_digit.exponent < cfg.DECFLOAT_EXP_MAX then
        ⟨st.read_digit.sign, 10 * st.read_digit.mantissa + (c - 48),
          if st.read_digit.exponent = 0 then 0 else st.read_digit.exponent + 1⟩
      else st.read_digit := by
  by_cases h45 : c = 45
  · subst h45
    rw [process_character_minus, if_pos rfl]
  rw [if_neg h45]
  by_cases h46 : c = 46
  · subst h46
    rw [process_character_point, if_pos rfl]
  rw [if_neg h46]
  by_cases hd : 48 ≤ c ∧ c ≤ 57 ∧ st.read_digit.mantissa < cfg.DECFLOAT_MANT_MAX / 10
      ∧ st.read_digit.exponent < cfg.DECFLOAT_EXP_MAX
  · rw [if_pos hd, process_character_digit cfg c st hd.1 hd.2.1 hd.2.2.1 hd.2.2.2]
  · rw [if_neg hd]
    exact process_character_read_digit_same cfg c st h45 h46 hd

theorem process_character_within_caps (cfg : Config) (c : Nat) (st : State)
    (hM : 0 < cfg.DECFLOAT_MANT_MAX) (hE : 0 < cfg.DECFLOAT_EXP_MAX)
    (h : within_caps cfg st.read_digit) :
    within_caps cfg (process_character cfg c st).read_digit := by
  rw [process_character_read_digit]
  unfold within_caps at h ⊢
  obtain ⟨h1, h2⟩ := h
  by_cases h45 : c = 45
  · rw [if_pos h45]
    exact ⟨hM, Nat.zero_le _⟩
  rw [if_neg h45]
  by_cases h46 : c = 46
  · rw [if_pos h46]
    refine ⟨h1, ?_⟩
    show (if st.read_digit.exponent = 0 then 1 else st.read_digit.exponent)
      ≤ cfg.DECFLOAT_EXP_MAX
    split_ifs
    · exact hE
    · exact h2
  rw [if_neg h46]
  by_cases hd : 48 ≤ c ∧ c ≤ 57 ∧ st.read_digit.mantissa < cfg.DECFLOAT_MANT_MAX / 10
      ∧ st.read_digit.exponent < cfg.DECFLOAT_EXP_MAX
  · rw [if_pos hd]
    obtain ⟨d1, d2, d3, d4⟩ := hd
    refine ⟨?_, ?_⟩
    · show 10 * st.read_digit.mantissa + (c - 48) < cfg.DECFLOAT_MANT_MAX
      omega
    · show (if st.read_digit.exponent = 0 then 0 else st.read_digit.exponent + 1)
        ≤ cfg.DECFLOAT_EXP_MAX
      split_ifs
      · exact Nat.zero_le _
      · omega
  · rw [if_neg hd]
    exact ⟨h1, h2⟩

theorem skip_comments_read_digit (cfg : Config) (c : Nat) (st : State) :
    (skip_comments cfg c st).read_digit
      = if in_comment st then st.read_digit else (process_character cfg c st).read_digit := by
  by_cases hcm : in_comment st = true
  · rw [if_pos hcm]
    unfold skip_comments
    rw [if_neg (in_comment_true st hcm)]
    split_ifs <;> rfl
  · rw [if_neg hcm]
    obtain ⟨hs, hp⟩ := in_comment_false st (by simpa using hcm)
    unfold skip_comments
    rw [if_pos (by rw [hs, hp]; rfl)]
    exact process_character_read_digit_congr cfg c _ st (by split_ifs <;> rfl)

theorem process_previous_field_read_digit (cfg : Config) (c : Nat) (st : State) :
    (process_previous_field cfg c st).read_digit = st.read_digit
      ∨ (process_previous_field cfg c st).read_digit = ⟨false, 0, 0⟩ := by
  rw [process_previous_field_eq]
  by_cases h : (is_field_start c || is_eol c) = true
  · rw [if_pos h, commit_pending_read_digit]
    split_ifs
    · exact Or.inr rfl
    · exact Or.inl rfl
  · rw [if_neg h]; exact Or.inl rfl

/-- One byte keeps the accumulator within its caps. -/
theorem gcode_parse_char_within_caps (cfg : Config) (c : Nat) (st : State)
    (hM : 0 < cfg.DECFLOAT_MANT_MAX) (hE : 0 < cfg.DECFLOAT_EXP_MAX)
    (h : within_caps cfg st.read_digit) :
    within_caps cfg (gcode_parse_char cfg c st).read_digit := by
  have hz : within_caps cfg ⟨false, 0, 0⟩ := ⟨hM, Nat.zero_le _⟩
  by_cases he : is_eol (uppercase (c % 256)) = true
  · have e : (gcode_parse_char cfg c st).read_digit = ⟨false, 0, 0⟩ := by
      unfold gcode_parse_char end_of_line
      rw [if_pos he]
      rfl
    rw [e]; exact hz
  · rw [gcode_parse_char_of_not_eol cfg c st (by simpa using he)]
    have hp : within_caps cfg (process_previous_field cfg (uppercase (c % 256))
        (crc_before cfg (c % 256) st)).read_digit := by
      rcases process_previous_field_read_digit cfg (uppercase (c % 256))
        (crc_before cfg (c % 256) st) with e | e
      · rw [e]; exact h
      · rw [e]; exact hz
    show within_caps cfg (skip_comments cfg (uppercase (c % 256))
      (process_previous_field cfg (uppercase (c % 256)) (crc_before cfg (c % 256) st))).read_digit
    rw [skip_comments_read_digit]
    split_ifs
    · exact hp
    · exact process_character_within_caps cfg _ _ hM hE hp

theorem feed_within_caps (cfg : Config) (l : List Nat)
    (hM : 0 < cfg.DECFLOAT_MANT_MAX) (hE : 0 < cfg.DECFLOAT_EXP_MAX) :
    ∀ st : State, within_caps cfg st.read_digit → within_caps cfg (feed cfg l st).read_digit := by
  induction l with
  | nil => intro st h; exact h
  | cons c t ih =>
    intro st h
    rw [feed_cons]
    exact ih _ (gcode_parse_char_within_caps cfg c st hM hE h)

theorem rounding_index_lt (cfg : Config) (rd : decfloat) (hE : 0 < cfg.DECFLOAT_EXP_MAX)
    (h : within_caps cfg rd) : rounding_index rd < cfg.DECFLOAT_EXP_MAX := by
  unfold rounding_index
  dsimp only
  have h1 : rd.exponent % 256 ≤ rd.exponent := Nat.mod_le _ _
  have h2 := h.2
  split_ifs <;> omega

/-- C18. Accumulator caps.  In a build with `DECFLOAT_MANT_MAX > 0` and
`DECFLOAT_EXP_MAX > 0`: after any byte sequence fed to `gcode_parse_char` from
process start, `read_digit.mantissa < DECFLOAT_MANT_MAX` and
`read_digit.exponent <= DECFLOAT_EXP_MAX`, so the index `e` at which
`decfloat_to_int` reads `rounding[]` for that accumulator, `max(exponent - 1, 0)`
(taken through a `uint8_t`, which changes nothing when `DECFLOAT_EXP_MAX < 256`),
is below `DECFLOAT_EXP_MAX`; and in every state, a digit
that arrives when `mantissa >= DECFLOAT_MANT_MAX / 10` or
`exponent = DECFLOAT_EXP_MAX` leaves the accumulator as it is. -/
theorem accumulator_caps (cfg : Config)
    (hM : 0 < cfg.DECFLOAT_MANT_MAX) (hE : 0 < cfg.DECFLOAT_EXP_MAX) :
    (∀ l : List Nat,
        (feed cfg l State.init).read_digit.mantissa < cfg.DECFLOAT_MANT_MAX
          ∧ (feed cfg l State.init).read_digit.exponent ≤ cfg.DECFLOAT_EXP_MAX
          ∧ rounding_index (feed cfg l State.init).read_digit < cfg.DECFLOAT_EXP_MAX
          ∧ max ((feed cfg l State.init).read_digit.exponent - 1) 0 < cfg.DECFLOAT_EXP_MAX
          ∧ (cfg.DECFLOAT_EXP_MAX < 256 →
              rounding_index (feed cfg l State.init).read_digit
                = max ((feed cfg l State.init).read_digit.exponent - 1) 0))
      ∧ (∀ (st : State) (d : Nat), 48 ≤ d → d ≤ 57 →
          cfg.DECFLOAT_MANT_MAX / 10 ≤ st.read_digit.mantissa
            ∨ st.read_digit.exponent = cfg.DECFLOAT_EXP_MAX →
          (gcode_parse_char cfg d st).read_digit = st.read_digit) := by
  refine ⟨fun l => ?_, fun st d d1 d2 hcap => ?_⟩
  · have h := feed_within_caps cfg l hM hE State.init ⟨hM, Nat.zero_le _⟩
    have h2 := h.2
    refine ⟨h.1, h.2, rounding_index_lt cfg _ hE h, ?_, fun h256 => ?_⟩
    · rw [Nat.max_eq_left (Nat.zero_le _)]
      omega
    · unfold rounding_index
      dsimp only
      rw [Nat.mod_eq_of_lt (by omega), Nat.max_eq_left (Nat.zero_le _)]
      split_ifs <;> omega
  · have hd : d % 256 = d := Nat.mod_eq_of_lt (by omega)
    have hu : uppercase (d % 256) = d := by
      rw [hd]; exact uppercase_of_not_lower d (Or.inl (by omega))
    have hf : is_field_start d = false := by
      unfold is_field_start
      have a1 : ¬ 65 ≤ d := by omega
      have a2 : ¬ d = 42 := by omega
      simp [a1, a2]
    have he : is_eol d = false := by
      unfold is_eol
      have a1 : ¬ d = 10 := by omega
      have a2 : ¬ d = 13 := by omega
      simp [a1, a2]
    rw [gcode_parse_char_of_not_eol cfg d st (by rw [hu]; exact he)]
    show (skip_comments cfg (uppercase (d % 256))
      (process_previous_field cfg (uppercase (d % 256)) (crc_before cfg (d % 256) st))).read_digit
      = st.read_digit
    rw [hu, process_previous_field_eq, if_neg (by rw [hf, he]; simp), skip_comments_read_digit]
    split_ifs
    · rfl
    · exact process_character_read_digit_same cfg d _ (by omega) (by omega)
        (by
          show ¬ (48 ≤ d ∧ d ≤ 57 ∧ st.read_digit.mantissa < cfg.DECFLOAT_MANT_MAX / 10
            ∧ st.read_digit.exponent < cfg.DECFLOAT_EXP_MAX)
          omega)

/-- Instance of C18, for the sample build (cap 16777215, seven fractional
digits): after `X123456789` the ninth digit is dropped, and after
`X.12345678` the accumulator has exponent 7 and `rounding[]` is read at index
6. -/
theorem accumulator_caps_witness :
    0 < (Config.sample false false false).DECFLOAT_MANT_MAX
      ∧ 0 < (Config.sample false false false).DECFLOAT_EXP_MAX
      ∧ (feed (Config.sample false false false)
          [88, 49, 50, 51, 52, 53, 54, 55, 56, 57] State.init).read_digit.mantissa
          < (Config.sample false false false).DECFLOAT_MANT_MAX
      ∧ (feed (Config.sample false false false)
          [88, 49, 50, 51, 52, 53, 54, 55, 56, 57] State.init).read_digit = ⟨false, 12345678, 0⟩
      ∧ rounding_index (feed (Config.sample false false false)
          [88, 46, 49, 50, 51, 52, 53, 54, 55, 56] State.init).read_digit
          < (Config.sample false false false).DECFLOAT_EXP_MAX
      ∧ rounding_index (feed (Config.sample false false false)
          [88, 46, 49, 50, 51, 52, 53, 54, 55, 56] State.init).read_digit = 6 :=
  ⟨by decide, by decide,
   ((accumulator_caps (Config.sample false false false) (by decide) (by decide)).1
      [88, 49, 50, 51, 52, 53, 54, 55, 56, 57]).1,
   by decide,
   ((accumulator_caps (Config.sample false false false) (by decide) (by decide)).1
      [88, 46, 49, 50, 51, 52, 53, 54, 55, 56]).2.2.1,
   by decide⟩

/-! ## The accumulator at a field start (C19) -/

/-- C19 at the line `5X1`, read from process start in the sample build (320
steps per millimetre).  No field is pending when the digit `5` arrives, so the
"reset for next field" of lines 193-195 does not run at `X`: right after the
letter `X`, outside a comment, the accumulator holds 5, the field `X1` is
committed as 51 mm (16320 steps), and that is the record handed to the executor;
the line `X1` alone gives 320 steps.  The same happens at `*`: after `7*` the
accumulator holds 7. -/
theorem accumulator_at_field_start :
    in_comment (feed (Config.sample false false false) [53] State.init) = false
      ∧ (feed (Config.sample false false false) [53] State.init).last_field = 0
      ∧ (feed (Config.sample false false false) [53, 88] State.init).last_field = 88
      ∧ (feed (Config.sample false false false) [53, 88] State.init).read_digit
          = ⟨false, 5, 0⟩
      ∧ (executor_calls (feed (Config.sample false false false) [53, 88, 49, 10]
          State.init).tx).map (fun cmd => cmd.target.X) = [16320]
      ∧ (executor_calls (feed (Config.sample false false false) [88, 49, 10]
          State.init).tx).map (fun cmd => cmd.target.X) = [320]
      ∧ (feed (Config.sample false false false) [55, 42] State.init).read_digit
          = ⟨false, 7, 0⟩ := by
  decide

end GcodeParse
